import Mathlib

/-!
Verification of the RangeKeeper band-rebalance core against its
natural-language specification.

The development is a shallow embedding of the TypeScript sources:

* `src/util/tick-math.ts`        → tick alignment and bounds
* `src/core/range-calculator.ts` → `calculateBands`
* `src/core/band-manager.ts`     → `BandManager` (pure list functions)
* `src/chain/gas-oracle.ts`      → `GasOracle` baseline / spike logic
* `src/persistence/state-store.ts` → persisted pool state
* `src/core/rebalance-engine.ts` → the per-pool engine state machine

Machine numbers: token balances, liquidity and token ids are ethers
`BigNumber`s (arbitrary-precision, non-negative in all uses here) and are
embedded as `Nat`; ticks are JS safe integers embedded as `Int`.  JS floats
appearing in prices, EMA weights and USD values are embedded as exact
rationals (`ℚ`); `tickToPrice` (`1.0001^tick`, a transcendental float) is
kept abstract as a parameter `ttp : Int → ℚ`, and the integer
`tickOffset = floor(log(1 + w/200) / log 1.0001)` computed once per
configuration from the float width percent is carried as an integer
configuration field.  Chain calls, persistence writes and notifier calls
are external effects: each call site takes its outcome from an explicit
`Env` record and appends an `Event` to an ordered trace, so ordering and
abort behaviour are provable.  Exceptions are `Except Unit`.
-/

/-! ## Basic data model -/

/-- Engine state enum (`RebalanceState` in `rebalance-engine.ts`). -/
inductive RState where
  | IDLE | MONITORING | EVALUATING | WITHDRAWING | SWAPPING | MINTING | ERROR | STOPPED
deriving Repr, DecidableEq

/-- `TriggerDirection` from `band-manager.ts`. -/
inductive TriggerDirection where
  | lower | upper
deriving Repr, DecidableEq

/-- `RebalanceStage` from `state-store.ts`. -/
inductive RebalanceStage where
  | WITHDRAWN | SWAPPED
deriving Repr, DecidableEq

/-- `Band` from `band-manager.ts`: one concentrated-liquidity position. -/
structure Band where
  index : Nat
  tokenId : Nat
  tickLower : Int
  tickUpper : Int
deriving Repr, DecidableEq

/-- `BandState` from `state-store.ts` (tokenId is serialized as a decimal
string on disk; the serialization is injective so we keep the `Nat`). -/
structure BandState where
  tokenId : Nat
  tickLower : Int
  tickUpper : Int
deriving Repr, DecidableEq

/-- The two pool tokens; chain calls mention them only by address. -/
inductive Token where
  | t0 | t1
deriving Repr, DecidableEq

deriving instance DecidableEq for Except

/-! ## Tick math (`src/util/tick-math.ts` and the Uniswap v3 SDK) -/

def MIN_TICK : Int := -887272
def MAX_TICK : Int := 887272

/-- `Math.ceil(a / b)` for integers, `b > 0`. -/
def ceilDivInt (a b : Int) : Int := -((-a).fdiv b)

/-- `nearestUsableTick` from the Uniswap v3 SDK: throws (`invariant`) when
the tick is outside `[MIN_TICK, MAX_TICK]`, otherwise rounds to the nearest
multiple of the spacing with JS `Math.round` (half toward +∞) and nudges
the result back inside the bounds. -/
def nearestUsableTick (tick tickSpacing : Int) : Except Unit Int :=
  if tick < MIN_TICK ∨ tick > MAX_TICK then .error () else
  let rounded := ((2 * tick + tickSpacing).fdiv (2 * tickSpacing)) * tickSpacing
  if rounded < MIN_TICK then .ok (rounded + tickSpacing)
  else if rounded > MAX_TICK then .ok (rounded - tickSpacing)
  else .ok rounded

/-- `feeToTickSpacing` from `tick-math.ts`; unknown fee tiers throw. -/
def feeToTickSpacing (feeTier : Int) : Except Unit Int :=
  if feeTier = 100 then .ok 1
  else if feeTier = 500 then .ok 10
  else if feeTier = 3000 then .ok 60
  else if feeTier = 10000 then .ok 200
  else .error ()

/-- `getMinTick` from `tick-math.ts`. -/
def getMinTick (tickSpacing : Int) : Int := ceilDivInt MIN_TICK tickSpacing * tickSpacing

/-- `getMaxTick` from `tick-math.ts`. -/
def getMaxTick (tickSpacing : Int) : Int := MAX_TICK.fdiv tickSpacing * tickSpacing

/-! ## Band layout (`calculateBands` in `src/core/range-calculator.ts`)

The float step `tickOffset = Math.floor(Math.log(1 + w/200) / Math.log(1.0001))`
is a per-configuration constant; `calculateBands` below takes that integer
directly (callers pass the engine configuration's `tickOffset`). -/

/-- `BandConfig` from `range-calculator.ts`. -/
structure BandConfig where
  index : Nat
  tickLower : Int
  tickUpper : Int
deriving Repr, DecidableEq

/-- `BandLayout` from `range-calculator.ts`. -/
structure BandLayout where
  bands : List BandConfig
  bandTickWidth : Int
  totalTickLower : Int
  totalTickUpper : Int
deriving Repr, DecidableEq

/-- One band of the layout loop body in `calculateBands`: raw boundaries
clamped from below by `minTick` (lower) and from above by `maxTick`
(upper). -/
def layoutBand (totalTickLower bandTickWidth minTick maxTick : Int) (i : Nat) : BandConfig :=
  { index := i
    tickLower := max (totalTickLower + (i : Int) * bandTickWidth) minTick
    tickUpper := min (totalTickLower + ((i : Int) + 1) * bandTickWidth) maxTick }

/-- `calculateBands(centerTick, rangeWidthPercent, feeTier, bandCount = 7)`,
with the float log already folded into `tickOffset`.  Mirrors the source
line by line; the only collapse check in the source is on the **last**
band. -/
def calculateBands (centerTick tickOffset feeTier : Int) (bandCount : Nat := 7) :
    Except Unit BandLayout :=
  match feeToTickSpacing feeTier with
  | .error _ => .error ()
  | .ok tickSpacing =>
  let totalTickRange := tickOffset * 2
  let rawBandWidth := totalTickRange.fdiv (bandCount : Int)
  let bandTickWidth := max (rawBandWidth.fdiv tickSpacing * tickSpacing) tickSpacing
  let centerBandIndex : Int := (bandCount : Int).fdiv 2
  match nearestUsableTick centerTick tickSpacing with
  | .error _ => .error ()
  | .ok alignedCenter =>
  let centerBandLower := alignedCenter - bandTickWidth.fdiv (2 * tickSpacing) * tickSpacing
  let totalTickLower := centerBandLower - centerBandIndex * bandTickWidth
  let minTick := getMinTick tickSpacing
  let maxTick := getMaxTick tickSpacing
  let bands := (List.range bandCount).map (layoutBand totalTickLower bandTickWidth minTick maxTick)
  match bands.getLast? with
  | none => .error ()
  | some last =>
    if last.tickLower ≥ last.tickUpper then .error ()
    else match bands.head? with
      | none => .error ()
      | some first =>
        .ok { bands := bands, bandTickWidth := bandTickWidth,
              totalTickLower := first.tickLower, totalTickUpper := last.tickUpper }

/-! ## Band ledger (`src/core/band-manager.ts`)

The `BandManager` instance state is a pair (ordered band list, band tick
width); its methods are pure functions on that pair. -/

namespace BandManager

/-- Re-indexing loop `this.bands.forEach((b, i) => { b.index = i; })`. -/
def reindexFrom (n : Nat) : List Band → List Band
  | [] => []
  | b :: bs => { b with index := n } :: reindexFrom (n + 1) bs

/-- `setBands`: stores a copy sorted ascending by `tickLower`
(JS `Array.prototype.sort` with comparator `a.tickLower - b.tickLower`,
stable). -/
def bandLE (a b : Band) : Prop := a.tickLower ≤ b.tickLower

instance : DecidableRel bandLE := fun a b => inferInstanceAs (Decidable (a.tickLower ≤ b.tickLower))

instance : IsTrans Band bandLE := ⟨fun _ _ _ h h' => le_trans h h'⟩

instance : IsTotal Band bandLE := ⟨fun a b => le_total a.tickLower b.tickLower⟩

def setBands (bands : List Band) : List Band :=
  List.insertionSort bandLE bands

/-- `getBandIndexForTick`: first band containing the tick by the
half-open `[lower, upper)` rule, `-1` when outside all bands. -/
def getBandIndexForTick (bands : List Band) (tick : Int) : Int :=
  match bands.findIdx? (fun b => decide (b.tickLower ≤ tick) && decide (tick < b.tickUpper)) with
  | some i => (i : Int)
  | none => -1

/-- `isInSafeZone`: the containing band index lies in the middle window
`[⌊count/2⌋ - 1, ⌊count/2⌋ + 1]`. -/
def isInSafeZone (bands : List Band) (tick : Int) : Bool :=
  let idx := getBandIndexForTick bands tick
  let count : Int := (bands.length : Int)
  let safeStart := count.fdiv 2 - 1
  let safeEnd := count.fdiv 2 + 1
  decide (idx ≥ safeStart) && decide (idx ≤ safeEnd)

/-- `getTriggerDirection`.  The outer `Option` is the JS runtime: `none`
is the `TypeError` thrown by dereferencing `this.bands[0]` on an empty
array; `some d` is the returned `TriggerDirection | null`. -/
def getTriggerDirection (bands : List Band) (tick : Int) :
    Option (Option TriggerDirection) :=
  let idx := getBandIndexForTick bands tick
  if idx = -1 then
    match bands.head?, bands.getLast? with
    | some b0, some blast =>
      if tick < b0.tickLower then some (some .lower)
      else if tick ≥ blast.tickUpper then some (some .upper)
      else some none
    | _, _ => none
  else
    if idx ≤ 1 then some (some .lower)
    else if idx ≥ (bands.length : Int) - 2 then some (some .upper)
    else some none

/-- `getBandToDissolve`: lower trigger dissolves the highest (last) band,
upper trigger the lowest (first); `none` is the undefined dereference on
an empty list. -/
def getBandToDissolve (bands : List Band) : TriggerDirection → Option Band
  | .lower => bands.getLast?
  | .upper => bands.head?

/-- `getNewBandTicks`: ticks for the replacement band. -/
def getNewBandTicks (bands : List Band) (bandTickWidth : Int) :
    TriggerDirection → Option (Int × Int)
  | .lower => bands.head?.map (fun l => (l.tickLower - bandTickWidth, l.tickLower))
  | .upper => bands.getLast?.map (fun h => (h.tickUpper, h.tickUpper + bandTickWidth))

/-- `removeBand`: drops every band with the given tokenId, then re-indexes. -/
def removeBand (bands : List Band) (tokenId : Nat) : List Band :=
  reindexFrom 0 (bands.filter (fun b => b.tokenId ≠ tokenId))

/-- Insertion position for `addBand`. -/
inductive InsertPos where
  | atStart | atEnd
deriving Repr, DecidableEq

/-- `addBand`: unshift/push followed by re-indexing. -/
def addBand (bands : List Band) (tokenId : Nat) (tickLower tickUpper : Int) :
    InsertPos → List Band
  | .atStart => reindexFrom 0 ({ index := 0, tokenId, tickLower, tickUpper } :: bands)
  | .atEnd => reindexFrom 0 (bands ++ [{ index := bands.length, tokenId, tickLower, tickUpper }])

/-- `getOverallRange`. -/
def getOverallRange (bands : List Band) : Option (Int × Int) :=
  match bands.head?, bands.getLast? with
  | some b0, some blast => some (b0.tickLower, blast.tickUpper)
  | _, _ => none

end BandManager

/-! ## Gas oracle (`src/chain/gas-oracle.ts`)

`baselineGasPrice` starts `undefined`; `updateBaseline` is invoked once per
successful `getGasInfo` with the observed gwei price.  Both guards in the
source are JS falsiness checks (`!this.baselineGasPrice`), so a baseline of
`0` behaves like an unset baseline. -/

namespace GasOracle

/-- JS falsiness of `number | undefined` (`undefined` or `0`). -/
def jsFalsy : Option ℚ → Bool
  | none => true
  | some q => q == 0

/-- `updateBaseline`: seed on a falsy baseline, else EMA 0.95 old / 0.05 new. -/
def updateBaseline (baseline : Option ℚ) (currentGwei : ℚ) : Option ℚ :=
  if jsFalsy baseline then some currentGwei
  else match baseline with
    | some b => some (b * (95 / 100) + currentGwei * (5 / 100))
    | none => some currentGwei

/-- Baseline after a sequence of observed gas prices (one per successful
`getGasInfo` call), starting from the unset baseline. -/
def baselineAfter (observations : List ℚ) : Option ℚ :=
  observations.foldl updateBaseline none

/-- `isGasSpike(currentGwei, multiplier = 10)`. -/
def isGasSpike (baseline : Option ℚ) (currentGwei : ℚ) (multiplier : ℚ := 10) : Bool :=
  match baseline with
  | none => false
  | some b => if b == 0 then false else decide (currentGwei > b * multiplier)

/-- `estimateGasCostUsd` from `gas-oracle.ts`. -/
def estimateGasCostUsd (gasUsed gasPriceGwei ethPriceUsd : ℚ) : ℚ :=
  gasUsed * gasPriceGwei / 1000000000 * ethPriceUsd

/-- The spec's words for the baseline (claim C10): "the exponential moving
average seeded with the first observed gas price and updated with weights
0.95 old / 0.05 new".  Used only to compare against `baselineAfter`.
One EMA step as the spec words it. -/
def emaStepSpec (baseline : Option ℚ) (c : ℚ) : Option ℚ :=
  match baseline with
  | none => some c
  | some b => some (b * (95 / 100) + c * (5 / 100))

/-- The spec's baseline over a full observation sequence. -/
def emaBaselineSpec (observations : List ℚ) : Option ℚ :=
  observations.foldl emaStepSpec none

end GasOracle

/-! ## Emergency stop (`src/risk/emergency-stop.ts`)

The engine-relevant state is the `stopped` flag and the trigger reason;
the reason strings are carried as a structured enum. -/

/-- The reasons with which the engine triggers the emergency stop. -/
inductive StopReason where
  | depeg
  | consecutiveErrors (n : Nat)
  | rebalanceLoss
  | portfolioLoss
deriving Repr, DecidableEq

/-- `checkRebalanceLoss(pre, post, maxLossPercent = 2)`: fires when the
loss percentage strictly exceeds 2. -/
def checkRebalanceLoss (preValue postValue : ℚ) (maxLossPercent : ℚ := 2) : Bool :=
  decide ((preValue - postValue) / preValue * 100 > maxLossPercent)

/-- `checkPortfolioLoss(current, initial, maxLossPercent)`. -/
def checkPortfolioLoss (currentValue initialValue maxLossPercent : ℚ) : Bool :=
  decide ((initialValue - currentValue) / initialValue * 100 > maxLossPercent)

/-! ## Persistence (`src/persistence/state-store.ts`)

The store keeps this pool's record twice: `mem` is the in-memory
`BotState` entry mutated by `updatePoolState`, `disk` is the durable copy.
`save()` is lossy (a failed write is only logged); `saveOrThrow()`
propagates the failure.  Write success comes from the environment. -/

/-- `PoolState` from `state-store.ts` (all fields optional). -/
structure PoolStateP where
  tokenId : Option Nat := none
  tickLower : Option Int := none
  tickUpper : Option Int := none
  bands : Option (List BandState) := none
  bandTickWidth : Option Int := none
  lastRebalanceTime : Option Int := none
  initialValueUsd : Option ℚ := none
  lastNonce : Option Nat := none
  rebalanceStage : Option RebalanceStage := none
  pendingTxHashes : Option (List String) := none
deriving Repr, DecidableEq

/-- The state store restricted to one pool's record. -/
structure Store where
  mem : PoolStateP := {}
  disk : PoolStateP := {}
deriving Repr, DecidableEq

/-- `save()`: lossy; on failure the disk copy is simply not updated. -/
def Store.save (st : Store) (writeOk : Bool) : Store :=
  if writeOk then { st with disk := st.mem } else st

/-- `saveOrThrow()`: fail-fast. -/
def Store.saveOrThrow (st : Store) (writeOk : Bool) : Except Unit Store :=
  if writeOk then .ok { st with disk := st.mem } else .error ()

/-! ## Engine model (`src/core/rebalance-engine.ts`) -/

/-- The notifier messages the engine emits, as a structured enum. -/
inductive Notice where
  | recovery (stage : RebalanceStage)
  | depegAlert
  | emergencyClosed (bandCount : Nat)
  | criticalWithdrawFailed
  | initialMinted (bandCount : Nat)
  | rebalanceDone (direction : TriggerDirection)
  | rebalanceLossAlert
  | portfolioLossAlert
  | stoppedAfterErrors (n : Nat)
deriving Repr, DecidableEq

/-- History-log record types (`history-logger.ts`). -/
inductive OpType where
  | MINT
  | REBALANCE (direction : TriggerDirection)
  | EMERGENCY_STOP
deriving Repr, DecidableEq

/-- Chain-state calls issued by the engine (balance-of reads are omitted
from the trace; they never mutate chain state). -/
inductive ChainCall where
  | getPosition (tokenId : Nat)
  | removePosition (tokenId : Nat) (liquidity : Nat)
  | swap (tokenIn tokenOut : Token) (feeTier : Int) (amountIn : Nat)
  | mint (tickLower tickUpper : Int) (amount0 amount1 : Nat)
  | findPositions
  | approve
  | receiptQuery (txHash : String)
deriving Repr, DecidableEq

/-- One entry of the ordered effect trace. -/
inductive Event where
  | chain (c : ChainCall)
  | persist (stage : Option RebalanceStage) (bands : List BandState) (failFast : Bool)
  | recoveryClear
  | notice (n : Notice)
  | history (t : OpType)
deriving Repr, DecidableEq

/-- Immutable per-engine configuration (`PoolEntry` strategy + context).
`tickOffset` is `Math.floor(Math.log(1 + rangeWidthPercent/200) / Math.log(1.0001))`,
the per-configuration integer the float width computation produces. -/
structure Config where
  feeTier : Int := 100
  decimals0 : Nat := 6
  decimals1 : Nat := 18
  tickOffset : Int := 148
  minRebalanceIntervalMinutes : Int := 0
  maxGasCostUsd : ℚ := 50
  expectedPriceRatio : Option ℚ := none
  depegThresholdPercent : Option ℚ := none
  ethPriceUsd : Option ℚ := none
  maxTotalLossPercent : ℚ := 10

/-- A found on-chain position (`findExistingPositions` result entry). -/
structure ExistingPosition where
  tokenId : Nat
  liquidity : Nat
  tickLower : Int
  tickUpper : Int
deriving Repr, DecidableEq

/-- Outcomes of the external calls one engine entry point can make.
`Except Unit` outcomes model the call throwing. -/
structure Env where
  now : Int := 0
  -- initialize
  receiptFound : String → Option Bool := fun _ => none
  findExisting : List ExistingPosition := []
  saveRecoveryOk : Bool := true
  -- gas gate
  gasInfoOk : Bool := true
  gasPriceGwei : ℚ := 1
  gasIsSpike : Bool := false
  -- executeBandRebalance
  preBal0 : Nat := 0
  preBal1 : Nat := 0
  dissolveLiquidity : Except Unit Nat := .ok 0
  removeRes : Except Unit (String × String × String) := .ok ("", "", "")
  ckpt1Ok : Bool := true
  bal0 : Nat := 0
  bal1 : Nat := 0
  swapRes : Except Unit String := .ok ""
  ckpt2Ok : Bool := true
  newBal0 : Nat := 0
  newBal1 : Nat := 0
  mintRes : Except Unit (Nat × String) := .ok (1, "")
  saveTerminalOk : Bool := true
  -- mintInitialBands
  totBal0 : Nat := 0
  totBal1 : Nat := 0
  mintTokenId : Nat → Except Unit Nat := fun i => .ok (100 + i)
  saveMintOk : Bool := true
  -- emergencyWithdraw
  ewLiquidity : Nat → Except Unit Nat := fun _ => .ok 0
  ewRemoveOk : Nat → Except Unit Unit := fun _ => .ok ()
  saveWithdrawOk : Bool := true

/-- The mutable engine state (fields of `RebalanceEngine` together with
the emergency stop, the balance tracker's initial value, and this pool's
persistence record). -/
structure EngineState where
  state : RState := .IDLE
  bands : List Band := []
  bandTickWidth : Int := 0
  lastRebalanceTime : Int := 0
  consecutiveErrors : Nat := 0
  rebalanceLock : Bool := false
  esStopped : Bool := false
  esReason : Option StopReason := none
  initialValue : Option ℚ := none
  store : Store := {}

/-- `estimatePortfolioValue`: token1-numeraire value; non-finite and
non-positive prices yield 0 (in ℚ only the sign guard is reachable). -/
def estimatePortfolioValue (balance0 balance1 : Nat) (decimals0 decimals1 : Nat)
    (price : ℚ) : ℚ :=
  if price ≤ 0 then 0
  else (balance0 : ℚ) / 10 ^ decimals0 * price + (balance1 : ℚ) / 10 ^ decimals1

/-- `toBandState` mapping used by `persistState` / `persistCheckpoint`. -/
def toBandState (b : Band) : BandState :=
  { tokenId := b.tokenId, tickLower := b.tickLower, tickUpper := b.tickUpper }

/-- `persistState`: writes the ledger, clears the checkpoint fields and the
legacy single-position fields, then saves on the lossy path. -/
def persistState (s : EngineState) (writeOk : Bool) : EngineState × List Event :=
  let bandStates := s.bands.map toBandState
  let mem := { s.store.mem with
    bands := some bandStates
    bandTickWidth := some s.bandTickWidth
    lastRebalanceTime := some s.lastRebalanceTime
    rebalanceStage := none
    pendingTxHashes := none
    lastNonce := none
    tokenId := none
    tickLower := none
    tickUpper := none }
  ({ s with store := Store.save { s.store with mem := mem } writeOk },
   [.persist none bandStates false])

/-- `persistCheckpoint`: writes the ledger plus the checkpoint stage and
pending tx hashes, then saves on the fail-fast path. -/
def persistCheckpoint (s : EngineState) (stage : RebalanceStage)
    (txHashes : List String) (writeOk : Bool) : Except Unit (EngineState × List Event) :=
  let bandStates := s.bands.map toBandState
  let mem := { s.store.mem with
    bands := some bandStates
    bandTickWidth := some s.bandTickWidth
    lastRebalanceTime := some s.lastRebalanceTime
    rebalanceStage := some stage
    pendingTxHashes := some txHashes
    lastNonce := none }
  match Store.saveOrThrow { s.store with mem := mem } writeOk with
  | .ok st => .ok ({ s with store := st }, [.persist (some stage) bandStates true])
  | .error _ => .error ()

/-- `handleError`: increments the consecutive-error counter; at 3 the
engine enters `ERROR`, triggers the emergency stop and notifies, below 3
it returns to `MONITORING`. -/
def handleError (s : EngineState) : EngineState × List Event :=
  let n := s.consecutiveErrors + 1
  if n ≥ 3 then
    ({ s with consecutiveErrors := n, state := .ERROR,
              esStopped := true, esReason := some (.consecutiveErrors n) },
     [.notice (.stoppedAfterErrors n)])
  else
    ({ s with consecutiveErrors := n, state := .MONITORING }, [])

/-- `checkDepeg`: with a configured (truthy) `expectedPriceRatio`, fires
when the percentage deviation of `tickToPrice(tick)` strictly exceeds the
threshold (default 5); firing triggers the emergency stop with the depeg
reason and emits the depeg alert.  The caller schedules
`emergencyWithdraw`. -/
def checkDepeg (cfg : Config) (ttp : Int → ℚ) (tick : Int) (s : EngineState) :
    Bool × EngineState × List Event :=
  match cfg.expectedPriceRatio with
  | none => (false, s, [])
  | some expected =>
    if expected = 0 then (false, s, [])
    else
      let currentPrice := ttp tick
      let deviation := |currentPrice - expected| / expected * 100
      let threshold := (cfg.depegThresholdPercent).getD 5
      if deviation > threshold then
        (true, { s with esStopped := true, esReason := some .depeg }, [.notice .depegAlert])
      else (false, s, [])

/-- The removal loop inside `emergencyWithdraw`: reads each band's live
liquidity and removes non-empty positions; a throw aborts the loop (the
`try` wraps the whole loop, the `catch` is outside it). -/
def ewLoop (env : Env) : List Band → List Event × Except Unit Unit
  | [] => ([], .ok ())
  | b :: bs =>
    match env.ewLiquidity b.tokenId with
    | .error _ => ([.chain (.getPosition b.tokenId)], .error ())
    | .ok liq =>
      if liq ≠ 0 then
        match env.ewRemoveOk b.tokenId with
        | .error _ =>
          ([.chain (.getPosition b.tokenId), .chain (.removePosition b.tokenId liq)], .error ())
        | .ok _ =>
          let (evs, r) := ewLoop env bs
          (.chain (.getPosition b.tokenId) :: .chain (.removePosition b.tokenId liq) :: evs, r)
      else
        let (evs, r) := ewLoop env bs
        (.chain (.getPosition b.tokenId) :: evs, r)

/-- `emergencyWithdraw`: empty ledger returns immediately (before the lock
and before any state change); otherwise runs the removal loop, on success
logs, notifies, clears and persists the ledger, on failure notifies
`CRITICAL`; either way the final `setState('STOPPED')` after the
`try/catch/finally` applies. -/
def emergencyWithdraw (_cfg : Config) (s : EngineState) (env : Env) : EngineState × List Event :=
  if s.bands.isEmpty then (s, [])
  else
    let s1 := { s with rebalanceLock := true, state := .WITHDRAWING }
    let lr := ewLoop env s1.bands
    match lr.2 with
    | .ok _ =>
      let s2 := { s1 with bands := [], bandTickWidth := 0 }
      let sp := persistState s2 env.saveWithdrawOk
      ({ sp.1 with rebalanceLock := false, state := .STOPPED },
       lr.1 ++ [.history .EMERGENCY_STOP, .notice (.emergencyClosed s.bands.length)] ++ sp.2)
    | .error _ =>
      ({ s1 with rebalanceLock := false, state := .STOPPED },
       lr.1 ++ [.notice .criticalWithdrawFailed])

/-- `checkGasCost(isOutOfRange)`: a gas spike or an over-budget estimate
skips only while in range; a failed gas read proceeds. -/
def checkGasCost (cfg : Config) (env : Env) (isOutOfRange : Bool) : Bool :=
  if !env.gasInfoOk then true
  else if env.gasIsSpike && !isOutOfRange then false
  else
    let ethPrice := (cfg.ethPriceUsd).getD 3000
    let est := GasOracle.estimateGasCostUsd 800000 env.gasPriceGwei ethPrice
    if est > cfg.maxGasCostUsd && !isOutOfRange then false
    else true

/-- The mint loop of `mintInitialBands`: band `i` is offered
`balance / (bandCount - i)` of each token (`BigNumber.div`, truncating). -/
def mintLoop (env : Env) (totBal0 totBal1 bandCount : Nat) :
    List BandConfig → Nat → List Event × Except Unit (List Band)
  | [], _ => ([], .ok [])
  | bc :: rest, i =>
    let amount0 := totBal0 / (bandCount - i)
    let amount1 := totBal1 / (bandCount - i)
    let ev := Event.chain (.mint bc.tickLower bc.tickUpper amount0 amount1)
    match env.mintTokenId i with
    | .error _ => ([ev], .error ())
    | .ok tid =>
      let (evs, r) := mintLoop env totBal0 totBal1 bandCount rest (i + 1)
      (ev :: evs,
       r.map (fun bs =>
         { index := i, tokenId := tid, tickLower := bc.tickLower, tickUpper := bc.tickUpper } :: bs))

/-- `mintInitialBands`: computes the layout, mints the bands in ascending
order, installs the ledger, seeds the initial portfolio value, persists
(no checkpoint stage), logs `MINT` and notifies; exceptions go through
`handleError`, the lock is released on every path. -/
def mintInitialBands (cfg : Config) (ttp : Int → ℚ) (tick : Int) (s : EngineState) (env : Env) :
    EngineState × List Event :=
  let s0 := { s with rebalanceLock := true, state := .MINTING }
  match calculateBands tick cfg.tickOffset cfg.feeTier with
  | .error _ =>
    let he := handleError s0
    ({ he.1 with rebalanceLock := false }, he.2)
  | .ok layout =>
    let ml := mintLoop env env.totBal0 env.totBal1 layout.bands.length layout.bands 0
    match ml.2 with
    | .error _ =>
      let he := handleError s0
      ({ he.1 with rebalanceLock := false }, ml.1 ++ he.2)
    | .ok newBands =>
      let currentPrice := ttp tick
      let initialValue :=
        estimatePortfolioValue env.totBal0 env.totBal1 cfg.decimals0 cfg.decimals1 currentPrice
      let s1 := { s0 with
        bands := BandManager.setBands newBands
        bandTickWidth := layout.bandTickWidth
        lastRebalanceTime := env.now
        consecutiveErrors := 0
        initialValue := some initialValue }
      let sp := persistState s1 env.saveMintOk
      ({ sp.1 with rebalanceLock := false, state := .MONITORING },
       ml.1 ++ sp.2 ++ [.history .MINT, .notice (.initialMinted newBands.length)])

/-- The truthiness-guarded portfolio-loss condition of
`executeBandRebalance` (`if (initialValue && emergencyStop.checkPortfolioLoss(...))`). -/
def portfolioLossFires (initialValue : Option ℚ) (postValue maxLossPercent : ℚ) : Bool :=
  match initialValue with
  | some iv => decide (iv ≠ 0) && checkPortfolioLoss postValue iv maxLossPercent
  | none => false

/-- `executeBandRebalance`: min-interval gate, emergency-stop gate and gas
gate (with `isOutOfRange = true`), then dissolve → checkpoint `WITHDRAWN`
→ swap → checkpoint `SWAPPED` → mint → ledger update → loss checks →
terminal persist.  Every throw inside the `try` goes through
`handleError`; the `finally` releases the lock on every path. -/
def executeBandRebalance (cfg : Config) (ttp : Int → ℚ) (tick : Int)
    (direction : TriggerDirection) (s : EngineState) (env : Env) : EngineState × List Event :=
  if env.now - s.lastRebalanceTime < cfg.minRebalanceIntervalMinutes * 60 * 1000 then (s, [])
  else if s.esStopped then (s, [])
  else if !(checkGasCost cfg env true) then (s, [])
  else
    let s0 := { s with rebalanceLock := true, state := .EVALUATING }
    let prePrice := ttp tick
    let preValue := estimatePortfolioValue env.preBal0 env.preBal1 cfg.decimals0 cfg.decimals1 prePrice
    let s1 := { s0 with state := .WITHDRAWING }
    match BandManager.getBandToDissolve s1.bands direction with
    | none =>
      let he := handleError s1
      ({ he.1 with rebalanceLock := false }, he.2)
    | some bandToDissolve =>
      let ev1 := [Event.chain (.getPosition bandToDissolve.tokenId)]
      match env.dissolveLiquidity with
      | .error _ =>
        let he := handleError s1
        ({ he.1 with rebalanceLock := false }, ev1 ++ he.2)
      | .ok liq =>
        let removeStep : List Event × Except Unit (Option (String × String × String)) :=
          if liq ≠ 0 then
            match env.removeRes with
            | .error _ => ([.chain (.removePosition bandToDissolve.tokenId liq)], .error ())
            | .ok tx3 => ([.chain (.removePosition bandToDissolve.tokenId liq)], .ok (some tx3))
          else ([], .ok none)
        match removeStep.2 with
        | .error _ =>
          let he := handleError s1
          ({ he.1 with rebalanceLock := false }, ev1 ++ removeStep.1 ++ he.2)
        | .ok removeResult =>
          let s2 := { s1 with bands := BandManager.removeBand s1.bands bandToDissolve.tokenId }
          let hashes := match removeResult with
            | some (h1, h2, h3) => [h1, h2, h3]
            | none => []
          match persistCheckpoint s2 .WITHDRAWN hashes env.ckpt1Ok with
          | .error _ =>
            let he := handleError s2
            ({ he.1 with rebalanceLock := false }, ev1 ++ removeStep.1 ++ he.2)
          | .ok sc1 =>
            let s4 := { sc1.1 with state := .SWAPPING }
            let swapStep : List Event × Except Unit (Option String) :=
              if direction = .lower ∧ env.bal0 > 0 then
                match env.swapRes with
                | .error _ => ([.chain (.swap .t0 .t1 cfg.feeTier env.bal0)], .error ())
                | .ok h => ([.chain (.swap .t0 .t1 cfg.feeTier env.bal0)], .ok (some h))
              else if direction = .upper ∧ env.bal1 > 0 then
                match env.swapRes with
                | .error _ => ([.chain (.swap .t1 .t0 cfg.feeTier env.bal1)], .error ())
                | .ok h => ([.chain (.swap .t1 .t0 cfg.feeTier env.bal1)], .ok (some h))
              else ([], .ok none)
            match swapStep.2 with
            | .error _ =>
              let he := handleError s4
              ({ he.1 with rebalanceLock := false },
               ev1 ++ removeStep.1 ++ sc1.2 ++ swapStep.1 ++ he.2)
            | .ok swapHash =>
              let swapHashes := match swapHash with
                | some h => [h]
                | none => []
              match persistCheckpoint s4 .SWAPPED swapHashes env.ckpt2Ok with
              | .error _ =>
                let he := handleError s4
                ({ he.1 with rebalanceLock := false },
                 ev1 ++ removeStep.1 ++ sc1.2 ++ swapStep.1 ++ he.2)
              | .ok sc2 =>
                let s6 := { sc2.1 with state := .MINTING }
                match BandManager.getNewBandTicks s6.bands s6.bandTickWidth direction with
                | none =>
                  let he := handleError s6
                  ({ he.1 with rebalanceLock := false },
                   ev1 ++ removeStep.1 ++ sc1.2 ++ swapStep.1 ++ sc2.2 ++ he.2)
                | some newTicks =>
                  let evm := [Event.chain (.mint newTicks.1 newTicks.2 env.newBal0 env.newBal1)]
                  match env.mintRes with
                  | .error _ =>
                    let he := handleError s6
                    ({ he.1 with rebalanceLock := false },
                     ev1 ++ removeStep.1 ++ sc1.2 ++ swapStep.1 ++ sc2.2 ++ evm ++ he.2)
                  | .ok mintRes =>
                    let pos := match direction with
                      | .lower => BandManager.InsertPos.atStart
                      | .upper => BandManager.InsertPos.atEnd
                    let s7 := { s6 with
                      bands := BandManager.addBand s6.bands mintRes.1 newTicks.1 newTicks.2 pos
                      lastRebalanceTime := env.now
                      consecutiveErrors := 0 }
                    let evsSoFar := ev1 ++ removeStep.1 ++ sc1.2 ++ swapStep.1 ++ sc2.2 ++ evm
                    let currentPrice := ttp tick
                    let postValue :=
                      estimatePortfolioValue env.newBal0 env.newBal1 cfg.decimals0 cfg.decimals1 currentPrice
                    if preValue > 0 ∧ postValue > 0 ∧ checkRebalanceLoss preValue postValue then
                      ({ s7 with esStopped := true, esReason := some .rebalanceLoss,
                                 rebalanceLock := false, state := .STOPPED },
                       evsSoFar ++ [.notice .rebalanceLossAlert])
                    else if portfolioLossFires s7.initialValue postValue cfg.maxTotalLossPercent = true then
                      let s8 := { s7 with esStopped := true, esReason := some .portfolioLoss }
                      let ew := emergencyWithdraw cfg s8 env
                      ({ ew.1 with rebalanceLock := false },
                       evsSoFar ++ ew.2 ++ [.notice .portfolioLossAlert])
                    else
                      let sp := persistState s7 env.saveTerminalOk
                      ({ sp.1 with rebalanceLock := false, state := .MONITORING },
                       evsSoFar ++ sp.2 ++ [.history (.REBALANCE direction), .notice (.rebalanceDone direction)])

/-- `onPriceUpdate`: state gate, depeg check (firing schedules
`emergencyWithdraw` and returns), empty ledger → `mintInitialBands`,
safe zone → nothing, else trigger classification → `executeBandRebalance`.
The outer `Except` is the JS runtime: `.error` is an uncaught `TypeError`
escaping the method (`getTriggerDirection` is called outside any `try`). -/
def onPriceUpdate (cfg : Config) (ttp : Int → ℚ) (tick : Int) (s : EngineState) (env : Env) :
    Except Unit (EngineState × List Event) :=
  if s.state = .STOPPED ∨ s.state = .ERROR then .ok (s, [])
  else if s.state ≠ .MONITORING ∧ s.state ≠ .IDLE then .ok (s, [])
  else
    let cd := checkDepeg cfg ttp tick s
    let s1 := cd.2.1
    if cd.1 then
      let ew := emergencyWithdraw cfg s1 env
      .ok (ew.1, cd.2.2 ++ ew.2)
    else if s1.bands.length = 0 then
      .ok (mintInitialBands cfg ttp tick s1 env)
    else if BandManager.isInSafeZone s1.bands tick then .ok (s1, cd.2.2)
    else
      match BandManager.getTriggerDirection s1.bands tick with
      | none => .error ()
      | some none => .ok (s1, cd.2.2)
      | some (some direction) =>
        let er := executeBandRebalance cfg ttp tick direction s1 env
        .ok (er.1, cd.2.2 ++ er.2)

/-- `savedState.bands.map((b, i) => ({ index: i, ... }))`. -/
def restoreBands (n : Nat) : List BandState → List Band
  | [] => []
  | b :: bs =>
    { index := n, tokenId := b.tokenId, tickLower := b.tickLower, tickUpper := b.tickUpper }
      :: restoreBands (n + 1) bs

/-- `existing.filter(p => !p.liquidity.isZero()).map((p, i) => ...)`. -/
def adoptBands (n : Nat) : List ExistingPosition → List Band
  | [] => []
  | p :: ps =>
    { index := n, tokenId := p.tokenId, tickLower := p.tickLower, tickUpper := p.tickUpper }
      :: adoptBands (n + 1) ps

/-- `initialize()`: restore persisted bands, verify pending tx receipts,
recover from a persisted `rebalanceStage` (clear ledger, clear the four
persistence fields, notify `RECOVERY`), then — whenever the ledger is
(still) empty — query for existing on-chain positions and adopt the ones
with non-zero liquidity, approve tokens, and enter `MONITORING`. -/
def initializeEngine (_cfg : Config) (s : EngineState) (env : Env) : EngineState × List Event :=
  let saved := s.store.mem
  let s1 :=
    match saved.bands with
    | some bs =>
      if bs.length ≠ 0 then
        { s with bands := BandManager.setBands (restoreBands 0 bs)
                 bandTickWidth := (saved.bandTickWidth).getD 0
                 lastRebalanceTime := (saved.lastRebalanceTime).getD 0 }
      else s
    | none => s
  let evsRx := ((saved.pendingTxHashes).getD []).map (fun h => Event.chain (.receiptQuery h))
  let (s2, evs3) : EngineState × List Event :=
    match saved.rebalanceStage with
    | some st =>
      let mem := { s1.store.mem with
        rebalanceStage := none, pendingTxHashes := none, bands := none, bandTickWidth := none }
      let store := Store.save { s1.store with mem := mem } env.saveRecoveryOk
      ({ s1 with bands := [], bandTickWidth := 0, store := store },
       [Event.recoveryClear, Event.notice (.recovery st)])
    | none => (s1, [])
  let (s3, evs4) : EngineState × List Event :=
    if s2.bands.length = 0 then
      let existing := env.findExisting
      if existing.length > 0 then
        let activeBands := adoptBands 0 (existing.filter (fun p => p.liquidity ≠ 0))
        if activeBands.length > 0 then
          let bandWidth := match activeBands with
            | a :: b :: _ => b.tickLower - a.tickLower
            | [a] => a.tickUpper - a.tickLower
            | [] => 0
          ({ s2 with bands := BandManager.setBands activeBands, bandTickWidth := bandWidth },
           [Event.chain .findPositions])
        else (s2, [Event.chain .findPositions])
      else (s2, [Event.chain .findPositions])
    else (s2, [])
  ({ s3 with state := .MONITORING },
   evsRx ++ evs3 ++ evs4 ++ [.chain .approve, .chain .approve])

/-! ## Spec-side predicates for the ledger invariant -/

/-- Bands are contiguous: `bands[i].tickUpper == bands[i+1].tickLower`. -/
def contiguousBands (bs : List Band) : Prop :=
  List.Chain' (fun a b => a.tickUpper = b.tickLower) bs

/-- Bands are ordered by `tickLower` ascending. -/
def sortedBands (bs : List Band) : Prop :=
  List.Chain' (fun a b => a.tickLower ≤ b.tickLower) bs

/-- Every band has the ledger's width. -/
def uniformWidth (w : Int) (bs : List Band) : Prop :=
  ∀ b ∈ bs, b.tickUpper - b.tickLower = w

/-- Ledger token ids are pairwise distinct. -/
def nodupTokenIds (bs : List Band) : Prop :=
  (bs.map Band.tokenId).Nodup

/-- The 7-band rest invariant of the spec (§3 / §8 invariant 1). -/
def ledgerInv (w : Int) (bs : List Band) : Prop :=
  bs.length = 7 ∧ sortedBands bs ∧ contiguousBands bs ∧ uniformWidth w bs ∧
    nodupTokenIds bs ∧ 0 < w

/-- Engine-level version: the ledger is empty or satisfies the invariant. -/
def ledgerOK (s : EngineState) : Prop :=
  s.bands = [] ∨ ledgerInv s.bandTickWidth s.bands

instance (bs : List Band) : Decidable (contiguousBands bs) :=
  inferInstanceAs (Decidable (List.Chain' _ bs))

instance (bs : List Band) : Decidable (sortedBands bs) :=
  inferInstanceAs (Decidable (List.Chain' _ bs))

instance (w : Int) (bs : List Band) : Decidable (uniformWidth w bs) :=
  inferInstanceAs (Decidable (∀ b ∈ bs, _))

instance (bs : List Band) : Decidable (nodupTokenIds bs) :=
  inferInstanceAs (Decidable (List.Nodup _))

instance (w : Int) (bs : List Band) : Decidable (ledgerInv w bs) :=
  inferInstanceAs (Decidable (_ ∧ _))

instance (s : EngineState) : Decidable (ledgerOK s) :=
  inferInstanceAs (Decidable (_ ∨ _))

/-! ## Gas-oracle lemmas and claim C10 -/

/-- Once the baseline is positive, the source fold and the spec's EMA fold
agree and the baseline stays positive. -/
theorem baseline_fold_pos (obs : List ℚ) (hpos : ∀ c ∈ obs, 0 < c) :
    ∀ b : ℚ, 0 < b →
      obs.foldl GasOracle.updateBaseline (some b) = obs.foldl GasOracle.emaStepSpec (some b) ∧
      ∃ b', obs.foldl GasOracle.updateBaseline (some b) = some b' ∧ 0 < b' := by
  induction obs with
  | nil => exact fun b hb => ⟨rfl, b, rfl, hb⟩
  | cons c cs ih =>
    intro b hb
    have hc : 0 < c := hpos c (by simp)
    have hcs : ∀ x ∈ cs, 0 < x := fun x hx => hpos x (by simp [hx])
    have hstep : GasOracle.updateBaseline (some b) c = some (b * (95 / 100) + c * (5 / 100)) := by
      simp [GasOracle.updateBaseline, GasOracle.jsFalsy, hb.ne']
    have hstep' : GasOracle.emaStepSpec (some b) c = some (b * (95 / 100) + c * (5 / 100)) := rfl
    have hpos' : 0 < b * (95 / 100) + c * (5 / 100) := by positivity
    have := ih hcs (b * (95 / 100) + c * (5 / 100)) hpos'
    simpa [List.foldl_cons, hstep, hstep'] using this

/-- C10, amended.  With no observation `isGasSpike` is constantly `false`;
over **positive** observations the baseline equals the spec's EMA (seeded
with the first observation, weights 0.95/0.05) and `isGasSpike(x)` is
exactly `x > baseline * 10`.  (The restriction to positive observations is
forced: a zero observation hits the JS falsiness guard and re-seeds the
baseline, see the counterexample.) -/
theorem gasOracle_spike_amended (obs : List ℚ) (hpos : ∀ c ∈ obs, 0 < c) :
    (∀ x : ℚ, GasOracle.isGasSpike (GasOracle.baselineAfter []) x = false) ∧
    GasOracle.baselineAfter obs = GasOracle.emaBaselineSpec obs ∧
    (obs ≠ [] → ∃ b, GasOracle.baselineAfter obs = some b ∧ 0 < b ∧
      ∀ x : ℚ, GasOracle.isGasSpike (GasOracle.baselineAfter obs) x = decide (x > b * 10)) := by
  refine ⟨fun x => rfl, ?_, ?_⟩
  · cases obs with
    | nil => rfl
    | cons c cs =>
      have hc : 0 < c := hpos c (by simp)
      have hcs : ∀ x ∈ cs, 0 < x := fun x hx => hpos x (by simp [hx])
      have h := (baseline_fold_pos cs hcs c hc).1
      simpa [GasOracle.baselineAfter, GasOracle.emaBaselineSpec, List.foldl_cons,
        GasOracle.updateBaseline, GasOracle.jsFalsy, GasOracle.emaStepSpec] using h
  · intro hne
    cases obs with
    | nil => exact absurd rfl hne
    | cons c cs =>
      have hc : 0 < c := hpos c (by simp)
      have hcs : ∀ x ∈ cs, 0 < x := fun x hx => hpos x (by simp [hx])
      obtain ⟨-, b, hb, hbpos⟩ := baseline_fold_pos cs hcs c hc
      have hafter : GasOracle.baselineAfter (c :: cs) = some b := by
        simpa [GasOracle.baselineAfter, List.foldl_cons, GasOracle.updateBaseline,
          GasOracle.jsFalsy] using hb
      refine ⟨b, hafter, hbpos, fun x => ?_⟩
      rw [hafter]
      simp [GasOracle.isGasSpike, hbpos.ne']

/-- Witness for C10 at the concrete observation list `[1, 2]`. -/
theorem gasOracle_spike_amended_witness :
    (∀ c ∈ [(1 : ℚ), 2], 0 < c) ∧
    (GasOracle.baselineAfter [(1 : ℚ), 2] = GasOracle.emaBaselineSpec [(1 : ℚ), 2]) := by
  have h : ∀ c ∈ [(1 : ℚ), 2], 0 < c := by norm_num
  exact ⟨h, (gasOracle_spike_amended [(1 : ℚ), 2] h).2.1⟩

/-- Counterexample to C10 as stated: after observations `[0, 50]` the
source baseline is `50` (the zero observation re-seeds via the JS
falsiness guard), not the claimed EMA `2.5`; at `x = 100` the source
reports no spike although `100 > 2.5 * 10`. -/
theorem gasOracle_spike_counterexample :
    GasOracle.baselineAfter [0, 50] = some 50 ∧
    GasOracle.emaBaselineSpec [0, 50] = some (5 / 2) ∧
    GasOracle.isGasSpike (GasOracle.baselineAfter [0, 50]) 100 = false ∧
    ((100 : ℚ) > 5 / 2 * 10) := by
  refine ⟨?_, ?_, ?_, by norm_num⟩
  · simp [GasOracle.baselineAfter, GasOracle.updateBaseline, GasOracle.jsFalsy]
  · simp [GasOracle.emaBaselineSpec, GasOracle.emaStepSpec]
    norm_num
  · simp [GasOracle.baselineAfter, GasOracle.updateBaseline, GasOracle.jsFalsy,
      GasOracle.isGasSpike]
    norm_num

/-! ## Range-calculator lemmas and claim C8 -/

/-- Within the global tick bounds the SDK alignment never throws. -/
theorem nearestUsableTick_ok (t sp : Int) (h1 : MIN_TICK ≤ t) (h2 : t ≤ MAX_TICK) :
    ∃ r, nearestUsableTick t sp = .ok r := by
  unfold nearestUsableTick
  rw [if_neg (by push_neg; exact ⟨h1, h2⟩)]
  dsimp only
  split
  · exact ⟨_, rfl⟩
  · split
    · exact ⟨_, rfl⟩
    · exact ⟨_, rfl⟩

/-- C8, amended.  `calculateBands` clamps each band's lower boundary from
below by `minTick` and its upper boundary from above by `maxTick`, but the
collapse check covers only the **last** band: the call throws exactly when
the last band ends with `tickLower ≥ tickUpper`, and whenever it returns
it returns exactly 7 bands (bands other than the last may still be
collapsed by clamping at the lower bound, see the counterexample). -/
theorem calculateBands_collapse_amended
    (centerTick tickOffset feeTier sp ac w totalLo : Int)
    (hfee : feeToTickSpacing feeTier = .ok sp)
    (hac : nearestUsableTick centerTick sp = .ok ac)
    (hw : w = max (((tickOffset * 2).fdiv 7).fdiv sp * sp) sp)
    (hlo : totalLo = ac - w.fdiv (2 * sp) * sp - 3 * w) :
    (∀ layout, calculateBands centerTick tickOffset feeTier = .ok layout →
        layout.bands.length = 7 ∧
        (∀ b ∈ layout.bands, getMinTick sp ≤ b.tickLower ∧ b.tickUpper ≤ getMaxTick sp)) ∧
    (calculateBands centerTick tickOffset feeTier = .error () ↔
        (layoutBand totalLo w (getMinTick sp) (getMaxTick sp) 6).tickLower ≥
          (layoutBand totalLo w (getMinTick sp) (getMaxTick sp) 6).tickUpper) := by
  subst hw hlo
  have hrange : List.range 7 = [0, 1, 2, 3, 4, 5, 6] := rfl
  have hcbi : ((7 : ℕ) : ℤ).fdiv 2 = 3 := by decide
  simp only [calculateBands, hfee, hac, hrange, List.map_cons, List.map_nil, hcbi,
    Nat.cast_ofNat, List.getLast?_cons_cons, List.getLast?_singleton, List.head?_cons]
  constructor
  · intro layout hl
    split at hl
    · exact absurd hl (by simp)
    · rw [Except.ok.injEq] at hl
      subst hl
      refine ⟨rfl, ?_⟩
      intro b hb
      simp only [List.mem_cons, List.not_mem_nil, or_false] at hb
      rcases hb with rfl | rfl | rfl | rfl | rfl | rfl | rfl <;>
        exact ⟨le_max_right _ _, min_le_right _ _⟩
  · split
    · next h => simpa using h
    · next h => simpa using h

/-- Counterexample to C8 as stated: at center tick `-887200` (width 3 % ⇒
`tickOffset = 148`, fee tier 100 ⇒ spacing 1) clamping at the lower bound
collapses band 0 (`tickLower = -887272 ≥ tickUpper = -887305`), yet
`calculateBands` returns the 7-band layout instead of throwing — the
source checks only the last band. -/
theorem calculateBands_collapse_counterexample :
    (calculateBands (-887200) 148 100).toOption.map
        (fun L => (L.bands.length, L.bands.any (fun b => decide (b.tickLower ≥ b.tickUpper))))
      = some (7, true) := by decide

/-- Witness for the amended C8 at center tick 0, `tickOffset = 148`,
fee tier 100. -/
theorem calculateBands_collapse_amended_witness :
    (feeToTickSpacing 100 = .ok 1) ∧
    (nearestUsableTick 0 1 = .ok 0) ∧
    ((42 : Int) = max ((((148 : Int) * 2).fdiv 7).fdiv 1 * 1) 1) ∧
    ((-147 : Int) = 0 - (42 : Int).fdiv (2 * 1) * 1 - 3 * 42) ∧
    (calculateBands 0 148 100 = Except.error () ↔
        (layoutBand (-147) 42 (getMinTick 1) (getMaxTick 1) 6).tickLower ≥
          (layoutBand (-147) 42 (getMinTick 1) (getMaxTick 1) 6).tickUpper) :=
  ⟨by decide, by decide, by decide, by decide,
   (calculateBands_collapse_amended 0 148 100 1 0 42 (-147)
      (by decide) (by decide) (by decide) (by decide)).2⟩

/-! ## Claim C9: empty-ledger totality -/

/-- On a non-empty ledger `getTriggerDirection` never hits the undefined
dereference. -/
theorem getTriggerDirection_ne_none (bands : List Band) (h : bands ≠ []) (t : Int) :
    BandManager.getTriggerDirection bands t ≠ none := by
  cases bands with
  | nil => exact absurd rfl h
  | cons b tl =>
    have hlast : ∃ lb, (b :: tl).getLast? = some lb := by
      have : (b :: tl).getLast?.isSome := List.getLast?_isSome.mpr (by simp)
      exact Option.isSome_iff_exists.mp this
    obtain ⟨lb, hlb⟩ := hlast
    unfold BandManager.getTriggerDirection
    by_cases hidx : BandManager.getBandIndexForTick (b :: tl) t = -1
    · simp only [hidx, if_pos, List.head?_cons, hlb]
      split <;> [simp; split <;> simp]
    · simp only [if_neg hidx]
      split <;> [simp; split <;> simp]

/-- `checkDepeg` never touches the ledger. -/
theorem checkDepeg_bands (cfg : Config) (ttp : Int → ℚ) (tick : Int) (s : EngineState) :
    (checkDepeg cfg ttp tick s).2.1.bands = s.bands := by
  unfold checkDepeg
  split
  · rfl
  · split
    · rfl
    · dsimp only
      split
      · rfl
      · rfl

/-- C9: `getBandIndexForTick` on an empty ledger totally returns `-1`,
`getTriggerDirection` on an empty ledger hits the undefined dereference of
`bands[0]` (outer `none`), and yet `onPriceUpdate` never propagates that
error: a tick arriving on an empty ledger is routed to `mintInitialBands`
before any safe-zone or trigger classification, so `onPriceUpdate` always
returns normally. -/
theorem emptyLedger_classification_total :
    (∀ t : Int, BandManager.getBandIndexForTick [] t = -1) ∧
    (∀ t : Int, BandManager.getTriggerDirection [] t = none) ∧
    (∀ (cfg : Config) (ttp : Int → ℚ) (tick : Int) (s : EngineState) (env : Env),
      ∃ r, onPriceUpdate cfg ttp tick s env = .ok r) := by
  refine ⟨fun t => rfl, fun t => rfl, ?_⟩
  intro cfg ttp tick s env
  unfold onPriceUpdate
  split
  · exact ⟨_, rfl⟩
  split
  · exact ⟨_, rfl⟩
  dsimp only
  split
  · exact ⟨_, rfl⟩
  split
  · exact ⟨_, rfl⟩
  split
  · exact ⟨_, rfl⟩
  next hne _ =>
    rcases ht : BandManager.getTriggerDirection (checkDepeg cfg ttp tick s).2.1.bands tick
        with _ | od
    · exact absurd ht (getTriggerDirection_ne_none _
        (fun hnil => hne (by rw [hnil]; rfl)) tick)
    · cases od with
      | none => exact ⟨_, rfl⟩
      | some direction => exact ⟨_, rfl⟩

/-! ## Rebalance characterization lemmas -/

/-- With `isOutOfRange = true` the gas gate never rejects (the core treats
trigger-band entries as out of range). -/
theorem checkGasCost_outOfRange (cfg : Config) (env : Env) :
    checkGasCost cfg env true = true := by
  unfold checkGasCost
  split
  · rfl
  · split
    · next h => simp at h
    · dsimp only
      split
      · next h => simp at h
      · rfl

/-- The events of the swap leg of a band rebalance (both the successful
and the throwing run issue the same single swap call). -/
def swapEventsFor (cfg : Config) (env : Env) (direction : TriggerDirection) : List Event :=
  if direction = .lower ∧ env.bal0 > 0 then [Event.chain (.swap .t0 .t1 cfg.feeTier env.bal0)]
  else if direction = .upper ∧ env.bal1 > 0 then [Event.chain (.swap .t1 .t0 cfg.feeTier env.bal1)]
  else []

/-- Prefix of the rebalance trace up to and including the `WITHDRAWN`
checkpoint. -/
def withdrawEventsFor (s : EngineState) (bd : Band) (liq : Nat) : List Event :=
  [Event.chain (.getPosition bd.tokenId)]
  ++ (if liq ≠ 0 then [Event.chain (.removePosition bd.tokenId liq)] else [])
  ++ [Event.persist (some .WITHDRAWN)
       ((BandManager.removeBand s.bands bd.tokenId).map toBandState) true]

/-- Min-interval gate: too-soon rebalances are skipped without effects. -/
theorem rebalance_skip_interval (cfg : Config) (ttp : Int → ℚ) (tick : Int)
    (direction : TriggerDirection) (s : EngineState) (env : Env)
    (hmin : env.now - s.lastRebalanceTime < cfg.minRebalanceIntervalMinutes * 60 * 1000) :
    executeBandRebalance cfg ttp tick direction s env = (s, []) := by
  simp [executeBandRebalance, hmin]

/-- Emergency-stop gate: with the stop flag set the rebalance is skipped
without effects. -/
theorem rebalance_skip_stopped (cfg : Config) (ttp : Int → ℚ) (tick : Int)
    (direction : TriggerDirection) (s : EngineState) (env : Env)
    (hstop : s.esStopped = true) :
    executeBandRebalance cfg ttp tick direction s env = (s, []) := by
  by_cases hmin : env.now - s.lastRebalanceTime < cfg.minRebalanceIntervalMinutes * 60 * 1000
  · simp [executeBandRebalance, hmin]
  · simp [executeBandRebalance, hmin, hstop]

/-- Full characterization of a gate-passing, error-free band rebalance in
which neither loss check fires: the dissolved band's position is read and
(when live) removed, the `WITHDRAWN` checkpoint carries the post-removal
ledger, the swap leg swaps the full relevant balance, the `SWAPPED`
checkpoint repeats the same ledger, the new band is minted and added, and
the terminal lossy persist clears the checkpoint. -/
theorem rebalance_success_spec
    (cfg : Config) (ttp : Int → ℚ) (tick : Int) (direction : TriggerDirection)
    (s : EngineState) (env : Env) (bd : Band) (liq : Nat)
    (tx3 : String × String × String) (sh : String) (nt : Int × Int) (mr : Nat × String)
    (hmin : ¬(env.now - s.lastRebalanceTime < cfg.minRebalanceIntervalMinutes * 60 * 1000))
    (hstop : s.esStopped = false)
    (hbd : BandManager.getBandToDissolve s.bands direction = some bd)
    (hliq : env.dissolveLiquidity = .ok liq)
    (hrem : env.removeRes = .ok tx3)
    (hck1 : env.ckpt1Ok = true)
    (hswap : env.swapRes = .ok sh)
    (hck2 : env.ckpt2Ok = true)
    (hticks : BandManager.getNewBandTicks (BandManager.removeBand s.bands bd.tokenId)
        s.bandTickWidth direction = some nt)
    (hmint : env.mintRes = .ok mr)
    (hL1 : ¬(estimatePortfolioValue env.preBal0 env.preBal1 cfg.decimals0 cfg.decimals1 (ttp tick) > 0 ∧
             estimatePortfolioValue env.newBal0 env.newBal1 cfg.decimals0 cfg.decimals1 (ttp tick) > 0 ∧
             checkRebalanceLoss
               (estimatePortfolioValue env.preBal0 env.preBal1 cfg.decimals0 cfg.decimals1 (ttp tick))
               (estimatePortfolioValue env.newBal0 env.newBal1 cfg.decimals0 cfg.decimals1 (ttp tick)) = true))
    (hL2 : portfolioLossFires s.initialValue
        (estimatePortfolioValue env.newBal0 env.newBal1 cfg.decimals0 cfg.decimals1 (ttp tick))
        cfg.maxTotalLossPercent = false) :
    (executeBandRebalance cfg ttp tick direction s env).2 =
       withdrawEventsFor s bd liq
       ++ swapEventsFor cfg env direction
       ++ [Event.persist (some .SWAPPED)
            ((BandManager.removeBand s.bands bd.tokenId).map toBandState) true]
       ++ [Event.chain (.mint nt.1 nt.2 env.newBal0 env.newBal1)]
       ++ [Event.persist none
            ((BandManager.addBand (BandManager.removeBand s.bands bd.tokenId) mr.1 nt.1 nt.2
              (match direction with
               | .lower => BandManager.InsertPos.atStart
               | .upper => BandManager.InsertPos.atEnd)).map toBandState) false]
       ++ [Event.history (.REBALANCE direction), Event.notice (.rebalanceDone direction)] ∧
    (executeBandRebalance cfg ttp tick direction s env).1.bands =
       BandManager.addBand (BandManager.removeBand s.bands bd.tokenId) mr.1 nt.1 nt.2
         (match direction with
          | .lower => BandManager.InsertPos.atStart
          | .upper => BandManager.InsertPos.atEnd) ∧
    (executeBandRebalance cfg ttp tick direction s env).1.consecutiveErrors = 0 ∧
    (executeBandRebalance cfg ttp tick direction s env).1.state = .MONITORING ∧
    (executeBandRebalance cfg ttp tick direction s env).1.esStopped = s.esStopped ∧
    (executeBandRebalance cfg ttp tick direction s env).1.lastRebalanceTime = env.now ∧
    (executeBandRebalance cfg ttp tick direction s env).1.initialValue = s.initialValue ∧
    (executeBandRebalance cfg ttp tick direction s env).1.bandTickWidth = s.bandTickWidth := by
  cases direction with
  | lower =>
    by_cases hl0 : liq ≠ 0 <;> by_cases hb : env.bal0 > 0 <;>
    simp [executeBandRebalance, if_neg hmin, hstop,
      checkGasCost_outOfRange, hbd, hliq, hrem, hck1, hswap, hck2, hticks, hmint,
      persistCheckpoint, persistState, Store.saveOrThrow, Store.save,
      withdrawEventsFor, swapEventsFor, hL1, hL2, hl0, hb]
  | upper =>
    by_cases hl0 : liq ≠ 0 <;> by_cases hb : env.bal1 > 0 <;>
    simp [executeBandRebalance, if_neg hmin, hstop,
      checkGasCost_outOfRange, hbd, hliq, hrem, hck1, hswap, hck2, hticks, hmint,
      persistCheckpoint, persistState, Store.saveOrThrow, Store.save,
      withdrawEventsFor, swapEventsFor, hL1, hL2, hl0, hb]

/-- Failure during the rebalance body, case "dissolve target missing"
(empty ledger inside the `try`): caught by `handleError`. -/
theorem rebalance_fail_noBand
    (cfg : Config) (ttp : Int → ℚ) (tick : Int) (direction : TriggerDirection)
    (s : EngineState) (env : Env)
    (hmin : ¬(env.now - s.lastRebalanceTime < cfg.minRebalanceIntervalMinutes * 60 * 1000))
    (hstop : s.esStopped = false)
    (hbd : BandManager.getBandToDissolve s.bands direction = none) :
    (executeBandRebalance cfg ttp tick direction s env).1.bands = s.bands ∧
    (executeBandRebalance cfg ttp tick direction s env).1.consecutiveErrors =
      s.consecutiveErrors + 1 ∧
    (executeBandRebalance cfg ttp tick direction s env).1.state =
      (if s.consecutiveErrors + 1 ≥ 3 then RState.ERROR else RState.MONITORING) ∧
    (executeBandRebalance cfg ttp tick direction s env).1.esStopped =
      (if s.consecutiveErrors + 1 ≥ 3 then true else s.esStopped) ∧
    (executeBandRebalance cfg ttp tick direction s env).2 =
      (if s.consecutiveErrors + 1 ≥ 3
       then [Event.notice (.stoppedAfterErrors (s.consecutiveErrors + 1))] else []) := by
  by_cases h3 : s.consecutiveErrors + 1 ≥ 3 <;>
    simp [executeBandRebalance, if_neg hmin, hstop, checkGasCost_outOfRange, hbd,
      handleError, h3]

/-- Failure case "position read throws": caught by `handleError`. -/
theorem rebalance_fail_posRead
    (cfg : Config) (ttp : Int → ℚ) (tick : Int) (direction : TriggerDirection)
    (s : EngineState) (env : Env) (bd : Band)
    (hmin : ¬(env.now - s.lastRebalanceTime < cfg.minRebalanceIntervalMinutes * 60 * 1000))
    (hstop : s.esStopped = false)
    (hbd : BandManager.getBandToDissolve s.bands direction = some bd)
    (hliq : env.dissolveLiquidity = .error ()) :
    (executeBandRebalance cfg ttp tick direction s env).1.bands = s.bands ∧
    (executeBandRebalance cfg ttp tick direction s env).1.consecutiveErrors =
      s.consecutiveErrors + 1 ∧
    (executeBandRebalance cfg ttp tick direction s env).1.state =
      (if s.consecutiveErrors + 1 ≥ 3 then RState.ERROR else RState.MONITORING) ∧
    (executeBandRebalance cfg ttp tick direction s env).1.esStopped =
      (if s.consecutiveErrors + 1 ≥ 3 then true else s.esStopped) ∧
    (executeBandRebalance cfg ttp tick direction s env).2 =
      [Event.chain (.getPosition bd.tokenId)] ++
      (if s.consecutiveErrors + 1 ≥ 3
       then [Event.notice (.stoppedAfterErrors (s.consecutiveErrors + 1))] else []) := by
  by_cases h3 : s.consecutiveErrors + 1 ≥ 3 <;>
    simp [executeBandRebalance, if_neg hmin, hstop, checkGasCost_outOfRange, hbd, hliq,
      handleError, h3]

/-- Failure case "removePosition throws" (live liquidity): caught by
`handleError`; the ledger is still untouched. -/
theorem rebalance_fail_remove
    (cfg : Config) (ttp : Int → ℚ) (tick : Int) (direction : TriggerDirection)
    (s : EngineState) (env : Env) (bd : Band) (liq : Nat)
    (hmin : ¬(env.now - s.lastRebalanceTime < cfg.minRebalanceIntervalMinutes * 60 * 1000))
    (hstop : s.esStopped = false)
    (hbd : BandManager.getBandToDissolve s.bands direction = some bd)
    (hliq : env.dissolveLiquidity = .ok liq)
    (hl0 : liq ≠ 0)
    (hrem : env.removeRes = .error ()) :
    (executeBandRebalance cfg ttp tick direction s env).1.bands = s.bands ∧
    (executeBandRebalance cfg ttp tick direction s env).1.consecutiveErrors =
      s.consecutiveErrors + 1 ∧
    (executeBandRebalance cfg ttp tick direction s env).1.state =
      (if s.consecutiveErrors + 1 ≥ 3 then RState.ERROR else RState.MONITORING) ∧
    (executeBandRebalance cfg ttp tick direction s env).1.esStopped =
      (if s.consecutiveErrors + 1 ≥ 3 then true else s.esStopped) ∧
    (executeBandRebalance cfg ttp tick direction s env).2 =
      [Event.chain (.getPosition bd.tokenId), Event.chain (.removePosition bd.tokenId liq)] ++
      (if s.consecutiveErrors + 1 ≥ 3
       then [Event.notice (.stoppedAfterErrors (s.consecutiveErrors + 1))] else []) := by
  by_cases h3 : s.consecutiveErrors + 1 ≥ 3 <;>
    simp [executeBandRebalance, if_neg hmin, hstop, checkGasCost_outOfRange, hbd, hliq,
      hl0, hrem, handleError, h3]

/-- Failure case "WITHDRAWN checkpoint write fails" (`saveOrThrow`): the
whole rebalance aborts through `handleError`; the dissolved band is
already out of the in-memory ledger; **no swap and no mint are issued**. -/
theorem rebalance_fail_ckpt1
    (cfg : Config) (ttp : Int → ℚ) (tick : Int) (direction : TriggerDirection)
    (s : EngineState) (env : Env) (bd : Band) (liq : Nat)
    (tx3 : String × String × String)
    (hmin : ¬(env.now - s.lastRebalanceTime < cfg.minRebalanceIntervalMinutes * 60 * 1000))
    (hstop : s.esStopped = false)
    (hbd : BandManager.getBandToDissolve s.bands direction = some bd)
    (hliq : env.dissolveLiquidity = .ok liq)
    (hrem : env.removeRes = .ok tx3)
    (hck1 : env.ckpt1Ok = false) :
    (executeBandRebalance cfg ttp tick direction s env).1.bands =
      BandManager.removeBand s.bands bd.tokenId ∧
    (executeBandRebalance cfg ttp tick direction s env).1.consecutiveErrors =
      s.consecutiveErrors + 1 ∧
    (executeBandRebalance cfg ttp tick direction s env).1.state =
      (if s.consecutiveErrors + 1 ≥ 3 then RState.ERROR else RState.MONITORING) ∧
    (executeBandRebalance cfg ttp tick direction s env).1.esStopped =
      (if s.consecutiveErrors + 1 ≥ 3 then true else s.esStopped) ∧
    (executeBandRebalance cfg ttp tick direction s env).2 =
      [Event.chain (.getPosition bd.tokenId)] ++
      (if liq ≠ 0 then [Event.chain (.removePosition bd.tokenId liq)] else []) ++
      (if s.consecutiveErrors + 1 ≥ 3
       then [Event.notice (.stoppedAfterErrors (s.consecutiveErrors + 1))] else []) := by
  by_cases hl0 : liq ≠ 0 <;> by_cases h3 : s.consecutiveErrors + 1 ≥ 3 <;>
    simp [executeBandRebalance, if_neg hmin, hstop, checkGasCost_outOfRange, hbd, hliq,
      hl0, hrem, hck1, persistCheckpoint, Store.saveOrThrow, handleError, h3]

/-- Failure case "swap throws" (a swap leg was needed): caught by
`handleError`; the `WITHDRAWN` checkpoint is already on disk. -/
theorem rebalance_fail_swap
    (cfg : Config) (ttp : Int → ℚ) (tick : Int) (direction : TriggerDirection)
    (s : EngineState) (env : Env) (bd : Band) (liq : Nat)
    (tx3 : String × String × String)
    (hmin : ¬(env.now - s.lastRebalanceTime < cfg.minRebalanceIntervalMinutes * 60 * 1000))
    (hstop : s.esStopped = false)
    (hbd : BandManager.getBandToDissolve s.bands direction = some bd)
    (hliq : env.dissolveLiquidity = .ok liq)
    (hrem : env.removeRes = .ok tx3)
    (hck1 : env.ckpt1Ok = true)
    (hneed : (direction = .lower ∧ env.bal0 > 0) ∨ (direction = .upper ∧ env.bal1 > 0))
    (hswap : env.swapRes = .error ()) :
    (executeBandRebalance cfg ttp tick direction s env).1.bands =
      BandManager.removeBand s.bands bd.tokenId ∧
    (executeBandRebalance cfg ttp tick direction s env).1.consecutiveErrors =
      s.consecutiveErrors + 1 ∧
    (executeBandRebalance cfg ttp tick direction s env).1.state =
      (if s.consecutiveErrors + 1 ≥ 3 then RState.ERROR else RState.MONITORING) ∧
    (executeBandRebalance cfg ttp tick direction s env).1.esStopped =
      (if s.consecutiveErrors + 1 ≥ 3 then true else s.esStopped) ∧
    (executeBandRebalance cfg ttp tick direction s env).2 =
      withdrawEventsFor s bd liq ++ swapEventsFor cfg env direction ++
      (if s.consecutiveErrors + 1 ≥ 3
       then [Event.notice (.stoppedAfterErrors (s.consecutiveErrors + 1))] else []) := by
  rcases hneed with ⟨hdir, hb⟩ | ⟨hdir, hb⟩ <;> subst hdir <;>
    by_cases hl0 : liq ≠ 0 <;> by_cases h3 : s.consecutiveErrors + 1 ≥ 3 <;>
    simp [executeBandRebalance, if_neg hmin, hstop, checkGasCost_outOfRange, hbd, hliq,
      hl0, hrem, hck1, hswap, hb, persistCheckpoint, Store.saveOrThrow, handleError, h3,
      withdrawEventsFor, swapEventsFor]

/-- Failure case "SWAPPED checkpoint write fails" (`saveOrThrow`): the
rebalance aborts through `handleError` before the mint is issued. -/
theorem rebalance_fail_ckpt2
    (cfg : Config) (ttp : Int → ℚ) (tick : Int) (direction : TriggerDirection)
    (s : EngineState) (env : Env) (bd : Band) (liq : Nat)
    (tx3 : String × String × String) (sh : String)
    (hmin : ¬(env.now - s.lastRebalanceTime < cfg.minRebalanceIntervalMinutes * 60 * 1000))
    (hstop : s.esStopped = false)
    (hbd : BandManager.getBandToDissolve s.bands direction = some bd)
    (hliq : env.dissolveLiquidity = .ok liq)
    (hrem : env.removeRes = .ok tx3)
    (hck1 : env.ckpt1Ok = true)
    (hswap : env.swapRes = .ok sh)
    (hck2 : env.ckpt2Ok = false) :
    (executeBandRebalance cfg ttp tick direction s env).1.bands =
      BandManager.removeBand s.bands bd.tokenId ∧
    (executeBandRebalance cfg ttp tick direction s env).1.consecutiveErrors =
      s.consecutiveErrors + 1 ∧
    (executeBandRebalance cfg ttp tick direction s env).1.state =
      (if s.consecutiveErrors + 1 ≥ 3 then RState.ERROR else RState.MONITORING) ∧
    (executeBandRebalance cfg ttp tick direction s env).1.esStopped =
      (if s.consecutiveErrors + 1 ≥ 3 then true else s.esStopped) ∧
    (executeBandRebalance cfg ttp tick direction s env).2 =
      withdrawEventsFor s bd liq ++ swapEventsFor cfg env direction ++
      (if s.consecutiveErrors + 1 ≥ 3
       then [Event.notice (.stoppedAfterErrors (s.consecutiveErrors + 1))] else []) := by
  cases direction with
  | lower =>
    by_cases hl0 : liq ≠ 0 <;> by_cases hb : env.bal0 > 0 <;>
      by_cases h3 : s.consecutiveErrors + 1 ≥ 3 <;>
    simp [executeBandRebalance, if_neg hmin, hstop, checkGasCost_outOfRange, hbd, hliq,
      hl0, hrem, hck1, hswap, hck2, hb, persistCheckpoint, Store.saveOrThrow, handleError,
      h3, withdrawEventsFor, swapEventsFor]
  | upper =>
    by_cases hl0 : liq ≠ 0 <;> by_cases hb : env.bal1 > 0 <;>
      by_cases h3 : s.consecutiveErrors + 1 ≥ 3 <;>
    simp [executeBandRebalance, if_neg hmin, hstop, checkGasCost_outOfRange, hbd, hliq,
      hl0, hrem, hck1, hswap, hck2, hb, persistCheckpoint, Store.saveOrThrow, handleError,
      h3, withdrawEventsFor, swapEventsFor]

/-- Failure case "new-band tick computation dereferences an empty ledger"
(single-band ledger): caught by `handleError`. -/
theorem rebalance_fail_newTicks
    (cfg : Config) (ttp : Int → ℚ) (tick : Int) (direction : TriggerDirection)
    (s : EngineState) (env : Env) (bd : Band) (liq : Nat)
    (tx3 : String × String × String) (sh : String)
    (hmin : ¬(env.now - s.lastRebalanceTime < cfg.minRebalanceIntervalMinutes * 60 * 1000))
    (hstop : s.esStopped = false)
    (hbd : BandManager.getBandToDissolve s.bands direction = some bd)
    (hliq : env.dissolveLiquidity = .ok liq)
    (hrem : env.removeRes = .ok tx3)
    (hck1 : env.ckpt1Ok = true)
    (hswap : env.swapRes = .ok sh)
    (hck2 : env.ckpt2Ok = true)
    (hticks : BandManager.getNewBandTicks (BandManager.removeBand s.bands bd.tokenId)
        s.bandTickWidth direction = none) :
    (executeBandRebalance cfg ttp tick direction s env).1.bands =
      BandManager.removeBand s.bands bd.tokenId ∧
    (executeBandRebalance cfg ttp tick direction s env).1.consecutiveErrors =
      s.consecutiveErrors + 1 ∧
    (executeBandRebalance cfg ttp tick direction s env).1.state =
      (if s.consecutiveErrors + 1 ≥ 3 then RState.ERROR else RState.MONITORING) ∧
    (executeBandRebalance cfg ttp tick direction s env).1.esStopped =
      (if s.consecutiveErrors + 1 ≥ 3 then true else s.esStopped) ∧
    (executeBandRebalance cfg ttp tick direction s env).2 =
      withdrawEventsFor s bd liq ++ swapEventsFor cfg env direction ++
      [Event.persist (some .SWAPPED)
        ((BandManager.removeBand s.bands bd.tokenId).map toBandState) true] ++
      (if s.consecutiveErrors + 1 ≥ 3
       then [Event.notice (.stoppedAfterErrors (s.consecutiveErrors + 1))] else []) := by
  cases direction with
  | lower =>
    by_cases hl0 : liq ≠ 0 <;> by_cases hb : env.bal0 > 0 <;>
      by_cases h3 : s.consecutiveErrors + 1 ≥ 3 <;>
    simp [executeBandRebalance, if_neg hmin, hstop, checkGasCost_outOfRange, hbd, hliq,
      hl0, hrem, hck1, hswap, hck2, hticks, hb, persistCheckpoint, Store.saveOrThrow,
      handleError, h3, withdrawEventsFor, swapEventsFor]
  | upper =>
    by_cases hl0 : liq ≠ 0 <;> by_cases hb : env.bal1 > 0 <;>
      by_cases h3 : s.consecutiveErrors + 1 ≥ 3 <;>
    simp [executeBandRebalance, if_neg hmin, hstop, checkGasCost_outOfRange, hbd, hliq,
      hl0, hrem, hck1, hswap, hck2, hticks, hb, persistCheckpoint, Store.saveOrThrow,
      handleError, h3, withdrawEventsFor, swapEventsFor]

/-- Failure case "mint throws": caught by `handleError`; the dissolved
band stays out of the ledger and no band is added. -/
theorem rebalance_fail_mint
    (cfg : Config) (ttp : Int → ℚ) (tick : Int) (direction : TriggerDirection)
    (s : EngineState) (env : Env) (bd : Band) (liq : Nat)
    (tx3 : String × String × String) (sh : String) (nt : Int × Int)
    (hmin : ¬(env.now - s.lastRebalanceTime < cfg.minRebalanceIntervalMinutes * 60 * 1000))
    (hstop : s.esStopped = false)
    (hbd : BandManager.getBandToDissolve s.bands direction = some bd)
    (hliq : env.dissolveLiquidity = .ok liq)
    (hrem : env.removeRes = .ok tx3)
    (hck1 : env.ckpt1Ok = true)
    (hswap : env.swapRes = .ok sh)
    (hck2 : env.ckpt2Ok = true)
    (hticks : BandManager.getNewBandTicks (BandManager.removeBand s.bands bd.tokenId)
        s.bandTickWidth direction = some nt)
    (hmint : env.mintRes = .error ()) :
    (executeBandRebalance cfg ttp tick direction s env).1.bands =
      BandManager.removeBand s.bands bd.tokenId ∧
    (executeBandRebalance cfg ttp tick direction s env).1.consecutiveErrors =
      s.consecutiveErrors + 1 ∧
    (executeBandRebalance cfg ttp tick direction s env).1.state =
      (if s.consecutiveErrors + 1 ≥ 3 then RState.ERROR else RState.MONITORING) ∧
    (executeBandRebalance cfg ttp tick direction s env).1.esStopped =
      (if s.consecutiveErrors + 1 ≥ 3 then true else s.esStopped) ∧
    (executeBandRebalance cfg ttp tick direction s env).2 =
      withdrawEventsFor s bd liq ++ swapEventsFor cfg env direction ++
      [Event.persist (some .SWAPPED)
        ((BandManager.removeBand s.bands bd.tokenId).map toBandState) true] ++
      [Event.chain (.mint nt.1 nt.2 env.newBal0 env.newBal1)] ++
      (if s.consecutiveErrors + 1 ≥ 3
       then [Event.notice (.stoppedAfterErrors (s.consecutiveErrors + 1))] else []) := by
  cases direction with
  | lower =>
    by_cases hl0 : liq ≠ 0 <;> by_cases hb : env.bal0 > 0 <;>
      by_cases h3 : s.consecutiveErrors + 1 ≥ 3 <;>
    simp [executeBandRebalance, if_neg hmin, hstop, checkGasCost_outOfRange, hbd, hliq,
      hl0, hrem, hck1, hswap, hck2, hticks, hmint, hb, persistCheckpoint, Store.saveOrThrow,
      handleError, h3, withdrawEventsFor, swapEventsFor]
  | upper =>
    by_cases hl0 : liq ≠ 0 <;> by_cases hb : env.bal1 > 0 <;>
      by_cases h3 : s.consecutiveErrors + 1 ≥ 3 <;>
    simp [executeBandRebalance, if_neg hmin, hstop, checkGasCost_outOfRange, hbd, hliq,
      hl0, hrem, hck1, hswap, hck2, hticks, hmint, hb, persistCheckpoint, Store.saveOrThrow,
      handleError, h3, withdrawEventsFor, swapEventsFor]

/-! ## Emergency-withdraw lemmas -/

/-- `ewLoop` emits chain calls only. -/
theorem ewLoop_events_chain (env : Env) (bs : List Band) :
    ∀ e ∈ (ewLoop env bs).1, ∃ c, e = Event.chain c := by
  induction bs with
  | nil => intro e he; simp [ewLoop] at he
  | cons b tl ih =>
    intro e he
    unfold ewLoop at he
    rcases hL : env.ewLiquidity b.tokenId with _ | liq <;> rw [hL] at he
    · simp at he
      exact ⟨_, he⟩
    · by_cases hl0 : liq ≠ 0 <;> simp [hl0] at he
      · rcases hR : env.ewRemoveOk b.tokenId with _ | u <;> rw [hR] at he <;> simp at he
        · rcases he with he | he
          · exact ⟨_, he⟩
          · exact ⟨_, he⟩
        · rcases he with he | he | he
          · exact ⟨_, he⟩
          · exact ⟨_, he⟩
          · exact ih e he
      · rcases he with he | he
        · exact ⟨_, he⟩
        · exact ih e he

/-- Every `getPosition` call issued by `ewLoop` targets a band of the
list. -/
theorem ewLoop_getPosition_mem (env : Env) (bs : List Band) (tid : Nat)
    (h : Event.chain (.getPosition tid) ∈ (ewLoop env bs).1) :
    tid ∈ bs.map Band.tokenId := by
  induction bs with
  | nil => simp [ewLoop] at h
  | cons b tl ih =>
    unfold ewLoop at h
    rcases hL : env.ewLiquidity b.tokenId with _ | liq <;> rw [hL] at h
    · simp at h
      simp [h]
    · by_cases hl0 : liq ≠ 0 <;> simp [hl0] at h
      · rcases hR : env.ewRemoveOk b.tokenId with _ | u <;> rw [hR] at h <;> simp at h
        · simp [h]
        · rcases h with h | h
          · simp [h]
          · simp [ih h]
      · rcases h with h | h
        · simp [h]
        · simp [ih h]

/-- When a prefix processes cleanly, `ewLoop` over an append decomposes. -/
theorem ewLoop_append_ok (env : Env) (pre rest : List Band)
    (hok : ∀ p ∈ pre, ∃ l, env.ewLiquidity p.tokenId = .ok l ∧
      (l ≠ 0 → env.ewRemoveOk p.tokenId = .ok ())) :
    (ewLoop env (pre ++ rest)).1 = (ewLoop env pre).1 ++ (ewLoop env rest).1 ∧
    (ewLoop env (pre ++ rest)).2 = (ewLoop env rest).2 ∧
    (ewLoop env pre).2 = .ok () := by
  induction pre with
  | nil => simp [ewLoop]
  | cons b tl ih =>
    obtain ⟨l, hl, hrem⟩ := hok b (by simp)
    have hok' : ∀ p ∈ tl, ∃ l, env.ewLiquidity p.tokenId = .ok l ∧
        (l ≠ 0 → env.ewRemoveOk p.tokenId = .ok ()) :=
      fun p hp => hok p (by simp [hp])
    obtain ⟨ih1, ih2, ih3⟩ := ih hok'
    by_cases hl0 : l ≠ 0
    · have hrem' := hrem hl0
      simp [ewLoop, hl, hl0, hrem', ih1, ih2, ih3]
    · simp [ewLoop, hl, hl0, ih1, ih2, ih3]

/-- Empty ledger: `emergencyWithdraw` returns before touching anything. -/
theorem emergencyWithdraw_empty (cfg : Config) (s : EngineState) (env : Env)
    (h : s.bands = []) : emergencyWithdraw cfg s env = (s, []) := by
  simp [emergencyWithdraw, h]

/-- `emergencyWithdraw` never changes the emergency-stop flag, the error
counter, the initial portfolio value or the recorded rebalance time. -/
theorem emergencyWithdraw_preserves (cfg : Config) (s : EngineState) (env : Env) :
    (emergencyWithdraw cfg s env).1.esStopped = s.esStopped ∧
    (emergencyWithdraw cfg s env).1.consecutiveErrors = s.consecutiveErrors ∧
    (emergencyWithdraw cfg s env).1.initialValue = s.initialValue ∧
    (emergencyWithdraw cfg s env).1.lastRebalanceTime = s.lastRebalanceTime := by
  unfold emergencyWithdraw
  split
  · exact ⟨rfl, rfl, rfl, rfl⟩
  · dsimp only
    split <;> simp [persistState]

/-- With a non-empty ledger `emergencyWithdraw` always ends `STOPPED`,
whether or not the removal loop failed. -/
theorem emergencyWithdraw_nonempty_stopped (cfg : Config) (s : EngineState) (env : Env)
    (h : s.bands ≠ []) : (emergencyWithdraw cfg s env).1.state = .STOPPED := by
  unfold emergencyWithdraw
  split
  · next he => exact absurd (List.isEmpty_iff.mp he) h
  · dsimp only
    split <;> rfl

/-- Persist writes issued by `emergencyWithdraw` carry no checkpoint
stage, use the lossy path, and store the cleared ledger. -/
theorem emergencyWithdraw_persist_events (cfg : Config) (s : EngineState) (env : Env) :
    ∀ stg bs ff, Event.persist stg bs ff ∈ (emergencyWithdraw cfg s env).2 →
      stg = none ∧ ff = false ∧ bs = [] := by
  intro stg bs ff h
  unfold emergencyWithdraw at h
  split at h
  · simp at h
  · dsimp only at h
    split at h <;> simp [persistState] at h
    · rcases h with h | h
      · obtain ⟨c, hc⟩ := ewLoop_events_chain env _ _ h
        exact absurd hc (by simp)
      · obtain ⟨h1, h2, h3⟩ := h
        exact ⟨h1, h3, h2⟩
    · obtain ⟨c, hc⟩ := ewLoop_events_chain env _ _ h
      exact absurd hc (by simp)

/-- Successful removal loop: ledger cleared and persisted, history and
notification emitted, engine `STOPPED`. -/
theorem emergencyWithdraw_success (cfg : Config) (s : EngineState) (env : Env)
    (hne : s.bands ≠ []) (hok : (ewLoop env s.bands).2 = .ok ()) :
    (emergencyWithdraw cfg s env).1.bands = [] ∧
    (emergencyWithdraw cfg s env).1.bandTickWidth = 0 ∧
    (emergencyWithdraw cfg s env).1.state = .STOPPED ∧
    (emergencyWithdraw cfg s env).2 =
      (ewLoop env s.bands).1 ++
      [Event.history .EMERGENCY_STOP, Event.notice (.emergencyClosed s.bands.length)] ++
      [Event.persist none [] false] := by
  unfold emergencyWithdraw
  split
  · next he => exact absurd (List.isEmpty_iff.mp he) hne
  · dsimp only
    split
    · next heq => simp [persistState]
    · next heq => rw [hok] at heq; exact absurd heq (by simp)

/-- Failed removal loop: the loop aborts, the ledger is left as it was,
only the `CRITICAL` notification is emitted, and the engine still ends
`STOPPED`.  The consecutive-error counter is untouched (no `handleError`
on this path). -/
theorem emergencyWithdraw_failure (cfg : Config) (s : EngineState) (env : Env)
    (hne : s.bands ≠ []) (herr : (ewLoop env s.bands).2 = .error ()) :
    (emergencyWithdraw cfg s env).1.bands = s.bands ∧
    (emergencyWithdraw cfg s env).1.state = .STOPPED ∧
    (emergencyWithdraw cfg s env).1.consecutiveErrors = s.consecutiveErrors ∧
    (emergencyWithdraw cfg s env).2 =
      (ewLoop env s.bands).1 ++ [Event.notice .criticalWithdrawFailed] := by
  unfold emergencyWithdraw
  split
  · next he => exact absurd (List.isEmpty_iff.mp he) hne
  · dsimp only
    split
    · next heq => rw [herr] at heq; exact absurd heq (by simp)
    · next heq => simp

/-- Gate-passing, error-free rebalance in which the single-rebalance loss
check fires: the emergency stop is triggered, the engine stops, the
terminal persist is skipped (the `SWAPPED` checkpoint stays on disk), and
no automatic withdraw happens. -/
theorem rebalance_success_rebalanceLoss
    (cfg : Config) (ttp : Int → ℚ) (tick : Int) (direction : TriggerDirection)
    (s : EngineState) (env : Env) (bd : Band) (liq : Nat)
    (tx3 : String × String × String) (sh : String) (nt : Int × Int) (mr : Nat × String)
    (hmin : ¬(env.now - s.lastRebalanceTime < cfg.minRebalanceIntervalMinutes * 60 * 1000))
    (hstop : s.esStopped = false)
    (hbd : BandManager.getBandToDissolve s.bands direction = some bd)
    (hliq : env.dissolveLiquidity = .ok liq)
    (hrem : env.removeRes = .ok tx3)
    (hck1 : env.ckpt1Ok = true)
    (hswap : env.swapRes = .ok sh)
    (hck2 : env.ckpt2Ok = true)
    (hticks : BandManager.getNewBandTicks (BandManager.removeBand s.bands bd.tokenId)
        s.bandTickWidth direction = some nt)
    (hmint : env.mintRes = .ok mr)
    (hL1 : estimatePortfolioValue env.preBal0 env.preBal1 cfg.decimals0 cfg.decimals1 (ttp tick) > 0 ∧
           estimatePortfolioValue env.newBal0 env.newBal1 cfg.decimals0 cfg.decimals1 (ttp tick) > 0 ∧
           checkRebalanceLoss
             (estimatePortfolioValue env.preBal0 env.preBal1 cfg.decimals0 cfg.decimals1 (ttp tick))
             (estimatePortfolioValue env.newBal0 env.newBal1 cfg.decimals0 cfg.decimals1 (ttp tick)) = true) :
    (executeBandRebalance cfg ttp tick direction s env).1.bands =
       BandManager.addBand (BandManager.removeBand s.bands bd.tokenId) mr.1 nt.1 nt.2
         (match direction with
          | .lower => BandManager.InsertPos.atStart
          | .upper => BandManager.InsertPos.atEnd) ∧
    (executeBandRebalance cfg ttp tick direction s env).1.consecutiveErrors = 0 ∧
    (executeBandRebalance cfg ttp tick direction s env).1.state = .STOPPED ∧
    (executeBandRebalance cfg ttp tick direction s env).1.esStopped = true ∧
    (executeBandRebalance cfg ttp tick direction s env).2 =
       withdrawEventsFor s bd liq
       ++ swapEventsFor cfg env direction
       ++ [Event.persist (some .SWAPPED)
            ((BandManager.removeBand s.bands bd.tokenId).map toBandState) true]
       ++ [Event.chain (.mint nt.1 nt.2 env.newBal0 env.newBal1)]
       ++ [Event.notice .rebalanceLossAlert] := by
  cases direction with
  | lower =>
    by_cases hl0 : liq ≠ 0 <;> by_cases hb : env.bal0 > 0 <;>
    simp [executeBandRebalance, if_neg hmin, hstop,
      checkGasCost_outOfRange, hbd, hliq, hrem, hck1, hswap, hck2, hticks, hmint,
      persistCheckpoint, Store.saveOrThrow,
      withdrawEventsFor, swapEventsFor, hL1, hL1.1, hL1.2.1, hL1.2.2, hl0, hb]
  | upper =>
    by_cases hl0 : liq ≠ 0 <;> by_cases hb : env.bal1 > 0 <;>
    simp [executeBandRebalance, if_neg hmin, hstop,
      checkGasCost_outOfRange, hbd, hliq, hrem, hck1, hswap, hck2, hticks, hmint,
      persistCheckpoint, Store.saveOrThrow,
      withdrawEventsFor, swapEventsFor, hL1, hL1.1, hL1.2.1, hL1.2.2, hl0, hb]

/-- Re-indexing never changes emptiness. -/
theorem reindexFrom_eq_nil (n : Nat) (bs : List Band) :
    BandManager.reindexFrom n bs = [] ↔ bs = [] := by
  cases bs <;> simp [BandManager.reindexFrom]

/-- `addBand` always produces a non-empty ledger. -/
theorem addBand_ne_nil (bs : List Band) (tid : Nat) (lo hi : Int)
    (pos : BandManager.InsertPos) : BandManager.addBand bs tid lo hi pos ≠ [] := by
  cases pos <;> simp [BandManager.addBand, reindexFrom_eq_nil]

/-- Gate-passing, error-free rebalance in which only the portfolio-loss
check fires: the emergency stop is triggered with the portfolio-loss
reason and `emergencyWithdraw` runs on the freshly updated (non-empty)
ledger, so the engine ends `STOPPED`; the counter stays reset. -/
theorem rebalance_success_portfolioLoss
    (cfg : Config) (ttp : Int → ℚ) (tick : Int) (direction : TriggerDirection)
    (s : EngineState) (env : Env) (bd : Band) (liq : Nat)
    (tx3 : String × String × String) (sh : String) (nt : Int × Int) (mr : Nat × String)
    (hmin : ¬(env.now - s.lastRebalanceTime < cfg.minRebalanceIntervalMinutes * 60 * 1000))
    (hstop : s.esStopped = false)
    (hbd : BandManager.getBandToDissolve s.bands direction = some bd)
    (hliq : env.dissolveLiquidity = .ok liq)
    (hrem : env.removeRes = .ok tx3)
    (hck1 : env.ckpt1Ok = true)
    (hswap : env.swapRes = .ok sh)
    (hck2 : env.ckpt2Ok = true)
    (hticks : BandManager.getNewBandTicks (BandManager.removeBand s.bands bd.tokenId)
        s.bandTickWidth direction = some nt)
    (hmint : env.mintRes = .ok mr)
    (hL1 : ¬(estimatePortfolioValue env.preBal0 env.preBal1 cfg.decimals0 cfg.decimals1 (ttp tick) > 0 ∧
             estimatePortfolioValue env.newBal0 env.newBal1 cfg.decimals0 cfg.decimals1 (ttp tick) > 0 ∧
             checkRebalanceLoss
               (estimatePortfolioValue env.preBal0 env.preBal1 cfg.decimals0 cfg.decimals1 (ttp tick))
               (estimatePortfolioValue env.newBal0 env.newBal1 cfg.decimals0 cfg.decimals1 (ttp tick)) = true))
    (hL2 : portfolioLossFires s.initialValue
        (estimatePortfolioValue env.newBal0 env.newBal1 cfg.decimals0 cfg.decimals1 (ttp tick))
        cfg.maxTotalLossPercent = true) :
    (executeBandRebalance cfg ttp tick direction s env).1.state = .STOPPED ∧
    (executeBandRebalance cfg ttp tick direction s env).1.esStopped = true ∧
    (executeBandRebalance cfg ttp tick direction s env).1.consecutiveErrors = 0 ∧
    (∀ stg bs ff, Event.persist (some stg) bs ff ∈ (executeBandRebalance cfg ttp tick direction s env).2 →
      ff = true ∧ bs = (BandManager.removeBand s.bands bd.tokenId).map toBandState) ∧
    (∀ bs ff, Event.persist none bs ff ∈ (executeBandRebalance cfg ttp tick direction s env).2 →
      ff = false) := by
  cases direction with
  | lower =>
    by_cases hl0 : liq ≠ 0 <;> by_cases hb : env.bal0 > 0
    all_goals
      refine ⟨?_, ?_, ?_, ?_, ?_⟩
      · simp [executeBandRebalance, if_neg hmin, hstop,
          checkGasCost_outOfRange, hbd, hliq, hrem, hck1, hswap, hck2, hticks, hmint,
          persistCheckpoint, Store.saveOrThrow, hl0, hb, hL2, hL1]
        exact emergencyWithdraw_nonempty_stopped _ _ _
          (by simp [BandManager.addBand, reindexFrom_eq_nil])
      · simp [executeBandRebalance, if_neg hmin, hstop,
          checkGasCost_outOfRange, hbd, hliq, hrem, hck1, hswap, hck2, hticks, hmint,
          persistCheckpoint, Store.saveOrThrow, hl0, hb, hL2, hL1]
        rw [(emergencyWithdraw_preserves _ _ _).1]
      · simp [executeBandRebalance, if_neg hmin, hstop,
          checkGasCost_outOfRange, hbd, hliq, hrem, hck1, hswap, hck2, hticks, hmint,
          persistCheckpoint, Store.saveOrThrow, hl0, hb, hL2, hL1]
        rw [(emergencyWithdraw_preserves _ _ _).2.1]
      · intro stg bs ff h
        simp [executeBandRebalance, if_neg hmin, hstop,
          checkGasCost_outOfRange, hbd, hliq, hrem, hck1, hswap, hck2, hticks, hmint,
          persistCheckpoint, Store.saveOrThrow, hl0, hb, hL2, hL1] at h
        rcases h with ⟨-, hbs, hff⟩ | ⟨-, hbs, hff⟩ | h
        · exact ⟨hff, hbs⟩
        · exact ⟨hff, hbs⟩
        · obtain ⟨hstg, -, -⟩ := emergencyWithdraw_persist_events _ _ _ _ _ _ h
          simp at hstg
      · intro bs ff h
        simp [executeBandRebalance, if_neg hmin, hstop,
          checkGasCost_outOfRange, hbd, hliq, hrem, hck1, hswap, hck2, hticks, hmint,
          persistCheckpoint, Store.saveOrThrow, hl0, hb, hL2, hL1] at h
        obtain ⟨-, hff, -⟩ := emergencyWithdraw_persist_events _ _ _ _ _ _ h
        exact hff
  | upper =>
    by_cases hl0 : liq ≠ 0 <;> by_cases hb : env.bal1 > 0
    all_goals
      refine ⟨?_, ?_, ?_, ?_, ?_⟩
      · simp [executeBandRebalance, if_neg hmin, hstop,
          checkGasCost_outOfRange, hbd, hliq, hrem, hck1, hswap, hck2, hticks, hmint,
          persistCheckpoint, Store.saveOrThrow, hl0, hb, hL2, hL1]
        exact emergencyWithdraw_nonempty_stopped _ _ _
          (by simp [BandManager.addBand, reindexFrom_eq_nil])
      · simp [executeBandRebalance, if_neg hmin, hstop,
          checkGasCost_outOfRange, hbd, hliq, hrem, hck1, hswap, hck2, hticks, hmint,
          persistCheckpoint, Store.saveOrThrow, hl0, hb, hL2, hL1]
        rw [(emergencyWithdraw_preserves _ _ _).1]
      · simp [executeBandRebalance, if_neg hmin, hstop,
          checkGasCost_outOfRange, hbd, hliq, hrem, hck1, hswap, hck2, hticks, hmint,
          persistCheckpoint, Store.saveOrThrow, hl0, hb, hL2, hL1]
        rw [(emergencyWithdraw_preserves _ _ _).2.1]
      · intro stg bs ff h
        simp [executeBandRebalance, if_neg hmin, hstop,
          checkGasCost_outOfRange, hbd, hliq, hrem, hck1, hswap, hck2, hticks, hmint,
          persistCheckpoint, Store.saveOrThrow, hl0, hb, hL2, hL1] at h
        rcases h with ⟨-, hbs, hff⟩ | ⟨-, hbs, hff⟩ | h
        · exact ⟨hff, hbs⟩
        · exact ⟨hff, hbs⟩
        · obtain ⟨hstg, -, -⟩ := emergencyWithdraw_persist_events _ _ _ _ _ _ h
          simp at hstg
      · intro bs ff h
        simp [executeBandRebalance, if_neg hmin, hstop,
          checkGasCost_outOfRange, hbd, hliq, hrem, hck1, hswap, hck2, hticks, hmint,
          persistCheckpoint, Store.saveOrThrow, hl0, hb, hL2, hL1] at h
        obtain ⟨-, hff, -⟩ := emergencyWithdraw_persist_events _ _ _ _ _ _ h
        exact hff

/-! ## Initial-mint lemmas -/

/-- Layout computation throws: `handleError`, ledger untouched. -/
theorem mint_fail_layout (cfg : Config) (ttp : Int → ℚ) (tick : Int)
    (s : EngineState) (env : Env)
    (hlay : calculateBands tick cfg.tickOffset cfg.feeTier = .error ()) :
    (mintInitialBands cfg ttp tick s env).1.bands = s.bands ∧
    (mintInitialBands cfg ttp tick s env).1.consecutiveErrors = s.consecutiveErrors + 1 ∧
    (mintInitialBands cfg ttp tick s env).1.state =
      (if s.consecutiveErrors + 1 ≥ 3 then RState.ERROR else RState.MONITORING) ∧
    (mintInitialBands cfg ttp tick s env).1.esStopped =
      (if s.consecutiveErrors + 1 ≥ 3 then true else s.esStopped) ∧
    (mintInitialBands cfg ttp tick s env).2 =
      (if s.consecutiveErrors + 1 ≥ 3
       then [Event.notice (.stoppedAfterErrors (s.consecutiveErrors + 1))] else []) := by
  by_cases h3 : s.consecutiveErrors + 1 ≥ 3 <;>
    simp [mintInitialBands, hlay, handleError, h3]

/-- A mint call throws mid-loop: `handleError`, ledger untouched (the
band manager is only updated after the whole loop). -/
theorem mint_fail_loop (cfg : Config) (ttp : Int → ℚ) (tick : Int)
    (s : EngineState) (env : Env) (layout : BandLayout)
    (hlay : calculateBands tick cfg.tickOffset cfg.feeTier = .ok layout)
    (hloop : (mintLoop env env.totBal0 env.totBal1 layout.bands.length layout.bands 0).2 =
      .error ()) :
    (mintInitialBands cfg ttp tick s env).1.bands = s.bands ∧
    (mintInitialBands cfg ttp tick s env).1.consecutiveErrors = s.consecutiveErrors + 1 ∧
    (mintInitialBands cfg ttp tick s env).1.state =
      (if s.consecutiveErrors + 1 ≥ 3 then RState.ERROR else RState.MONITORING) ∧
    (mintInitialBands cfg ttp tick s env).1.esStopped =
      (if s.consecutiveErrors + 1 ≥ 3 then true else s.esStopped) ∧
    (mintInitialBands cfg ttp tick s env).2 =
      (mintLoop env env.totBal0 env.totBal1 layout.bands.length layout.bands 0).1 ++
      (if s.consecutiveErrors + 1 ≥ 3
       then [Event.notice (.stoppedAfterErrors (s.consecutiveErrors + 1))] else []) := by
  by_cases h3 : s.consecutiveErrors + 1 ≥ 3 <;>
    simp [mintInitialBands, hlay, hloop, handleError, h3]

/-- Successful initial mint: the sorted minted ledger is installed with
the layout's width, the error counter resets, the initial portfolio value
is seeded, and the engine returns to `MONITORING`. -/
theorem mint_success (cfg : Config) (ttp : Int → ℚ) (tick : Int)
    (s : EngineState) (env : Env) (layout : BandLayout) (newBands : List Band)
    (hlay : calculateBands tick cfg.tickOffset cfg.feeTier = .ok layout)
    (hloop : (mintLoop env env.totBal0 env.totBal1 layout.bands.length layout.bands 0).2 =
      .ok newBands) :
    (mintInitialBands cfg ttp tick s env).1.bands = BandManager.setBands newBands ∧
    (mintInitialBands cfg ttp tick s env).1.bandTickWidth = layout.bandTickWidth ∧
    (mintInitialBands cfg ttp tick s env).1.consecutiveErrors = 0 ∧
    (mintInitialBands cfg ttp tick s env).1.state = .MONITORING ∧
    (mintInitialBands cfg ttp tick s env).1.esStopped = s.esStopped ∧
    (mintInitialBands cfg ttp tick s env).1.lastRebalanceTime = env.now ∧
    (mintInitialBands cfg ttp tick s env).1.initialValue =
      some (estimatePortfolioValue env.totBal0 env.totBal1 cfg.decimals0 cfg.decimals1 (ttp tick)) ∧
    (mintInitialBands cfg ttp tick s env).2 =
      (mintLoop env env.totBal0 env.totBal1 layout.bands.length layout.bands 0).1 ++
      [Event.persist none ((BandManager.setBands newBands).map toBandState) false] ++
      [Event.history .MINT, Event.notice (.initialMinted newBands.length)] := by
  simp [mintInitialBands, hlay, hloop, persistState]

/-! ## Depeg-check and dispatch lemmas -/

/-- The depeg check fires exactly when a non-zero expected ratio is
configured and the relative deviation strictly exceeds the (default 5 %)
threshold. -/
theorem checkDepeg_fires_iff (cfg : Config) (ttp : Int → ℚ) (tick : Int) (s : EngineState) :
    (checkDepeg cfg ttp tick s).1 = true ↔
      ∃ e, cfg.expectedPriceRatio = some e ∧ e ≠ 0 ∧
        |ttp tick - e| / e * 100 > (cfg.depegThresholdPercent).getD 5 := by
  rcases hopt : cfg.expectedPriceRatio with _ | e
  · simp [checkDepeg, hopt]
  · by_cases he : e = 0
    · simp [checkDepeg, hopt, he]
    · by_cases hdev : |ttp tick - e| / e * 100 > (cfg.depegThresholdPercent).getD 5
      · simp [checkDepeg, hopt, he, hdev]
      · simp [checkDepeg, hopt, he, hdev]

/-- A non-firing depeg check leaves the state untouched. -/
theorem checkDepeg_not_fired (cfg : Config) (ttp : Int → ℚ) (tick : Int) (s : EngineState)
    (h : (checkDepeg cfg ttp tick s).1 = false) :
    checkDepeg cfg ttp tick s = (false, s, []) := by
  rcases hopt : cfg.expectedPriceRatio with _ | e
  · simp [checkDepeg, hopt]
  · by_cases he : e = 0
    · simp [checkDepeg, hopt, he]
    · by_cases hdev : |ttp tick - e| / e * 100 > (cfg.depegThresholdPercent).getD 5
      · simp [checkDepeg, hopt, he, hdev] at h
      · simp [checkDepeg, hopt, he, hdev]

/-- A firing depeg check triggers the emergency stop with the depeg
reason and emits the depeg alert. -/
theorem checkDepeg_fired (cfg : Config) (ttp : Int → ℚ) (tick : Int) (s : EngineState)
    (h : (checkDepeg cfg ttp tick s).1 = true) :
    checkDepeg cfg ttp tick s =
      (true, { s with esStopped := true, esReason := some .depeg },
       [Event.notice .depegAlert]) := by
  rcases hopt : cfg.expectedPriceRatio with _ | e
  · simp [checkDepeg, hopt] at h
  · by_cases he : e = 0
    · simp [checkDepeg, hopt, he] at h
    · by_cases hdev : |ttp tick - e| / e * 100 > (cfg.depegThresholdPercent).getD 5
      · simp [checkDepeg, hopt, he, hdev]
      · simp [checkDepeg, hopt, he, hdev] at h

/-- `onPriceUpdate` ignores ticks outside `MONITORING`/`IDLE`. -/
theorem onPriceUpdate_skip_state (cfg : Config) (ttp : Int → ℚ) (tick : Int)
    (s : EngineState) (env : Env)
    (hm : s.state ≠ .MONITORING) (hi : s.state ≠ .IDLE) :
    onPriceUpdate cfg ttp tick s env = .ok (s, []) := by
  unfold onPriceUpdate
  split
  · rfl
  · rw [if_pos ⟨hm, hi⟩]

/-- Active tick, depeg fires: the emergency stop is triggered and
`emergencyWithdraw` runs; nothing else happens on this tick. -/
theorem onPriceUpdate_active_depeg (cfg : Config) (ttp : Int → ℚ) (tick : Int)
    (s : EngineState) (env : Env)
    (hact : s.state = .MONITORING ∨ s.state = .IDLE)
    (hf : (checkDepeg cfg ttp tick s).1 = true) :
    onPriceUpdate cfg ttp tick s env =
      .ok ((emergencyWithdraw cfg { s with esStopped := true, esReason := some .depeg } env).1,
           Event.notice .depegAlert ::
             (emergencyWithdraw cfg { s with esStopped := true, esReason := some .depeg } env).2) := by
  have h1 : ¬(s.state = .STOPPED ∨ s.state = .ERROR) := by
    rcases hact with h | h <;> simp [h]
  have h2 : ¬(s.state ≠ .MONITORING ∧ s.state ≠ .IDLE) := by
    rcases hact with h | h <;> simp [h]
  simp [onPriceUpdate, h1, h2, checkDepeg_fired cfg ttp tick s hf]

/-- Active tick, no depeg, empty ledger: the tick is routed to
`mintInitialBands`. -/
theorem onPriceUpdate_active_mint (cfg : Config) (ttp : Int → ℚ) (tick : Int)
    (s : EngineState) (env : Env)
    (hact : s.state = .MONITORING ∨ s.state = .IDLE)
    (hnf : (checkDepeg cfg ttp tick s).1 = false)
    (hempty : s.bands = []) :
    onPriceUpdate cfg ttp tick s env = .ok (mintInitialBands cfg ttp tick s env) := by
  have h1 : ¬(s.state = .STOPPED ∨ s.state = .ERROR) := by
    rcases hact with h | h <;> simp [h]
  have h2 : ¬(s.state ≠ .MONITORING ∧ s.state ≠ .IDLE) := by
    rcases hact with h | h <;> simp [h]
  simp [onPriceUpdate, h1, h2, checkDepeg_not_fired cfg ttp tick s hnf, hempty]

/-- Active tick, no depeg, non-empty ledger, safe zone: no action. -/
theorem onPriceUpdate_active_safe (cfg : Config) (ttp : Int → ℚ) (tick : Int)
    (s : EngineState) (env : Env)
    (hact : s.state = .MONITORING ∨ s.state = .IDLE)
    (hnf : (checkDepeg cfg ttp tick s).1 = false)
    (hne : s.bands ≠ [])
    (hsafe : BandManager.isInSafeZone s.bands tick = true) :
    onPriceUpdate cfg ttp tick s env = .ok (s, []) := by
  have h1 : ¬(s.state = .STOPPED ∨ s.state = .ERROR) := by
    rcases hact with h | h <;> simp [h]
  have h2 : ¬(s.state ≠ .MONITORING ∧ s.state ≠ .IDLE) := by
    rcases hact with h | h <;> simp [h]
  simp [onPriceUpdate, h1, h2, checkDepeg_not_fired cfg ttp tick s hnf, hne, hsafe]

/-- Active tick, no depeg, non-empty ledger, outside the safe zone, no
trigger direction: no action. -/
theorem onPriceUpdate_active_noTrigger (cfg : Config) (ttp : Int → ℚ) (tick : Int)
    (s : EngineState) (env : Env)
    (hact : s.state = .MONITORING ∨ s.state = .IDLE)
    (hnf : (checkDepeg cfg ttp tick s).1 = false)
    (hne : s.bands ≠ [])
    (hsafe : BandManager.isInSafeZone s.bands tick = false)
    (hdir : BandManager.getTriggerDirection s.bands tick = some none) :
    onPriceUpdate cfg ttp tick s env = .ok (s, []) := by
  have h1 : ¬(s.state = .STOPPED ∨ s.state = .ERROR) := by
    rcases hact with h | h <;> simp [h]
  have h2 : ¬(s.state ≠ .MONITORING ∧ s.state ≠ .IDLE) := by
    rcases hact with h | h <;> simp [h]
  simp [onPriceUpdate, h1, h2, checkDepeg_not_fired cfg ttp tick s hnf, hne, hsafe, hdir]

/-- Active tick, no depeg, non-empty ledger, trigger band reached: the
tick is routed to `executeBandRebalance`. -/
theorem onPriceUpdate_active_trigger (cfg : Config) (ttp : Int → ℚ) (tick : Int)
    (s : EngineState) (env : Env) (d : TriggerDirection)
    (hact : s.state = .MONITORING ∨ s.state = .IDLE)
    (hnf : (checkDepeg cfg ttp tick s).1 = false)
    (hne : s.bands ≠ [])
    (hsafe : BandManager.isInSafeZone s.bands tick = false)
    (hdir : BandManager.getTriggerDirection s.bands tick = some (some d)) :
    onPriceUpdate cfg ttp tick s env =
      .ok ((executeBandRebalance cfg ttp tick d s env).1,
           (executeBandRebalance cfg ttp tick d s env).2) := by
  have h1 : ¬(s.state = .STOPPED ∨ s.state = .ERROR) := by
    rcases hact with h | h <;> simp [h]
  have h2 : ¬(s.state ≠ .MONITORING ∧ s.state ≠ .IDLE) := by
    rcases hact with h | h <;> simp [h]
  simp [onPriceUpdate, h1, h2, checkDepeg_not_fired cfg ttp tick s hnf, hne, hsafe, hdir]

/-! ## Emergency-stop temporal lemmas -/

/-- `mintLoop` emits chain calls only. -/
theorem mintLoop_events_chain (env : Env) (b0 b1 n : Nat) :
    ∀ bcs i, ∀ e ∈ (mintLoop env b0 b1 n bcs i).1, ∃ c, e = Event.chain c := by
  intro bcs
  induction bcs with
  | nil => intro i e he; simp [mintLoop] at he
  | cons bc rest ih =>
    intro i e he
    unfold mintLoop at he
    rcases hm : env.mintTokenId i with _ | tid <;> rw [hm] at he <;> simp at he
    · exact ⟨_, he⟩
    · rcases he with he | he
      · exact ⟨_, he⟩
      · exact ih (i + 1) e he

/-- No `REBALANCE` history entry ever comes out of `emergencyWithdraw`. -/
theorem emergencyWithdraw_no_rebalance (cfg : Config) (s : EngineState) (env : Env) :
    ∀ d, Event.history (.REBALANCE d) ∉ (emergencyWithdraw cfg s env).2 := by
  intro d h
  unfold emergencyWithdraw at h
  split at h
  · simp at h
  · dsimp only at h
    split at h <;> simp [persistState] at h <;>
      exact absurd (ewLoop_events_chain env _ _ h).choose_spec (by simp)

/-- Once the emergency stop is set, `mintInitialBands` keeps it set and
logs no `REBALANCE`. -/
theorem mintInitialBands_stopped_inv (cfg : Config) (ttp : Int → ℚ) (tick : Int)
    (s : EngineState) (env : Env) (hs : s.esStopped = true) :
    (mintInitialBands cfg ttp tick s env).1.esStopped = true ∧
    ∀ d, Event.history (.REBALANCE d) ∉ (mintInitialBands cfg ttp tick s env).2 := by
  rcases hlay : calculateBands tick cfg.tickOffset cfg.feeTier with u | layout
  · cases u
    obtain ⟨-, -, -, hes, hevs⟩ := mint_fail_layout cfg ttp tick s env hlay
    refine ⟨by rw [hes]; split <;> simp [hs], ?_⟩
    intro d h
    rw [hevs] at h
    split at h <;> simp at h
  · rcases hloop : (mintLoop env env.totBal0 env.totBal1 layout.bands.length layout.bands 0).2
        with u | newBands
    · cases u
      obtain ⟨-, -, -, hes, hevs⟩ := mint_fail_loop cfg ttp tick s env layout hlay hloop
      refine ⟨by rw [hes]; split <;> simp [hs], ?_⟩
      intro d h
      rw [hevs] at h
      rcases List.mem_append.mp h with h | h
      · exact absurd (mintLoop_events_chain env _ _ _ _ _ _ h).choose_spec (by simp)
      · split at h <;> simp at h
    · obtain ⟨-, -, -, -, hes, -, -, hevs⟩ :=
        mint_success cfg ttp tick s env layout newBands hlay hloop
      refine ⟨by rw [hes]; exact hs, ?_⟩
      intro d h
      rw [hevs] at h
      simp at h
      exact absurd (mintLoop_events_chain env _ _ _ _ _ _ h).choose_spec (by simp)

/-- One tick under an engaged emergency stop: the stop stays engaged and
no `REBALANCE` is ever logged (band rebalances skip at the
emergency-stop gate; only an initial mint, a withdraw, or nothing can
happen). -/
theorem onPriceUpdate_stopped_inv (cfg : Config) (ttp : Int → ℚ) (tick : Int)
    (s : EngineState) (env : Env) (s' : EngineState) (evs : List Event)
    (hs : s.esStopped = true)
    (h : onPriceUpdate cfg ttp tick s env = .ok (s', evs)) :
    s'.esStopped = true ∧ ∀ d, Event.history (.REBALANCE d) ∉ evs := by
  by_cases hact : s.state = .MONITORING ∨ s.state = .IDLE
  · by_cases hf : (checkDepeg cfg ttp tick s).1 = true
    · rw [onPriceUpdate_active_depeg cfg ttp tick s env hact hf] at h
      rw [Except.ok.injEq, Prod.mk.injEq] at h
      obtain ⟨h1, h2⟩ := h
      subst h1 h2
      have hp := (emergencyWithdraw_preserves cfg
        { s with esStopped := true, esReason := some .depeg } env).1
      refine ⟨by rw [hp], ?_⟩
      intro d hd
      rcases List.mem_cons.mp hd with hd | hd
      · simp at hd
      · exact emergencyWithdraw_no_rebalance cfg _ env d hd
    · rw [Bool.not_eq_true] at hf
      by_cases hempty : s.bands = []
      · rw [onPriceUpdate_active_mint cfg ttp tick s env hact hf hempty] at h
        rw [Except.ok.injEq] at h
        have h1 := congrArg Prod.fst h
        have h2 := congrArg Prod.snd h
        simp only at h1 h2
        obtain ⟨ha, hb⟩ := mintInitialBands_stopped_inv cfg ttp tick s env hs
        refine ⟨by rw [← h1]; exact ha, ?_⟩
        intro d hd
        rw [← h2] at hd
        exact hb d hd
      · by_cases hsafe : BandManager.isInSafeZone s.bands tick = true
        · rw [onPriceUpdate_active_safe cfg ttp tick s env hact hf hempty hsafe] at h
          rw [Except.ok.injEq, Prod.mk.injEq] at h
          obtain ⟨h1, h2⟩ := h
          subst h1 h2
          exact ⟨hs, by simp⟩
        · rw [Bool.not_eq_true] at hsafe
          rcases ht : BandManager.getTriggerDirection s.bands tick with _ | od
          · exact absurd ht (getTriggerDirection_ne_none s.bands hempty tick)
          · cases od with
            | none =>
              rw [onPriceUpdate_active_noTrigger cfg ttp tick s env hact hf hempty hsafe ht] at h
              rw [Except.ok.injEq, Prod.mk.injEq] at h
              obtain ⟨h1, h2⟩ := h
              subst h1 h2
              exact ⟨hs, by simp⟩
            | some d =>
              rw [onPriceUpdate_active_trigger cfg ttp tick s env d hact hf hempty hsafe ht,
                rebalance_skip_stopped cfg ttp tick d s env hs] at h
              rw [Except.ok.injEq, Prod.mk.injEq] at h
              obtain ⟨h1, h2⟩ := h
              subst h1 h2
              exact ⟨hs, by simp⟩
  · push_neg at hact
    rw [onPriceUpdate_skip_state cfg ttp tick s env hact.1 hact.2] at h
    rw [Except.ok.injEq, Prod.mk.injEq] at h
    obtain ⟨h1, h2⟩ := h
    subst h1 h2
    exact ⟨hs, by simp⟩

/-- A sequence of price ticks (`onPriceUpdate` per tick with that tick's
environment), accumulating the effect trace. -/
def runTicks (cfg : Config) (ttp : Int → ℚ) :
    EngineState → List (Int × Env) → Except Unit (EngineState × List Event)
  | s, [] => .ok (s, [])
  | s, (tick, env) :: rest =>
    match onPriceUpdate cfg ttp tick s env with
    | .error _ => .error ()
    | .ok se =>
      match runTicks cfg ttp se.1 rest with
      | .error _ => .error ()
      | .ok se' => .ok (se'.1, se.2 ++ se'.2)

/-- Once the emergency stop is engaged, an arbitrary further tick
sequence never logs a `REBALANCE` and never clears the stop. -/
theorem runTicks_stopped_inv (cfg : Config) (ttp : Int → ℚ) :
    ∀ (steps : List (Int × Env)) (s : EngineState), s.esStopped = true →
      ∀ s' evs, runTicks cfg ttp s steps = .ok (s', evs) →
        s'.esStopped = true ∧ ∀ d, Event.history (.REBALANCE d) ∉ evs := by
  intro steps
  induction steps with
  | nil =>
    intro s hs s' evs h
    rw [runTicks, Except.ok.injEq, Prod.mk.injEq] at h
    obtain ⟨h1, h2⟩ := h
    subst h1 h2
    exact ⟨hs, by simp⟩
  | cons p rest ih =>
    intro s hs s' evs h
    rw [runTicks] at h
    rcases h1 : onPriceUpdate cfg ttp p.1 s p.2 with u | se
    · rw [h1] at h; cases h
    · rw [h1] at h
      dsimp only at h
      rcases h2 : runTicks cfg ttp se.1 rest with u | se'
      · rw [h2] at h; cases h
      · rw [h2] at h
        rw [Except.ok.injEq, Prod.mk.injEq] at h
        obtain ⟨hA, hB⟩ := h
        subst hA hB
        obtain ⟨hstep1, hstep2⟩ := onPriceUpdate_stopped_inv cfg ttp p.1 s p.2 se.1 se.2 hs
          (by rw [h1])
        obtain ⟨hrest1, hrest2⟩ := ih se.1 hstep1 se'.1 se'.2 h2
        refine ⟨hrest1, fun d hd => ?_⟩
        rcases List.mem_append.mp hd with hd | hd
        · exact hstep2 d hd
        · exact hrest2 d hd

/-- C5, amended.  The depeg check fires exactly when a (non-zero)
`expectedPriceRatio` is configured and
`|tickToPrice(tick) − expected| / expected · 100` strictly exceeds the
threshold (default 5).  When it fires on an active tick, the emergency
stop is engaged, the depeg alert is emitted and `emergencyWithdraw` runs;
the engine state becomes `STOPPED` **provided the ledger is non-empty**
(`emergencyWithdraw` returns without a state change on an empty ledger —
see the counterexample).  Afterwards no band rebalance is ever executed:
`executeBandRebalance` skips whenever the stop is engaged, the stop is
never cleared, and no later tick sequence can log a `REBALANCE`. -/
theorem depeg_stop_amended :
    (∀ (cfg : Config) (ttp : Int → ℚ) (tick : Int) (s : EngineState),
      (checkDepeg cfg ttp tick s).1 = true ↔
        ∃ e, cfg.expectedPriceRatio = some e ∧ e ≠ 0 ∧
          |ttp tick - e| / e * 100 > (cfg.depegThresholdPercent).getD 5) ∧
    (∀ (cfg : Config) (ttp : Int → ℚ) (tick : Int) (s : EngineState) (env : Env)
        (s' : EngineState) (evs : List Event),
      (s.state = .MONITORING ∨ s.state = .IDLE) →
      (checkDepeg cfg ttp tick s).1 = true →
      onPriceUpdate cfg ttp tick s env = .ok (s', evs) →
        s'.esStopped = true ∧ Event.notice .depegAlert ∈ evs ∧
        (s.bands ≠ [] → s'.state = .STOPPED)) ∧
    (∀ (cfg : Config) (ttp : Int → ℚ) (tick : Int) (d : TriggerDirection)
        (s : EngineState) (env : Env),
      s.esStopped = true → executeBandRebalance cfg ttp tick d s env = (s, [])) ∧
    (∀ (cfg : Config) (ttp : Int → ℚ) (steps : List (Int × Env)) (s : EngineState)
        (s' : EngineState) (evs : List Event),
      s.esStopped = true → runTicks cfg ttp s steps = .ok (s', evs) →
        ∀ d, Event.history (.REBALANCE d) ∉ evs) := by
  refine ⟨checkDepeg_fires_iff, ?_, rebalance_skip_stopped, ?_⟩
  · intro cfg ttp tick s env s' evs hact hf h
    rw [onPriceUpdate_active_depeg cfg ttp tick s env hact hf] at h
    rw [Except.ok.injEq, Prod.mk.injEq] at h
    obtain ⟨h1, h2⟩ := h
    subst h1 h2
    have hp := emergencyWithdraw_preserves cfg
      { s with esStopped := true, esReason := some .depeg } env
    refine ⟨by rw [hp.1], by simp, ?_⟩
    intro hne
    exact emergencyWithdraw_nonempty_stopped cfg _ env hne
  · intro cfg ttp steps s s' evs hs h
    exact (runTicks_stopped_inv cfg ttp steps s hs s' evs h).2

/-- Counterexample to C5 as stated: expected ratio 1, price 2 (deviation
100 % > 5 %), empty ledger.  The depeg fires and the emergency stop is
engaged, but `emergencyWithdraw` returns early on the empty ledger and
the engine state remains `MONITORING`, not `Stopped`. -/
theorem depeg_stop_counterexample :
    (onPriceUpdate { expectedPriceRatio := some 1 } (fun _ => 2) 0
        { state := RState.MONITORING } {}).map
      (fun r => (r.1.esStopped, r.1.state)) = .ok (true, RState.MONITORING) := by
  have hf : (checkDepeg { expectedPriceRatio := some 1 } (fun _ => 2) 0
      { state := RState.MONITORING }).1 = true := by
    rw [checkDepeg_fires_iff]
    exact ⟨1, rfl, one_ne_zero, by norm_num⟩
  rw [onPriceUpdate_active_depeg _ _ _ _ _ (Or.inl rfl) hf,
    emergencyWithdraw_empty _ _ _ rfl]
  rfl

/-- Witness for the amended C5: a concrete depeg tick on a one-band
ledger ends `STOPPED` with the alert emitted. -/
theorem depeg_stop_amended_witness :
    (checkDepeg { expectedPriceRatio := some 1 } (fun _ => 2) 0
      { state := RState.MONITORING,
        bands := [{ index := 0, tokenId := 7, tickLower := 0, tickUpper := 10 }] }).1 = true ∧
    ∃ s' evs,
      onPriceUpdate { expectedPriceRatio := some 1 } (fun _ => 2) 0
        { state := RState.MONITORING,
          bands := [{ index := 0, tokenId := 7, tickLower := 0, tickUpper := 10 }] } {} =
        .ok (s', evs) ∧
      s'.esStopped = true ∧ Event.notice .depegAlert ∈ evs ∧ s'.state = .STOPPED := by
  have hf : (checkDepeg { expectedPriceRatio := some 1 } (fun _ => 2) 0
      { state := RState.MONITORING,
        bands := [{ index := 0, tokenId := 7, tickLower := 0, tickUpper := 10 }] }).1 = true := by
    rw [checkDepeg_fires_iff]
    exact ⟨1, rfl, one_ne_zero, by norm_num⟩
  refine ⟨hf, ?_⟩
  rcases hr : onPriceUpdate { expectedPriceRatio := some 1 } (fun _ => 2) 0
      { state := RState.MONITORING,
        bands := [{ index := 0, tokenId := 7, tickLower := 0, tickUpper := 10 }] } {}
    with u | r
  · rw [onPriceUpdate_active_depeg _ _ _ _ _ (Or.inl rfl) hf] at hr
    cases hr
  · obtain ⟨s', evs⟩ := r
    obtain ⟨h1, h2, h3⟩ := (depeg_stop_amended.2.1) _ (fun _ => 2) 0 _ {} s' evs
      (Or.inl rfl) hf hr
    exact ⟨s', evs, rfl, h1, h2, h3 (by simp)⟩

/-- A clean removal loop reads every band's liquidity and removes every
band with non-zero liquidity. -/
theorem ewLoop_ok_coverage (env : Env) (bs : List Band)
    (hok : ∀ b ∈ bs, ∃ l, env.ewLiquidity b.tokenId = .ok l ∧
      (l ≠ 0 → env.ewRemoveOk b.tokenId = .ok ())) :
    (ewLoop env bs).2 = .ok () ∧
    ∀ b ∈ bs, Event.chain (.getPosition b.tokenId) ∈ (ewLoop env bs).1 ∧
      ∀ l, env.ewLiquidity b.tokenId = .ok l → l ≠ 0 →
        Event.chain (.removePosition b.tokenId l) ∈ (ewLoop env bs).1 := by
  induction bs with
  | nil => exact ⟨rfl, by simp⟩
  | cons b tl ih =>
    obtain ⟨l, hl, hrem⟩ := hok b (by simp)
    have hok' : ∀ p ∈ tl, ∃ l, env.ewLiquidity p.tokenId = .ok l ∧
        (l ≠ 0 → env.ewRemoveOk p.tokenId = .ok ()) :=
      fun p hp => hok p (by simp [hp])
    obtain ⟨ih1, ih2⟩ := ih hok'
    by_cases hl0 : l ≠ 0
    · have hrem' := hrem hl0
      refine ⟨by simp [ewLoop, hl, hl0, hrem', ih1], ?_⟩
      intro c hc
      rcases List.mem_cons.mp hc with rfl | hc
      · refine ⟨by simp [ewLoop, hl, hl0, hrem'], ?_⟩
        intro l' hl' hl'0
        rw [hl] at hl'
        rw [Except.ok.injEq] at hl'
        subst hl'
        simp [ewLoop, hl, hl0, hrem']
      · obtain ⟨hg, hr⟩ := ih2 c hc
        refine ⟨by simp [ewLoop, hl, hl0, hrem', hg], ?_⟩
        intro l' hl' hl'0
        simp [ewLoop, hl, hl0, hrem', hr l' hl' hl'0]
    · refine ⟨by simp [ewLoop, hl, hl0, ih1], ?_⟩
      intro c hc
      rcases List.mem_cons.mp hc with rfl | hc
      · refine ⟨by simp [ewLoop, hl, hl0], ?_⟩
        intro l' hl' hl'0
        rw [hl] at hl'
        rw [Except.ok.injEq] at hl'
        subst hl'
        exact absurd hl'0 (by simpa using hl0)
      · obtain ⟨hg, hr⟩ := ih2 c hc
        refine ⟨by simp [ewLoop, hl, hl0, hg], ?_⟩
        intro l' hl' hl'0
        simp [ewLoop, hl, hl0, hr l' hl' hl'0]

/-- C6, amended.  `emergencyWithdraw` iterates the ledger, reads each
band's live liquidity and removes every live position — but on the first
failure it **aborts the loop** (the `catch` is outside the `for`), emits
the `CRITICAL` manual-intervention notification, and does not touch the
remaining bands; in every case with a non-empty ledger the engine
transitions to `STOPPED`. -/
theorem emergencyWithdraw_amended :
    (∀ (cfg : Config) (s : EngineState) (env : Env),
      s.bands ≠ [] → (emergencyWithdraw cfg s env).1.state = .STOPPED) ∧
    (∀ (cfg : Config) (s : EngineState) (env : Env),
      s.bands ≠ [] →
      (∀ b ∈ s.bands, ∃ l, env.ewLiquidity b.tokenId = .ok l ∧
        (l ≠ 0 → env.ewRemoveOk b.tokenId = .ok ())) →
      (emergencyWithdraw cfg s env).1.bands = [] ∧
      ∀ b ∈ s.bands, Event.chain (.getPosition b.tokenId) ∈ (emergencyWithdraw cfg s env).2 ∧
        ∀ l, env.ewLiquidity b.tokenId = .ok l → l ≠ 0 →
          Event.chain (.removePosition b.tokenId l) ∈ (emergencyWithdraw cfg s env).2) ∧
    (∀ (cfg : Config) (s : EngineState) (env : Env) (pre : List Band) (bfail : Band)
        (post : List Band),
      s.bands = pre ++ bfail :: post →
      (∀ b ∈ pre, ∃ l, env.ewLiquidity b.tokenId = .ok l ∧
        (l ≠ 0 → env.ewRemoveOk b.tokenId = .ok ())) →
      (env.ewLiquidity bfail.tokenId = .error () ∨
        (∃ l, env.ewLiquidity bfail.tokenId = .ok l ∧ l ≠ 0 ∧
          env.ewRemoveOk bfail.tokenId = .error ())) →
      (emergencyWithdraw cfg s env).1.bands = s.bands ∧
      (emergencyWithdraw cfg s env).1.state = .STOPPED ∧
      Event.notice .criticalWithdrawFailed ∈ (emergencyWithdraw cfg s env).2 ∧
      ∀ tid, Event.chain (.getPosition tid) ∈ (emergencyWithdraw cfg s env).2 →
        tid ∈ pre.map Band.tokenId ∨ tid = bfail.tokenId) := by
  refine ⟨emergencyWithdraw_nonempty_stopped, ?_, ?_⟩
  · intro cfg s env hne hok
    obtain ⟨hok2, hcov⟩ := ewLoop_ok_coverage env s.bands hok
    obtain ⟨hbands, -, -, htrace⟩ := emergencyWithdraw_success cfg s env hne hok2
    refine ⟨hbands, ?_⟩
    intro b hb
    obtain ⟨hg, hr⟩ := hcov b hb
    rw [htrace]
    refine ⟨by simp [hg], ?_⟩
    intro l hl hl0
    simp [hr l hl hl0]
  · intro cfg s env pre bfail post hsplit hpre hfail
    have hne : s.bands ≠ [] := by rw [hsplit]; simp
    have hfl : (ewLoop env (bfail :: post)).2 = .error () ∧
        ∀ tid, Event.chain (.getPosition tid) ∈ (ewLoop env (bfail :: post)).1 →
          tid = bfail.tokenId := by
      rcases hfail with hf | ⟨l, hl, hl0, hr⟩
      · constructor
        · simp [ewLoop, hf]
        · intro tid h
          simp [ewLoop, hf] at h
          exact h
      · constructor
        · simp [ewLoop, hl, hl0, hr]
        · intro tid h
          simp [ewLoop, hl, hl0, hr] at h
          exact h
    obtain ⟨hsp1, hsp2, -⟩ := ewLoop_append_ok env pre (bfail :: post) hpre
    have herr : (ewLoop env s.bands).2 = .error () := by
      rw [hsplit, hsp2, hfl.1]
    obtain ⟨hbands, hstate, -, htrace⟩ := emergencyWithdraw_failure cfg s env hne herr
    refine ⟨hbands, hstate, by rw [htrace]; simp, ?_⟩
    intro tid h
    rw [htrace] at h
    rcases List.mem_append.mp h with h | h
    · rw [hsplit, hsp1] at h
      rcases List.mem_append.mp h with h | h
      · exact Or.inl (ewLoop_getPosition_mem env pre tid h)
      · exact Or.inr (hfl.2 tid h)
    · simp at h

/-- Counterexample to C6 as stated: two bands, the removal of the first
one throws.  The loop aborts — the second band's liquidity is never even
read (`getPosition 2` is absent from the trace) — the engine does not
"continue with the remaining bands". -/
theorem emergencyWithdraw_continue_counterexample :
    (emergencyWithdraw {}
        { state := RState.MONITORING,
          bands := [{ index := 0, tokenId := 1, tickLower := 0, tickUpper := 10 },
                    { index := 1, tokenId := 2, tickLower := 10, tickUpper := 20 }] }
        { ewLiquidity := fun _ => .ok 5,
          ewRemoveOk := fun tid => if tid = 1 then .error () else .ok () }).2 =
      [Event.chain (.getPosition 1), Event.chain (.removePosition 1 5),
       Event.notice .criticalWithdrawFailed] ∧
    Event.chain (.getPosition 2) ∉
      (emergencyWithdraw {}
        { state := RState.MONITORING,
          bands := [{ index := 0, tokenId := 1, tickLower := 0, tickUpper := 10 },
                    { index := 1, tokenId := 2, tickLower := 10, tickUpper := 20 }] }
        { ewLiquidity := fun _ => .ok 5,
          ewRemoveOk := fun tid => if tid = 1 then .error () else .ok () }).2 ∧
    (emergencyWithdraw {}
        { state := RState.MONITORING,
          bands := [{ index := 0, tokenId := 1, tickLower := 0, tickUpper := 10 },
                    { index := 1, tokenId := 2, tickLower := 10, tickUpper := 20 }] }
        { ewLiquidity := fun _ => .ok 5,
          ewRemoveOk := fun tid => if tid = 1 then .error () else .ok () }).1.state =
      RState.STOPPED := by
  decide

/-- Witness for the amended C6 at the same concrete failing scenario. -/
theorem emergencyWithdraw_amended_witness :
    (({ state := RState.MONITORING,
        bands := [{ index := 0, tokenId := 1, tickLower := 0, tickUpper := 10 },
                  { index := 1, tokenId := 2, tickLower := 10, tickUpper := 20 }] } :
        EngineState).bands =
      [] ++ { index := 0, tokenId := 1, tickLower := 0, tickUpper := 10 } ::
        [{ index := 1, tokenId := 2, tickLower := 10, tickUpper := 20 }]) ∧
    ∀ tid, Event.chain (.getPosition tid) ∈
        (emergencyWithdraw {}
          { state := RState.MONITORING,
            bands := [{ index := 0, tokenId := 1, tickLower := 0, tickUpper := 10 },
                      { index := 1, tokenId := 2, tickLower := 10, tickUpper := 20 }] }
          { ewLiquidity := fun _ => .ok 5,
            ewRemoveOk := fun tid => if tid = 1 then .error () else .ok () }).2 →
      tid ∈ ([] : List Band).map Band.tokenId ∨ tid = 1 :=
  ⟨rfl,
   (emergencyWithdraw_amended.2.2 {}
      { state := RState.MONITORING,
        bands := [{ index := 0, tokenId := 1, tickLower := 0, tickUpper := 10 },
                  { index := 1, tokenId := 2, tickLower := 10, tickUpper := 20 }] }
      { ewLiquidity := fun _ => .ok 5,
        ewRemoveOk := fun tid => if tid = 1 then .error () else .ok () }
      [] { index := 0, tokenId := 1, tickLower := 0, tickUpper := 10 }
      [{ index := 1, tokenId := 2, tickLower := 10, tickUpper := 20 }]
      rfl (by simp) (Or.inr ⟨5, rfl, by decide, by decide⟩)).2.2.2⟩

/-- The spec's boundary behaviour for a caught exception: counter
incremented; below 3 back to `MONITORING`; at 3 `ERROR`, emergency stop,
notification. -/
def errorHandled (s : EngineState) (r : EngineState × List Event) : Prop :=
  r.1.consecutiveErrors = s.consecutiveErrors + 1 ∧
  (s.consecutiveErrors + 1 < 3 → r.1.state = .MONITORING) ∧
  (s.consecutiveErrors + 1 ≥ 3 → r.1.state = .ERROR ∧ r.1.esStopped = true ∧
    Event.notice (.stoppedAfterErrors (s.consecutiveErrors + 1)) ∈ r.2)

/-- Packaging of the failure-lemma conclusions into `errorHandled`. -/
theorem errorHandled_of_parts (s : EngineState) (r : EngineState × List Event)
    (hc : r.1.consecutiveErrors = s.consecutiveErrors + 1)
    (hst : r.1.state = if s.consecutiveErrors + 1 ≥ 3 then RState.ERROR else RState.MONITORING)
    (hes : r.1.esStopped = if s.consecutiveErrors + 1 ≥ 3 then true else s.esStopped)
    (hevs : ∃ p, r.2 = p ++ (if s.consecutiveErrors + 1 ≥ 3
      then [Event.notice (.stoppedAfterErrors (s.consecutiveErrors + 1))] else [])) :
    errorHandled s r := by
  refine ⟨hc, ?_, ?_⟩
  · intro h3
    rw [hst, if_neg (by omega)]
  · intro h3
    obtain ⟨p, hp⟩ := hevs
    exact ⟨by rw [hst, if_pos h3], by rw [hes, if_pos h3],
      by rw [hp, if_pos h3]; exact List.mem_append_right _ (by simp)⟩

/-- C7, amended.  Exceptions inside `mintInitialBands` and
`executeBandRebalance` are caught at the engine boundary and increment
the consecutive-error counter — below 3 the state returns to
`MONITORING`, at 3 it becomes `ERROR`, the emergency stop is triggered
and a notification is emitted; a successful mint or rebalance resets the
counter to 0 (so two failures followed by a success leave it at 0).
Exceptions inside `emergencyWithdraw`, however, are caught by its own
handler and do **not** increment the counter, and a successful
`emergencyWithdraw` does not reset it (see the counterexample). -/
theorem consecutive_errors_amended :
    (∀ (cfg : Config) (ttp : Int → ℚ) (tick : Int) (s : EngineState) (env : Env),
      calculateBands tick cfg.tickOffset cfg.feeTier = .error () →
      errorHandled s (mintInitialBands cfg ttp tick s env)) ∧
    (∀ (cfg : Config) (ttp : Int → ℚ) (tick : Int) (s : EngineState) (env : Env)
        (layout : BandLayout),
      calculateBands tick cfg.tickOffset cfg.feeTier = .ok layout →
      (mintLoop env env.totBal0 env.totBal1 layout.bands.length layout.bands 0).2 = .error () →
      errorHandled s (mintInitialBands cfg ttp tick s env)) ∧
    (∀ (cfg : Config) (ttp : Int → ℚ) (tick : Int) (s : EngineState) (env : Env)
        (layout : BandLayout) (newBands : List Band),
      calculateBands tick cfg.tickOffset cfg.feeTier = .ok layout →
      (mintLoop env env.totBal0 env.totBal1 layout.bands.length layout.bands 0).2 = .ok newBands →
      (mintInitialBands cfg ttp tick s env).1.consecutiveErrors = 0) ∧
    (∀ (cfg : Config) (ttp : Int → ℚ) (tick : Int) (direction : TriggerDirection)
        (s : EngineState) (env : Env),
      ¬(env.now - s.lastRebalanceTime < cfg.minRebalanceIntervalMinutes * 60 * 1000) →
      s.esStopped = false →
      ((BandManager.getBandToDissolve s.bands direction = none →
        errorHandled s (executeBandRebalance cfg ttp tick direction s env)) ∧
       (∀ bd, BandManager.getBandToDissolve s.bands direction = some bd →
        ((env.dissolveLiquidity = .error () →
          errorHandled s (executeBandRebalance cfg ttp tick direction s env)) ∧
         (∀ liq, env.dissolveLiquidity = .ok liq →
          ((liq ≠ 0 → env.removeRes = .error () →
            errorHandled s (executeBandRebalance cfg ttp tick direction s env)) ∧
           (∀ tx3, env.removeRes = .ok tx3 →
            ((env.ckpt1Ok = false →
              errorHandled s (executeBandRebalance cfg ttp tick direction s env)) ∧
             (env.ckpt1Ok = true →
              (((direction = .lower ∧ env.bal0 > 0) ∨ (direction = .upper ∧ env.bal1 > 0)) →
                env.swapRes = .error () →
                errorHandled s (executeBandRebalance cfg ttp tick direction s env)) ∧
              (∀ sh, env.swapRes = .ok sh →
               ((env.ckpt2Ok = false →
                 errorHandled s (executeBandRebalance cfg ttp tick direction s env)) ∧
                (env.ckpt2Ok = true →
                 (BandManager.getNewBandTicks (BandManager.removeBand s.bands bd.tokenId)
                     s.bandTickWidth direction = none →
                   errorHandled s (executeBandRebalance cfg ttp tick direction s env)) ∧
                 (∀ nt, BandManager.getNewBandTicks (BandManager.removeBand s.bands bd.tokenId)
                     s.bandTickWidth direction = some nt →
                  (env.mintRes = .error () →
                    errorHandled s (executeBandRebalance cfg ttp tick direction s env)) ∧
                  (∀ mr, env.mintRes = .ok mr →
                    (executeBandRebalance cfg ttp tick direction s env).1.consecutiveErrors =
                      0)))))))))))))) ∧
    (∀ (cfg : Config) (s : EngineState) (env : Env),
      (emergencyWithdraw cfg s env).1.consecutiveErrors = s.consecutiveErrors) := by
  refine ⟨?_, ?_, ?_, ?_, fun cfg s env => (emergencyWithdraw_preserves cfg s env).2.1⟩
  · intro cfg ttp tick s env hlay
    obtain ⟨-, hc, hst, hes, hevs⟩ := mint_fail_layout cfg ttp tick s env hlay
    exact errorHandled_of_parts s _ hc hst hes ⟨[], by rw [hevs]; simp⟩
  · intro cfg ttp tick s env layout hlay hloop
    obtain ⟨-, hc, hst, hes, hevs⟩ := mint_fail_loop cfg ttp tick s env layout hlay hloop
    exact errorHandled_of_parts s _ hc hst hes ⟨_, hevs⟩
  · intro cfg ttp tick s env layout newBands hlay hloop
    exact (mint_success cfg ttp tick s env layout newBands hlay hloop).2.2.1
  · intro cfg ttp tick direction s env hmin hstop
    constructor
    · intro hbd
      obtain ⟨-, hc, hst, hes, hevs⟩ :=
        rebalance_fail_noBand cfg ttp tick direction s env hmin hstop hbd
      exact errorHandled_of_parts s _ hc hst hes ⟨[], by rw [hevs]; simp⟩
    · intro bd hbd
      constructor
      · intro hliq
        obtain ⟨-, hc, hst, hes, hevs⟩ :=
          rebalance_fail_posRead cfg ttp tick direction s env bd hmin hstop hbd hliq
        exact errorHandled_of_parts s _ hc hst hes ⟨_, hevs⟩
      · intro liq hliq
        constructor
        · intro hl0 hrem
          obtain ⟨-, hc, hst, hes, hevs⟩ :=
            rebalance_fail_remove cfg ttp tick direction s env bd liq hmin hstop hbd hliq hl0 hrem
          exact errorHandled_of_parts s _ hc hst hes ⟨_, hevs⟩
        · intro tx3 hrem
          constructor
          · intro hck1
            obtain ⟨-, hc, hst, hes, hevs⟩ :=
              rebalance_fail_ckpt1 cfg ttp tick direction s env bd liq tx3 hmin hstop hbd hliq hrem hck1
            exact errorHandled_of_parts s _ hc hst hes ⟨_, by rw [hevs, List.append_assoc]⟩
          · intro hck1
            constructor
            · intro hneed hswap
              obtain ⟨-, hc, hst, hes, hevs⟩ :=
                rebalance_fail_swap cfg ttp tick direction s env bd liq tx3 hmin hstop hbd hliq
                  hrem hck1 hneed hswap
              exact errorHandled_of_parts s _ hc hst hes ⟨_, by rw [hevs, List.append_assoc]⟩
            · intro sh hswap
              constructor
              · intro hck2
                obtain ⟨-, hc, hst, hes, hevs⟩ :=
                  rebalance_fail_ckpt2 cfg ttp tick direction s env bd liq tx3 sh hmin hstop hbd
                    hliq hrem hck1 hswap hck2
                exact errorHandled_of_parts s _ hc hst hes ⟨_, by rw [hevs, List.append_assoc]⟩
              · intro hck2
                constructor
                · intro hticks
                  obtain ⟨-, hc, hst, hes, hevs⟩ :=
                    rebalance_fail_newTicks cfg ttp tick direction s env bd liq tx3 sh hmin hstop
                      hbd hliq hrem hck1 hswap hck2 hticks
                  exact errorHandled_of_parts s _ hc hst hes
                    ⟨_, by rw [hevs, List.append_assoc, List.append_assoc]⟩
                · intro nt hticks
                  constructor
                  · intro hmint
                    obtain ⟨-, hc, hst, hes, hevs⟩ :=
                      rebalance_fail_mint cfg ttp tick direction s env bd liq tx3 sh nt hmin hstop
                        hbd hliq hrem hck1 hswap hck2 hticks hmint
                    exact errorHandled_of_parts s _ hc hst hes
                      ⟨_, by rw [hevs, List.append_assoc, List.append_assoc, List.append_assoc]⟩
                  · intro mr hmint
                    by_cases hL1 : estimatePortfolioValue env.preBal0 env.preBal1 cfg.decimals0
                        cfg.decimals1 (ttp tick) > 0 ∧
                        estimatePortfolioValue env.newBal0 env.newBal1 cfg.decimals0 cfg.decimals1
                          (ttp tick) > 0 ∧
                        checkRebalanceLoss
                          (estimatePortfolioValue env.preBal0 env.preBal1 cfg.decimals0
                            cfg.decimals1 (ttp tick))
                          (estimatePortfolioValue env.newBal0 env.newBal1 cfg.decimals0
                            cfg.decimals1 (ttp tick)) = true
                    · exact (rebalance_success_rebalanceLoss cfg ttp tick direction s env bd liq
                        tx3 sh nt mr hmin hstop hbd hliq hrem hck1 hswap hck2 hticks hmint hL1).2.1
                    · rcases hL2 : portfolioLossFires s.initialValue
                          (estimatePortfolioValue env.newBal0 env.newBal1 cfg.decimals0
                            cfg.decimals1 (ttp tick)) cfg.maxTotalLossPercent with _ | _
                      · exact (rebalance_success_spec cfg ttp tick direction s env bd liq tx3 sh
                          nt mr hmin hstop hbd hliq hrem hck1 hswap hck2 hticks hmint hL1
                          hL2).2.2.1
                      · exact (rebalance_success_portfolioLoss cfg ttp tick direction s env bd liq
                          tx3 sh nt mr hmin hstop hbd hliq hrem hck1 hswap hck2 hticks hmint hL1
                          hL2).2.2.1

/-- Counterexample to C7 as stated: an exception inside
`emergencyWithdraw` (position read throws) leaves the counter at 0 — it
does not increment — and a successful `emergencyWithdraw` with the
counter at 2 leaves it at 2 — it does not reset. -/
theorem consecutive_errors_counterexample :
    (emergencyWithdraw {}
        { state := RState.MONITORING, consecutiveErrors := 0,
          bands := [{ index := 0, tokenId := 1, tickLower := 0, tickUpper := 10 }] }
        { ewLiquidity := fun _ => .error () }).1.consecutiveErrors = 0 ∧
    (emergencyWithdraw {}
        { state := RState.MONITORING, consecutiveErrors := 2,
          bands := [{ index := 0, tokenId := 1, tickLower := 0, tickUpper := 10 }] }
        {}).1.consecutiveErrors = 2 := by
  decide

/-- Witness for the amended C7: a mint whose layout computation throws
(center tick outside the SDK bounds) increments the counter from 0 to 1
and returns the engine to `MONITORING`. -/
theorem consecutive_errors_amended_witness :
    (calculateBands 1000000 148 100 = .error ()) ∧
    errorHandled { state := RState.MONITORING }
      (mintInitialBands {} (fun _ => 1) 1000000 { state := RState.MONITORING } {}) :=
  ⟨by decide,
   consecutive_errors_amended.1 {} (fun _ => 1) 1000000 { state := RState.MONITORING } {}
     (by decide)⟩

/-! ## Claim C2: crash recovery in `initialize` -/

/-- Extracts `RECOVERY` notifications (with their stage) from a trace. -/
def recoveryNotices (evs : List Event) : List RebalanceStage :=
  evs.filterMap (fun e => match e with
    | .notice (.recovery st) => some st
    | _ => none)

/-- `save` never changes the in-memory record. -/
theorem Store.save_mem (st : Store) (ok : Bool) : (Store.save st ok).mem = st.mem := by
  unfold Store.save
  split <;> rfl

/-- `adoptBands` is empty exactly on the empty input. -/
theorem adoptBands_eq_nil (n : Nat) (l : List ExistingPosition) :
    adoptBands n l = [] ↔ l = [] := by
  cases l <;> simp [adoptBands]

/-- C2, amended.  With a persisted `rebalanceStage`, `initialize` clears
the in-memory ledger, clears `rebalanceStage`, `pendingTxHashes`, `bands`
and `bandTickWidth` in the store, and emits exactly one `RECOVERY`
notification naming the stage — but it then falls into the
"no bands loaded" branch and still queries for existing on-chain
positions, adopting any with non-zero liquidity; the resulting ledger is
empty (and the next tick mints 7 fresh bands) only when no live position
is found.  The engine ends in `MONITORING`. -/
theorem initialize_recovery_amended (cfg : Config) (s : EngineState) (env : Env)
    (st : RebalanceStage) (hst : s.store.mem.rebalanceStage = some st) :
    (initializeEngine cfg s env).1.store.mem.rebalanceStage = none ∧
    (initializeEngine cfg s env).1.store.mem.pendingTxHashes = none ∧
    (initializeEngine cfg s env).1.store.mem.bands = none ∧
    (initializeEngine cfg s env).1.store.mem.bandTickWidth = none ∧
    recoveryNotices (initializeEngine cfg s env).2 = [st] ∧
    (initializeEngine cfg s env).1.bands =
      BandManager.setBands
        (adoptBands 0 (env.findExisting.filter (fun p => p.liquidity ≠ 0))) ∧
    (initializeEngine cfg s env).1.state = .MONITORING := by
  by_cases hex : env.findExisting.length > 0
  · by_cases hact : (adoptBands 0 (env.findExisting.filter (fun p => p.liquidity ≠ 0))).length > 0
    · simp only [ne_eq, decide_not] at hact
      simp [initializeEngine, hst, hex, hact, recoveryNotices, List.filterMap_append,
        Store.save_mem, List.filterMap_map]
    · have hnil : adoptBands 0 (env.findExisting.filter (fun p => p.liquidity ≠ 0)) = [] := by
        rcases hres : adoptBands 0 (env.findExisting.filter (fun p => p.liquidity ≠ 0)) with _ | ⟨a, l⟩
        · rfl
        · rw [hres] at hact
          simp at hact
      simp only [ne_eq, decide_not] at hact hnil
      simp [initializeEngine, hst, hex, hact, hnil, recoveryNotices, List.filterMap_append,
        Store.save_mem, List.filterMap_map, BandManager.setBands]
  · have hnil0 : env.findExisting = [] := by
      rw [← List.length_eq_zero]
      omega
    simp [initializeEngine, hst, hex, hnil0, recoveryNotices, List.filterMap_append,
      Store.save_mem, List.filterMap_map, BandManager.setBands, adoptBands]

/-- C2 counterexample: with `rebalanceStage = WITHDRAWN` persisted and one
live on-chain position found, the recovery boot does NOT proceed with an
empty ledger: having cleared the ledger it falls through to the
position-adoption branch and adopts the found position. -/
theorem initialize_recovery_counterexample :
    recoveryNotices
      (initializeEngine {}
        { store := { mem := { rebalanceStage := some RebalanceStage.WITHDRAWN } } }
        { findExisting := [⟨77, 9, 0, 42⟩] }).2 = [RebalanceStage.WITHDRAWN] ∧
    (initializeEngine {}
        { store := { mem := { rebalanceStage := some RebalanceStage.WITHDRAWN } } }
        { findExisting := [⟨77, 9, 0, 42⟩] }).1.bands =
      [{ index := 0, tokenId := 77, tickLower := 0, tickUpper := 42 }] := by
  decide

theorem initialize_recovery_amended_witness :
    ({ store := { mem := { rebalanceStage := some RebalanceStage.SWAPPED } } }
        : EngineState).store.mem.rebalanceStage = some RebalanceStage.SWAPPED ∧
    recoveryNotices
      (initializeEngine {}
        { store := { mem := { rebalanceStage := some RebalanceStage.SWAPPED } } } {}).2 =
      [RebalanceStage.SWAPPED] ∧
    (initializeEngine {}
      { store := { mem := { rebalanceStage := some RebalanceStage.SWAPPED } } } {}).1.state =
      RState.MONITORING :=
  ⟨rfl,
   (initialize_recovery_amended {}
      { store := { mem := { rebalanceStage := some RebalanceStage.SWAPPED } } } {}
      RebalanceStage.SWAPPED rfl).2.2.2.2.1,
   (initialize_recovery_amended {}
      { store := { mem := { rebalanceStage := some RebalanceStage.SWAPPED } } } {}
      RebalanceStage.SWAPPED rfl).2.2.2.2.2.2⟩

/-- Re-indexing does not change the first element's ticks. -/
theorem reindexFrom_head_ticks (n : Nat) (l : List Band) :
    ((BandManager.reindexFrom n l).head?).map (fun b => (b.tickLower, b.tickUpper))
      = l.head?.map (fun b => (b.tickLower, b.tickUpper)) := by
  cases l <;> rfl

/-- Re-indexing does not change the last element's ticks. -/
theorem reindexFrom_getLast_ticks (l : List Band) :
    ∀ n, ((BandManager.reindexFrom n l).getLast?).map (fun b => (b.tickLower, b.tickUpper))
      = l.getLast?.map (fun b => (b.tickLower, b.tickUpper)) := by
  induction l with
  | nil => intro n; rfl
  | cons b bs ih =>
    intro n
    cases bs with
    | nil => rfl
    | cons b2 bs2 =>
      have h := ih (n + 1)
      simp only [BandManager.reindexFrom] at h ⊢
      rw [List.getLast?_cons_cons, List.getLast?_cons_cons]
      exact h

/-- C3.  For a gate-passing, error-free, loss-free band rebalance over a
ledger of at least two bands with distinct token ids: a LOWER trigger
dissolves the highest (last) band (reads its position and, when live,
removes it), swaps the entire token0 wallet balance to token1 through the
configured fee tier (skipping the swap when that balance is zero), and
mints the new band at `(lowest.tickLower - bandTickWidth, lowest.tickLower)`,
inserting it at the start of the ledger; an UPPER trigger mirrors this:
it dissolves the lowest band, swaps all token1 to token0, and mints at
`(highest.tickUpper, highest.tickUpper + bandTickWidth)`, appending at the
end. -/
theorem band_rebalance_action
    (cfg : Config) (ttp : Int → ℚ) (tick : Int) (s : EngineState) (env : Env)
    (b0 b1 blast : Band) (rest : List Band) (liq : Nat)
    (tx3 : String × String × String) (sh : String) (mr : Nat × String)
    (hbands : s.bands = b0 :: b1 :: rest)
    (hblast : s.bands.getLast? = some blast)
    (hnodup : nodupTokenIds s.bands)
    (hmin : ¬(env.now - s.lastRebalanceTime < cfg.minRebalanceIntervalMinutes * 60 * 1000))
    (hstop : s.esStopped = false)
    (hliq : env.dissolveLiquidity = .ok liq)
    (hrem : env.removeRes = .ok tx3)
    (hck1 : env.ckpt1Ok = true)
    (hswap : env.swapRes = .ok sh)
    (hck2 : env.ckpt2Ok = true)
    (hmint : env.mintRes = .ok mr)
    (hL1 : ¬(estimatePortfolioValue env.preBal0 env.preBal1 cfg.decimals0 cfg.decimals1 (ttp tick) > 0 ∧
             estimatePortfolioValue env.newBal0 env.newBal1 cfg.decimals0 cfg.decimals1 (ttp tick) > 0 ∧
             checkRebalanceLoss
               (estimatePortfolioValue env.preBal0 env.preBal1 cfg.decimals0 cfg.decimals1 (ttp tick))
               (estimatePortfolioValue env.newBal0 env.newBal1 cfg.decimals0 cfg.decimals1 (ttp tick)) = true))
    (hL2 : portfolioLossFires s.initialValue
        (estimatePortfolioValue env.newBal0 env.newBal1 cfg.decimals0 cfg.decimals1 (ttp tick))
        cfg.maxTotalLossPercent = false) :
    ((executeBandRebalance cfg ttp tick .lower s env).2 =
        [Event.chain (.getPosition blast.tokenId)]
        ++ (if liq ≠ 0 then [Event.chain (.removePosition blast.tokenId liq)] else [])
        ++ [Event.persist (some .WITHDRAWN)
             ((BandManager.removeBand s.bands blast.tokenId).map toBandState) true]
        ++ (if env.bal0 > 0 then [Event.chain (.swap .t0 .t1 cfg.feeTier env.bal0)] else [])
        ++ [Event.persist (some .SWAPPED)
             ((BandManager.removeBand s.bands blast.tokenId).map toBandState) true]
        ++ [Event.chain (.mint (b0.tickLower - s.bandTickWidth) b0.tickLower
             env.newBal0 env.newBal1)]
        ++ [Event.persist none
             ((BandManager.addBand (BandManager.removeBand s.bands blast.tokenId) mr.1
               (b0.tickLower - s.bandTickWidth) b0.tickLower .atStart).map toBandState) false]
        ++ [Event.history (.REBALANCE .lower), Event.notice (.rebalanceDone .lower)] ∧
      (executeBandRebalance cfg ttp tick .lower s env).1.bands =
        BandManager.addBand (BandManager.removeBand s.bands blast.tokenId) mr.1
          (b0.tickLower - s.bandTickWidth) b0.tickLower .atStart ∧
      ((executeBandRebalance cfg ttp tick .lower s env).1.bands).head? =
        some { index := 0, tokenId := mr.1,
               tickLower := b0.tickLower - s.bandTickWidth, tickUpper := b0.tickLower }) ∧
    ((executeBandRebalance cfg ttp tick .upper s env).2 =
        [Event.chain (.getPosition b0.tokenId)]
        ++ (if liq ≠ 0 then [Event.chain (.removePosition b0.tokenId liq)] else [])
        ++ [Event.persist (some .WITHDRAWN)
             ((BandManager.removeBand s.bands b0.tokenId).map toBandState) true]
        ++ (if env.bal1 > 0 then [Event.chain (.swap .t1 .t0 cfg.feeTier env.bal1)] else [])
        ++ [Event.persist (some .SWAPPED)
             ((BandManager.removeBand s.bands b0.tokenId).map toBandState) true]
        ++ [Event.chain (.mint blast.tickUpper (blast.tickUpper + s.bandTickWidth)
             env.newBal0 env.newBal1)]
        ++ [Event.persist none
             ((BandManager.addBand (BandManager.removeBand s.bands b0.tokenId) mr.1
               blast.tickUpper (blast.tickUpper + s.bandTickWidth) .atEnd).map toBandState) false]
        ++ [Event.history (.REBALANCE .upper), Event.notice (.rebalanceDone .upper)] ∧
      (executeBandRebalance cfg ttp tick .upper s env).1.bands =
        BandManager.addBand (BandManager.removeBand s.bands b0.tokenId) mr.1
          blast.tickUpper (blast.tickUpper + s.bandTickWidth) .atEnd ∧
      ((executeBandRebalance cfg ttp tick .upper s env).1.bands).getLast?.map
          (fun b => (b.tickLower, b.tickUpper)) =
        some (blast.tickUpper, blast.tickUpper + s.bandTickWidth)) := by
  have hmemLast : blast ∈ b1 :: rest := by
    have h := hblast
    rw [hbands, List.getLast?_cons_cons] at h
    exact List.mem_of_mem_getLast? h
  have hnd : (s.bands.map Band.tokenId).Nodup := hnodup
  rw [hbands] at hnd
  have hb0nin : b0.tokenId ∉ (b1 :: rest).map Band.tokenId := by
    simp only [List.map_cons, List.nodup_cons] at hnd
    intro hmem
    exact hnd.1 (by simpa using hmem)
  have hneq : blast.tokenId ≠ b0.tokenId := by
    intro he
    exact hb0nin (he ▸ List.mem_map_of_mem Band.tokenId hmemLast)
  constructor
  · -- lower trigger
    have hbd : BandManager.getBandToDissolve s.bands .lower = some blast := by
      simpa [BandManager.getBandToDissolve] using hblast
    have hticksL : BandManager.getNewBandTicks (BandManager.removeBand s.bands blast.tokenId)
        s.bandTickWidth .lower = some (b0.tickLower - s.bandTickWidth, b0.tickLower) := by
      rw [hbands]
      unfold BandManager.removeBand
      rw [List.filter_cons_of_pos (by simpa using hneq.symm)]
      simp [BandManager.getNewBandTicks, BandManager.reindexFrom]
    have spec := rebalance_success_spec cfg ttp tick .lower s env blast liq tx3 sh
      (b0.tickLower - s.bandTickWidth, b0.tickLower) mr
      hmin hstop hbd hliq hrem hck1 hswap hck2 hticksL hmint hL1 hL2
    refine ⟨?_, spec.2.1, ?_⟩
    · rw [spec.1]
      simp [withdrawEventsFor, swapEventsFor]
    · rw [spec.2.1]
      simp [BandManager.addBand, BandManager.reindexFrom]
  · -- upper trigger
    have hbd : BandManager.getBandToDissolve s.bands .upper = some b0 := by
      rw [hbands]; rfl
    have hfilter : (b1 :: rest).filter (fun b => b.tokenId ≠ b0.tokenId) = b1 :: rest := by
      refine List.filter_eq_self.mpr ?_
      intro a ha
      simp only [ne_eq, decide_eq_true_eq, decide_not, Bool.not_eq_true', decide_eq_false_iff_not]
      intro he
      exact hb0nin (he ▸ List.mem_map_of_mem Band.tokenId ha)
    have hrm : BandManager.removeBand s.bands b0.tokenId
        = BandManager.reindexFrom 0 (b1 :: rest) := by
      rw [hbands]
      unfold BandManager.removeBand
      rw [List.filter_cons_of_neg (by simp), hfilter]
    have hlast2 : (b1 :: rest).getLast? = some blast := by
      have h := hblast
      rwa [hbands, List.getLast?_cons_cons] at h
    have hticksU : BandManager.getNewBandTicks (BandManager.removeBand s.bands b0.tokenId)
        s.bandTickWidth .upper = some (blast.tickUpper, blast.tickUpper + s.bandTickWidth) := by
      rw [hrm]
      have h := reindexFrom_getLast_ticks (b1 :: rest) 0
      rw [hlast2] at h
      rcases Option.map_eq_some'.mp h with ⟨bx, hbx, htk⟩
      unfold BandManager.getNewBandTicks
      rw [hbx]
      have h1 : bx.tickUpper = blast.tickUpper := congrArg Prod.snd htk
      simp [h1]
    have spec := rebalance_success_spec cfg ttp tick .upper s env b0 liq tx3 sh
      (blast.tickUpper, blast.tickUpper + s.bandTickWidth) mr
      hmin hstop hbd hliq hrem hck1 hswap hck2 hticksU hmint hL1 hL2
    refine ⟨?_, spec.2.1, ?_⟩
    · rw [spec.1]
      simp [withdrawEventsFor, swapEventsFor]
    · rw [spec.2.1]
      unfold BandManager.addBand
      rw [reindexFrom_getLast_ticks, List.getLast?_concat]
      rfl

theorem band_rebalance_action_witness :
    ((executeBandRebalance {} (fun _ => 1) 0 .lower
        { bands := [{ index := 0, tokenId := 1, tickLower := 0, tickUpper := 10 },
                    { index := 1, tokenId := 2, tickLower := 10, tickUpper := 20 }],
          bandTickWidth := 10 } {}).1.bands).head? =
      some { index := 0, tokenId := 1, tickLower := -10, tickUpper := 0 } ∧
    ((executeBandRebalance {} (fun _ => 1) 0 .upper
        { bands := [{ index := 0, tokenId := 1, tickLower := 0, tickUpper := 10 },
                    { index := 1, tokenId := 2, tickLower := 10, tickUpper := 20 }],
          bandTickWidth := 10 } {}).1.bands).getLast?.map
        (fun b => (b.tickLower, b.tickUpper)) = some (20, 30) := by
  have h := band_rebalance_action {} (fun _ => 1) 0
    { bands := [{ index := 0, tokenId := 1, tickLower := 0, tickUpper := 10 },
                { index := 1, tokenId := 2, tickLower := 10, tickUpper := 20 }],
      bandTickWidth := 10 } {}
    { index := 0, tokenId := 1, tickLower := 0, tickUpper := 10 }
    { index := 1, tokenId := 2, tickLower := 10, tickUpper := 20 }
    { index := 1, tokenId := 2, tickLower := 10, tickUpper := 20 }
    [] 0 ("", "", "") "" (1, "")
    rfl rfl (by decide) (by decide) rfl rfl rfl rfl rfl rfl rfl
    (by
      intro hc
      have h0 : estimatePortfolioValue 0 0 6 18 1 = 0 := by
        norm_num [estimatePortfolioValue]
      rw [h0] at hc
      exact absurd hc.1 (by norm_num))
    rfl
  exact ⟨h.1.2.2, h.2.2.2⟩

/-- The removal loop ignores the swap-call outcome. -/
theorem ewLoop_env_swap (env : Env) (sh : String) :
    ewLoop { env with swapRes := .ok sh } = ewLoop env := by
  funext bs
  induction bs with
  | nil => rfl
  | cons b tl ih => simp [ewLoop, ih]

/-- `emergencyWithdraw` ignores the swap-call outcome. -/
theorem emergencyWithdraw_env_swap (cfg : Config) (s : EngineState) (env : Env) (sh : String) :
    emergencyWithdraw cfg s { env with swapRes := .ok sh } = emergencyWithdraw cfg s env := by
  simp [emergencyWithdraw, ewLoop_env_swap, persistState]

/-- The gas gate ignores the swap-call outcome. -/
theorem checkGasCost_env_swap (cfg : Config) (env : Env) (sh : String) (oor : Bool) :
    checkGasCost cfg { env with swapRes := .ok sh } oor = checkGasCost cfg env oor := rfl

/-- When no swap leg is needed (the relevant wallet balance is zero), the
swap-call outcome is never consulted. -/
theorem rebalance_swapRes_irrel (cfg : Config) (ttp : Int → ℚ) (tick : Int)
    (direction : TriggerDirection) (s : EngineState) (env : Env)
    (hno : ¬((direction = .lower ∧ env.bal0 > 0) ∨ (direction = .upper ∧ env.bal1 > 0))) :
    executeBandRebalance cfg ttp tick direction s env
      = executeBandRebalance cfg ttp tick direction s { env with swapRes := .ok "" } := by
  cases direction with
  | lower =>
    have hb : ¬ env.bal0 > 0 := fun h => hno (.inl ⟨rfl, h⟩)
    simp [executeBandRebalance, hb, ewLoop_env_swap, emergencyWithdraw_env_swap,
      checkGasCost_env_swap]
  | upper =>
    have hb : ¬ env.bal1 > 0 := fun h => hno (.inr ⟨rfl, h⟩)
    simp [executeBandRebalance, hb, ewLoop_env_swap, emergencyWithdraw_env_swap,
      checkGasCost_env_swap]

/-- Membership in a conditional list. -/
theorem mem_ite {α : Type} (c : Prop) [Decidable c] (e : α) (l1 l2 : List α) :
    (e ∈ if c then l1 else l2) ↔ (c ∧ e ∈ l1) ∨ (¬c ∧ e ∈ l2) := by
  split <;> simp_all

/-- The removal loop ignores the dissolve and position-removal outcomes of
the rebalance path. -/
theorem ewLoop_env_remove (env : Env) (t : String × String × String) (d : Except Unit Nat) :
    ewLoop { env with dissolveLiquidity := d, removeRes := .ok t } = ewLoop env := by
  funext bs
  induction bs with
  | nil => rfl
  | cons b tl ih => simp [ewLoop, ih]

/-- `emergencyWithdraw` ignores the dissolve and position-removal outcomes
of the rebalance path. -/
theorem emergencyWithdraw_env_remove (cfg : Config) (s : EngineState) (env : Env)
    (t : String × String × String) (d : Except Unit Nat) :
    emergencyWithdraw cfg s { env with dissolveLiquidity := d, removeRes := .ok t }
      = emergencyWithdraw cfg s env := by
  simp [emergencyWithdraw, ewLoop_env_remove, persistState]

/-- The gas gate ignores the dissolve and position-removal outcomes. -/
theorem checkGasCost_env_remove (cfg : Config) (env : Env) (t : String × String × String)
    (d : Except Unit Nat) (oor : Bool) :
    checkGasCost cfg { env with dissolveLiquidity := d, removeRes := .ok t } oor
      = checkGasCost cfg env oor := rfl

/-- With zero dissolved liquidity the position-removal call is never
issued, so its outcome is never consulted. -/
theorem rebalance_removeRes_irrel (cfg : Config) (ttp : Int → ℚ) (tick : Int)
    (direction : TriggerDirection) (s : EngineState) (env : Env)
    (hliq : env.dissolveLiquidity = .ok 0) :
    executeBandRebalance cfg ttp tick direction s env
      = executeBandRebalance cfg ttp tick direction s
          { env with dissolveLiquidity := .ok 0, removeRes := .ok ("", "", "") } := by
  simp [executeBandRebalance, hliq, ewLoop_env_remove, emergencyWithdraw_env_remove,
    checkGasCost_env_remove]

/-- The persistence discipline of one band rebalance: checkpoints are
fail-fast writes carrying the post-removal ledger, the terminal persist is
lossy, and a failed checkpoint aborts before the next chain call. -/
def persistDiscipline (dissolveTarget : Option Band) (bands0 : List Band)
    (ck1 ck2 : Bool) (tr : List Event) : Prop :=
  (∀ st bs ff, Event.persist (some st) bs ff ∈ tr → ff = true ∧
     ∃ bd, dissolveTarget = some bd ∧
       bs = (BandManager.removeBand bands0 bd.tokenId).map toBandState) ∧
  (∀ bs ff, Event.persist none bs ff ∈ tr → ff = false) ∧
  (ck1 = false → (∀ a b f n, Event.chain (.swap a b f n) ∉ tr) ∧
     (∀ lo hi a0 a1, Event.chain (.mint lo hi a0 a1) ∉ tr)) ∧
  (ck2 = false → ∀ lo hi a0 a1, Event.chain (.mint lo hi a0 a1) ∉ tr)

/-- The only persist event in the withdraw leg is the `WITHDRAWN`
checkpoint, fail-fast, carrying the post-removal ledger. -/
theorem withdrawEventsFor_persist (s : EngineState) (bd : Band) (liq : Nat)
    (stg : Option RebalanceStage) (bs : List BandState) (ff : Bool)
    (h : Event.persist stg bs ff ∈ withdrawEventsFor s bd liq) :
    stg = some .WITHDRAWN ∧
      bs = (BandManager.removeBand s.bands bd.tokenId).map toBandState ∧ ff = true := by
  simp [withdrawEventsFor, mem_ite] at h
  exact ⟨h.1, h.2.1, h.2.2⟩

/-- The withdraw leg issues no swap and no mint. -/
theorem withdrawEventsFor_no_swap_mint (s : EngineState) (bd : Band) (liq : Nat) :
    (∀ a b f n, Event.chain (.swap a b f n) ∉ withdrawEventsFor s bd liq) ∧
    (∀ lo hi a0 a1, Event.chain (.mint lo hi a0 a1) ∉ withdrawEventsFor s bd liq) := by
  constructor <;> intro a b c d <;> simp [withdrawEventsFor, mem_ite]

/-- The swap leg persists nothing. -/
theorem swapEventsFor_no_persist (cfg : Config) (env : Env) (d : TriggerDirection)
    (stg : Option RebalanceStage) (bs : List BandState) (ff : Bool) :
    Event.persist stg bs ff ∉ swapEventsFor cfg env d := by
  simp [swapEventsFor, mem_ite]

/-- The swap leg mints nothing. -/
theorem swapEventsFor_no_mint (cfg : Config) (env : Env) (d : TriggerDirection)
    (lo hi : Int) (a0 a1 : Nat) :
    Event.chain (.mint lo hi a0 a1) ∉ swapEventsFor cfg env d := by
  simp [swapEventsFor, mem_ite]

/-- The removal loop only reads and removes positions. -/
theorem ewLoop_events_shape (env : Env) (bs : List Band) :
    ∀ e ∈ (ewLoop env bs).1, (∃ tid, e = Event.chain (.getPosition tid)) ∨
      ∃ tid liq, e = Event.chain (.removePosition tid liq) := by
  induction bs with
  | nil => intro e he; simp [ewLoop] at he
  | cons b tl ih =>
    intro e he
    unfold ewLoop at he
    rcases hL : env.ewLiquidity b.tokenId with _ | liq <;> rw [hL] at he
    · simp at he
      exact .inl ⟨_, he⟩
    · by_cases hl0 : liq ≠ 0 <;> simp [hl0] at he
      · rcases hR : env.ewRemoveOk b.tokenId with _ | u <;> rw [hR] at he <;> simp at he
        · rcases he with he | he
          · exact .inl ⟨_, he⟩
          · exact .inr ⟨_, _, he⟩
        · rcases he with he | he | he
          · exact .inl ⟨_, he⟩
          · exact .inr ⟨_, _, he⟩
          · exact ih e he
      · rcases he with he | he
        · exact .inl ⟨_, he⟩
        · exact ih e he

/-- `emergencyWithdraw` issues no swap and no mint chain call. -/
theorem emergencyWithdraw_chain_calls (cfg : Config) (s : EngineState) (env : Env) :
    ∀ c, Event.chain c ∈ (emergencyWithdraw cfg s env).2 →
      (∃ tid, c = ChainCall.getPosition tid) ∨
        ∃ tid liq, c = ChainCall.removePosition tid liq := by
  intro c h
  unfold emergencyWithdraw at h
  split at h
  · simp at h
  · dsimp only at h
    split at h <;> simp [persistState] at h <;>
      rcases ewLoop_events_shape env _ _ h with ⟨tid, ht⟩ | ⟨tid, liq, ht⟩
    · exact .inl ⟨tid, by simpa using ht⟩
    · exact .inr ⟨tid, liq, by simpa using ht⟩
    · exact .inl ⟨tid, by simpa using ht⟩
    · exact .inr ⟨tid, liq, by simpa using ht⟩

/-- Persistence discipline of the rebalance continuation after a
successful `WITHDRAWN` checkpoint and swap call. -/
theorem persistDiscipline_cont2
    (cfg : Config) (ttp : Int → ℚ) (tick : Int) (direction : TriggerDirection)
    (s : EngineState) (env : Env) (bd : Band) (liq : Nat)
    (tx3 : String × String × String) (sh : String)
    (hmin : ¬(env.now - s.lastRebalanceTime < cfg.minRebalanceIntervalMinutes * 60 * 1000))
    (hstop : s.esStopped = false)
    (hbd : BandManager.getBandToDissolve s.bands direction = some bd)
    (hliq : env.dissolveLiquidity = .ok liq)
    (hrem : env.removeRes = .ok tx3)
    (hck1 : env.ckpt1Ok = true)
    (hswap : env.swapRes = .ok sh) :
    persistDiscipline (BandManager.getBandToDissolve s.bands direction) s.bands
      env.ckpt1Ok env.ckpt2Ok (executeBandRebalance cfg ttp tick direction s env).2 := by
  cases hck2 : env.ckpt2Ok with
  | false =>
    obtain ⟨-, -, -, -, htr⟩ := rebalance_fail_ckpt2 cfg ttp tick direction s env bd liq tx3 sh
      hmin hstop hbd hliq hrem hck1 hswap hck2
    refine ⟨?_, ?_, ?_, ?_⟩
    · intro st bs ff h
      rw [htr] at h
      rcases List.mem_append.mp h with h | h
      · rcases List.mem_append.mp h with h | h
        · obtain ⟨-, hbs, hff⟩ := withdrawEventsFor_persist s bd liq _ _ _ h
          exact ⟨hff, bd, hbd, hbs⟩
        · exact absurd h (swapEventsFor_no_persist cfg env direction _ _ _)
      · simp [mem_ite] at h
    · intro bs ff h
      rw [htr] at h
      rcases List.mem_append.mp h with h | h
      · rcases List.mem_append.mp h with h | h
        · obtain ⟨hst, -, -⟩ := withdrawEventsFor_persist s bd liq _ _ _ h
          simp at hst
        · exact absurd h (swapEventsFor_no_persist cfg env direction _ _ _)
      · simp [mem_ite] at h
    · intro hcf
      simp [hck1] at hcf
    · intro hcf lo hi a0 a1 h
      rw [htr] at h
      rcases List.mem_append.mp h with h | h
      · rcases List.mem_append.mp h with h | h
        · exact (withdrawEventsFor_no_swap_mint s bd liq).2 lo hi a0 a1 h
        · exact swapEventsFor_no_mint cfg env direction lo hi a0 a1 h
      · simp [mem_ite] at h
  | true =>
    rcases hticks : BandManager.getNewBandTicks (BandManager.removeBand s.bands bd.tokenId)
        s.bandTickWidth direction with _ | nt
    · obtain ⟨-, -, -, -, htr⟩ := rebalance_fail_newTicks cfg ttp tick direction s env bd liq
        tx3 sh hmin hstop hbd hliq hrem hck1 hswap hck2 hticks
      refine ⟨?_, ?_, ?_, ?_⟩
      · intro st bs ff h
        rw [htr] at h
        rcases List.mem_append.mp h with h | h
        · rcases List.mem_append.mp h with h | h
          · rcases List.mem_append.mp h with h | h
            · obtain ⟨-, hbs, hff⟩ := withdrawEventsFor_persist s bd liq _ _ _ h
              exact ⟨hff, bd, hbd, hbs⟩
            · exact absurd h (swapEventsFor_no_persist cfg env direction _ _ _)
          · simp at h
            exact ⟨h.2.2, bd, hbd, h.2.1⟩
        · simp [mem_ite] at h
      · intro bs ff h
        rw [htr] at h
        rcases List.mem_append.mp h with h | h
        · rcases List.mem_append.mp h with h | h
          · rcases List.mem_append.mp h with h | h
            · obtain ⟨hst, -, -⟩ := withdrawEventsFor_persist s bd liq _ _ _ h
              simp at hst
            · exact absurd h (swapEventsFor_no_persist cfg env direction _ _ _)
          · simp at h
        · simp [mem_ite] at h
      · intro hcf
        simp [hck1] at hcf
      · intro hcf
        simp [hck2] at hcf
    · rcases hmint : env.mintRes with _ | mr
      · obtain ⟨-, -, -, -, htr⟩ := rebalance_fail_mint cfg ttp tick direction s env bd liq
          tx3 sh nt hmin hstop hbd hliq hrem hck1 hswap hck2 hticks hmint
        refine ⟨?_, ?_, ?_, ?_⟩
        · intro st bs ff h
          rw [htr] at h
          rcases List.mem_append.mp h with h | h
          · rcases List.mem_append.mp h with h | h
            · rcases List.mem_append.mp h with h | h
              · rcases List.mem_append.mp h with h | h
                · obtain ⟨-, hbs, hff⟩ := withdrawEventsFor_persist s bd liq _ _ _ h
                  exact ⟨hff, bd, hbd, hbs⟩
                · exact absurd h (swapEventsFor_no_persist cfg env direction _ _ _)
              · simp at h
                exact ⟨h.2.2, bd, hbd, h.2.1⟩
            · simp at h
          · simp [mem_ite] at h
        · intro bs ff h
          rw [htr] at h
          rcases List.mem_append.mp h with h | h
          · rcases List.mem_append.mp h with h | h
            · rcases List.mem_append.mp h with h | h
              · rcases List.mem_append.mp h with h | h
                · obtain ⟨hst, -, -⟩ := withdrawEventsFor_persist s bd liq _ _ _ h
                  simp at hst
                · exact absurd h (swapEventsFor_no_persist cfg env direction _ _ _)
              · simp at h
            · simp at h
          · simp [mem_ite] at h
        · intro hcf
          simp [hck1] at hcf
        · intro hcf
          simp [hck2] at hcf
      · by_cases hL1 : (estimatePortfolioValue env.preBal0 env.preBal1 cfg.decimals0 cfg.decimals1 (ttp tick) > 0 ∧
            estimatePortfolioValue env.newBal0 env.newBal1 cfg.decimals0 cfg.decimals1 (ttp tick) > 0 ∧
            checkRebalanceLoss
              (estimatePortfolioValue env.preBal0 env.preBal1 cfg.decimals0 cfg.decimals1 (ttp tick))
              (estimatePortfolioValue env.newBal0 env.newBal1 cfg.decimals0 cfg.decimals1 (ttp tick)) = true)
        · obtain ⟨-, -, -, -, htr⟩ := rebalance_success_rebalanceLoss cfg ttp tick direction s env
            bd liq tx3 sh nt mr hmin hstop hbd hliq hrem hck1 hswap hck2 hticks hmint hL1
          refine ⟨?_, ?_, ?_, ?_⟩
          · intro st bs ff h
            rw [htr] at h
            rcases List.mem_append.mp h with h | h
            · rcases List.mem_append.mp h with h | h
              · rcases List.mem_append.mp h with h | h
                · rcases List.mem_append.mp h with h | h
                  · obtain ⟨-, hbs, hff⟩ := withdrawEventsFor_persist s bd liq _ _ _ h
                    exact ⟨hff, bd, hbd, hbs⟩
                  · exact absurd h (swapEventsFor_no_persist cfg env direction _ _ _)
                · simp at h
                  exact ⟨h.2.2, bd, hbd, h.2.1⟩
              · simp at h
            · simp at h
          · intro bs ff h
            rw [htr] at h
            rcases List.mem_append.mp h with h | h
            · rcases List.mem_append.mp h with h | h
              · rcases List.mem_append.mp h with h | h
                · rcases List.mem_append.mp h with h | h
                  · obtain ⟨hst, -, -⟩ := withdrawEventsFor_persist s bd liq _ _ _ h
                    simp at hst
                  · exact absurd h (swapEventsFor_no_persist cfg env direction _ _ _)
                · simp at h
              · simp at h
            · simp at h
          · intro hcf
            simp [hck1] at hcf
          · intro hcf
            simp [hck2] at hcf
        · by_cases hL2 : portfolioLossFires s.initialValue
              (estimatePortfolioValue env.newBal0 env.newBal1 cfg.decimals0 cfg.decimals1 (ttp tick))
              cfg.maxTotalLossPercent = true
          · obtain ⟨-, -, -, h4, h5⟩ := rebalance_success_portfolioLoss cfg ttp tick direction s env
              bd liq tx3 sh nt mr hmin hstop hbd hliq hrem hck1 hswap hck2 hticks hmint hL1 hL2
            refine ⟨?_, ?_, ?_, ?_⟩
            · intro st bs ff h
              obtain ⟨hff, hbs⟩ := h4 st bs ff h
              exact ⟨hff, bd, hbd, hbs⟩
            · exact h5
            · intro hcf
              simp [hck1] at hcf
            · intro hcf
              simp [hck2] at hcf
          · have hL2f : portfolioLossFires s.initialValue
                (estimatePortfolioValue env.newBal0 env.newBal1 cfg.decimals0 cfg.decimals1 (ttp tick))
                cfg.maxTotalLossPercent = false := by
              simpa using hL2
            obtain ⟨htr, -⟩ := rebalance_success_spec cfg ttp tick direction s env bd liq tx3 sh
              nt mr hmin hstop hbd hliq hrem hck1 hswap hck2 hticks hmint hL1 hL2f
            refine ⟨?_, ?_, ?_, ?_⟩
            · intro st bs ff h
              rw [htr] at h
              rcases List.mem_append.mp h with h | h
              · rcases List.mem_append.mp h with h | h
                · rcases List.mem_append.mp h with h | h
                  · rcases List.mem_append.mp h with h | h
                    · rcases List.mem_append.mp h with h | h
                      · obtain ⟨-, hbs, hff⟩ := withdrawEventsFor_persist s bd liq _ _ _ h
                        exact ⟨hff, bd, hbd, hbs⟩
                      · exact absurd h (swapEventsFor_no_persist cfg env direction _ _ _)
                    · simp at h
                      exact ⟨h.2.2, bd, hbd, h.2.1⟩
                  · simp at h
                · simp at h
              · simp at h
            · intro bs ff h
              rw [htr] at h
              rcases List.mem_append.mp h with h | h
              · rcases List.mem_append.mp h with h | h
                · rcases List.mem_append.mp h with h | h
                  · rcases List.mem_append.mp h with h | h
                    · rcases List.mem_append.mp h with h | h
                      · obtain ⟨hst, -, -⟩ := withdrawEventsFor_persist s bd liq _ _ _ h
                        simp at hst
                      · exact absurd h (swapEventsFor_no_persist cfg env direction _ _ _)
                    · simp at h
                  · simp at h
                · simp at h
                  exact h.2
              · simp at h
            · intro hcf
              simp [hck1] at hcf
            · intro hcf
              simp [hck2] at hcf

/-- Persistence discipline of the rebalance continuation after a
successful (or skipped) position removal. -/
theorem persistDiscipline_cont1
    (cfg : Config) (ttp : Int → ℚ) (tick : Int) (direction : TriggerDirection)
    (s : EngineState) (env : Env) (bd : Band) (liq : Nat)
    (tx3 : String × String × String)
    (hmin : ¬(env.now - s.lastRebalanceTime < cfg.minRebalanceIntervalMinutes * 60 * 1000))
    (hstop : s.esStopped = false)
    (hbd : BandManager.getBandToDissolve s.bands direction = some bd)
    (hliq : env.dissolveLiquidity = .ok liq)
    (hrem : env.removeRes = .ok tx3) :
    persistDiscipline (BandManager.getBandToDissolve s.bands direction) s.bands
      env.ckpt1Ok env.ckpt2Ok (executeBandRebalance cfg ttp tick direction s env).2 := by
  cases hck1 : env.ckpt1Ok with
  | false =>
    obtain ⟨-, -, -, -, htr⟩ := rebalance_fail_ckpt1 cfg ttp tick direction s env bd liq tx3
      hmin hstop hbd hliq hrem hck1
    refine ⟨?_, ?_, ?_, ?_⟩
    · intro st bs ff h
      rw [htr] at h
      simp [mem_ite] at h
    · intro bs ff h
      rw [htr] at h
      simp [mem_ite] at h
    · intro hcf
      constructor <;> intro a b c d h <;> rw [htr] at h <;> simp [mem_ite] at h
    · intro hcf lo hi a0 a1 h
      rw [htr] at h
      simp [mem_ite] at h
  | true =>
    by_cases hneed : ((direction = .lower ∧ env.bal0 > 0) ∨ (direction = .upper ∧ env.bal1 > 0))
    · rcases hswap : env.swapRes with _ | sh
      · obtain ⟨-, -, -, -, htr⟩ := rebalance_fail_swap cfg ttp tick direction s env bd liq tx3
          hmin hstop hbd hliq hrem hck1 hneed hswap
        refine ⟨?_, ?_, ?_, ?_⟩
        · intro st bs ff h
          rw [htr] at h
          rcases List.mem_append.mp h with h | h
          · rcases List.mem_append.mp h with h | h
            · obtain ⟨-, hbs, hff⟩ := withdrawEventsFor_persist s bd liq _ _ _ h
              exact ⟨hff, bd, hbd, hbs⟩
            · exact absurd h (swapEventsFor_no_persist cfg env direction _ _ _)
          · simp [mem_ite] at h
        · intro bs ff h
          rw [htr] at h
          rcases List.mem_append.mp h with h | h
          · rcases List.mem_append.mp h with h | h
            · obtain ⟨hst, -, -⟩ := withdrawEventsFor_persist s bd liq _ _ _ h
              simp at hst
            · exact absurd h (swapEventsFor_no_persist cfg env direction _ _ _)
          · simp [mem_ite] at h
        · intro hcf
          simp [hck1] at hcf
        · intro hcf lo hi a0 a1 h
          rw [htr] at h
          rcases List.mem_append.mp h with h | h
          · rcases List.mem_append.mp h with h | h
            · exact (withdrawEventsFor_no_swap_mint s bd liq).2 lo hi a0 a1 h
            · exact swapEventsFor_no_mint cfg env direction lo hi a0 a1 h
          · simp [mem_ite] at h
      · have h := persistDiscipline_cont2 cfg ttp tick direction s env bd liq tx3 sh
          hmin hstop hbd hliq hrem hck1 hswap
        rwa [hck1] at h
    · rw [rebalance_swapRes_irrel cfg ttp tick direction s env hneed]
      have h := persistDiscipline_cont2 cfg ttp tick direction s { env with swapRes := .ok "" }
        bd liq tx3 "" hmin hstop hbd hliq hrem hck1 rfl
      simp only [hck1] at h ⊢
      exact h

/-- Persistence discipline of one whole band rebalance, for every input. -/
theorem rebalance_persist_discipline
    (cfg : Config) (ttp : Int → ℚ) (tick : Int) (direction : TriggerDirection)
    (s : EngineState) (env : Env) :
    persistDiscipline (BandManager.getBandToDissolve s.bands direction) s.bands
      env.ckpt1Ok env.ckpt2Ok (executeBandRebalance cfg ttp tick direction s env).2 := by
  by_cases hmin : env.now - s.lastRebalanceTime < cfg.minRebalanceIntervalMinutes * 60 * 1000
  · rw [rebalance_skip_interval cfg ttp tick direction s env hmin]
    simp [persistDiscipline]
  by_cases hstopb : s.esStopped = true
  · rw [rebalance_skip_stopped cfg ttp tick direction s env hstopb]
    simp [persistDiscipline]
  have hstop : s.esStopped = false := by simpa using hstopb
  rcases hbd : BandManager.getBandToDissolve s.bands direction with _ | bd
  · obtain ⟨-, -, -, -, htr⟩ := rebalance_fail_noBand cfg ttp tick direction s env hmin hstop hbd
    refine ⟨?_, ?_, ?_, ?_⟩
    · intro st bs ff h
      rw [htr] at h
      simp [mem_ite] at h
    · intro bs ff h
      rw [htr] at h
      simp [mem_ite] at h
    · intro hcf
      constructor <;> intro a b c d h <;> rw [htr] at h <;> simp [mem_ite] at h
    · intro hcf lo hi a0 a1 h
      rw [htr] at h
      simp [mem_ite] at h
  · rcases hliq : env.dissolveLiquidity with _ | liq
    · obtain ⟨-, -, -, -, htr⟩ := rebalance_fail_posRead cfg ttp tick direction s env bd
        hmin hstop hbd hliq
      refine ⟨?_, ?_, ?_, ?_⟩
      · intro st bs ff h
        rw [htr] at h
        simp [mem_ite] at h
      · intro bs ff h
        rw [htr] at h
        simp [mem_ite] at h
      · intro hcf
        constructor <;> intro a b c d h <;> rw [htr] at h <;> simp [mem_ite] at h
      · intro hcf lo hi a0 a1 h
        rw [htr] at h
        simp [mem_ite] at h
    · by_cases hl0 : liq = 0
      · subst hl0
        rw [rebalance_removeRes_irrel cfg ttp tick direction s env hliq, ← hbd]
        exact persistDiscipline_cont1 cfg ttp tick direction s
          { env with dissolveLiquidity := .ok 0, removeRes := .ok ("", "", "") }
          bd 0 ("", "", "") hmin hstop hbd rfl rfl
      · rcases hrem : env.removeRes with _ | tx3
        · obtain ⟨-, -, -, -, htr⟩ := rebalance_fail_remove cfg ttp tick direction s env bd liq
            hmin hstop hbd hliq hl0 hrem
          refine ⟨?_, ?_, ?_, ?_⟩
          · intro st bs ff h
            rw [htr] at h
            simp [mem_ite] at h
          · intro bs ff h
            rw [htr] at h
            simp [mem_ite] at h
          · intro hcf
            constructor <;> intro a b c d h <;> rw [htr] at h <;> simp [mem_ite] at h
          · intro hcf lo hi a0 a1 h
            rw [htr] at h
            simp [mem_ite] at h
        · rw [← hbd]
          exact persistDiscipline_cont1 cfg ttp tick direction s env bd liq tx3
            hmin hstop hbd hliq hrem

/-- When the swap call of a band rebalance throws, the abort leaves the
`WITHDRAWN` checkpoint durably persisted: stage `WITHDRAWN`, the three
removal transaction hashes, and the post-removal ledger, with the disk
copy in sync. -/
theorem rebalance_swapfail_store
    (cfg : Config) (ttp : Int → ℚ) (tick : Int) (direction : TriggerDirection)
    (s : EngineState) (env : Env) (bd : Band) (liq : Nat)
    (tx3 : String × String × String)
    (hmin : ¬(env.now - s.lastRebalanceTime < cfg.minRebalanceIntervalMinutes * 60 * 1000))
    (hstop : s.esStopped = false)
    (hbd : BandManager.getBandToDissolve s.bands direction = some bd)
    (hliq : env.dissolveLiquidity = .ok liq)
    (hl0 : liq ≠ 0)
    (hrem : env.removeRes = .ok tx3)
    (hck1 : env.ckpt1Ok = true)
    (hneed : (direction = .lower ∧ env.bal0 > 0) ∨ (direction = .upper ∧ env.bal1 > 0))
    (hswap : env.swapRes = .error ()) :
    (executeBandRebalance cfg ttp tick direction s env).1.store.mem.rebalanceStage =
      some .WITHDRAWN ∧
    (executeBandRebalance cfg ttp tick direction s env).1.store.mem.pendingTxHashes =
      some [tx3.1, tx3.2.1, tx3.2.2] ∧
    (executeBandRebalance cfg ttp tick direction s env).1.store.mem.bands =
      some ((BandManager.removeBand s.bands bd.tokenId).map toBandState) ∧
    (executeBandRebalance cfg ttp tick direction s env).1.store.disk =
      (executeBandRebalance cfg ttp tick direction s env).1.store.mem := by
  rcases hneed with ⟨hdir, hb⟩ | ⟨hdir, hb⟩ <;> subst hdir <;>
    by_cases h3 : s.consecutiveErrors + 1 ≥ 3 <;>
    simp [executeBandRebalance, if_neg hmin, hstop, checkGasCost_outOfRange, hbd, hliq,
      hl0, hrem, hck1, hswap, hb, persistCheckpoint, Store.saveOrThrow, handleError, h3]

/-- C4.  The `WITHDRAWN` and `SWAPPED` checkpoints of a band rebalance are
persisted on the fail-fast `saveOrThrow` path (a failed checkpoint write
returns an error, and during `executeBandRebalance` a failed `WITHDRAWN`
write aborts before any swap or mint is issued while a failed `SWAPPED`
write aborts before the mint); a successful checkpoint write stores the
stage, the pending transaction hashes and the current ledger durably
(disk in sync with memory); the terminal persist clearing the checkpoint
uses the lossy `save` path (it never throws, and a failed write leaves
the disk copy behind).  Whenever a checkpoint stage is persisted during
the rebalance, the persisted bands payload is the post-removal ledger
(the dissolved band is already absent for `WITHDRAWN`, and `SWAPPED`
carries the identical ledger); in particular, a swap failure after the
`WITHDRAWN` write leaves stage `WITHDRAWN` with the three removal
transaction hashes on disk. -/
theorem checkpoint_fail_fast_confirmed
    (cfg : Config) (ttp : Int → ℚ) (tick : Int) (direction : TriggerDirection)
    (s : EngineState) (env : Env) :
    (∀ (s2 : EngineState) (stage : RebalanceStage) (txs : List String),
        persistCheckpoint s2 stage txs false = .error ()) ∧
    (∀ (s2 : EngineState) (stage : RebalanceStage) (txs : List String) r,
        persistCheckpoint s2 stage txs true = .ok r →
          r.1.store.mem.rebalanceStage = some stage ∧
          r.1.store.mem.pendingTxHashes = some txs ∧
          r.1.store.mem.bands = some (s2.bands.map toBandState) ∧
          r.1.store.disk = r.1.store.mem ∧
          r.2 = [Event.persist (some stage) (s2.bands.map toBandState) true]) ∧
    (∀ (s2 : EngineState) (ok : Bool),
        (persistState s2 ok).2 = [Event.persist none (s2.bands.map toBandState) false]) ∧
    (∀ (s2 : EngineState), (persistState s2 false).1.store.disk = s2.store.disk) ∧
    persistDiscipline (BandManager.getBandToDissolve s.bands direction) s.bands
      env.ckpt1Ok env.ckpt2Ok (executeBandRebalance cfg ttp tick direction s env).2 ∧
    (∀ (bd : Band) (liq : Nat) (tx3 : String × String × String),
        ¬(env.now - s.lastRebalanceTime < cfg.minRebalanceIntervalMinutes * 60 * 1000) →
        s.esStopped = false →
        BandManager.getBandToDissolve s.bands direction = some bd →
        env.dissolveLiquidity = .ok liq → liq ≠ 0 →
        env.removeRes = .ok tx3 → env.ckpt1Ok = true →
        ((direction = .lower ∧ env.bal0 > 0) ∨ (direction = .upper ∧ env.bal1 > 0)) →
        env.swapRes = .error () →
        (executeBandRebalance cfg ttp tick direction s env).1.store.mem.rebalanceStage =
            some .WITHDRAWN ∧
          (executeBandRebalance cfg ttp tick direction s env).1.store.mem.pendingTxHashes =
            some [tx3.1, tx3.2.1, tx3.2.2] ∧
          (executeBandRebalance cfg ttp tick direction s env).1.store.mem.bands =
            some ((BandManager.removeBand s.bands bd.tokenId).map toBandState) ∧
          (executeBandRebalance cfg ttp tick direction s env).1.store.disk =
            (executeBandRebalance cfg ttp tick direction s env).1.store.mem) := by
  refine ⟨?_, ?_, ?_, ?_, rebalance_persist_discipline cfg ttp tick direction s env, ?_⟩
  · intro s2 stage txs
    simp [persistCheckpoint, Store.saveOrThrow]
  · intro s2 stage txs r h
    simp [persistCheckpoint, Store.saveOrThrow] at h
    subst h
    simp
  · intro s2 ok
    simp [persistState]
  · intro s2
    simp [persistState, Store.save]
  · intro bd liq tx3 h1 h2 h3 h4 h5 h6 h7 h8 h9
    exact rebalance_swapfail_store cfg ttp tick direction s env bd liq tx3
      h1 h2 h3 h4 h5 h6 h7 h8 h9

theorem checkpoint_fail_fast_confirmed_witness :
    persistCheckpoint {} RebalanceStage.WITHDRAWN ["a", "b", "c"] false = .error () ∧
    (persistState ({} : EngineState) true).2 = [Event.persist none [] false] := by
  refine ⟨(checkpoint_fail_fast_confirmed {} (fun _ => 1) 0 .lower {} {}).1 {}
    RebalanceStage.WITHDRAWN ["a", "b", "c"], ?_⟩
  have h := (checkpoint_fail_fast_confirmed {} (fun _ => 1) 0 .lower {} {}).2.2.1
    ({} : EngineState) true
  simpa using h

/-! ## Ledger-invariant preservation (C1) -/

/-- Re-indexing keeps the token ids. -/
theorem reindexFrom_map_tokenId (l : List Band) :
    ∀ n, (BandManager.reindexFrom n l).map Band.tokenId = l.map Band.tokenId := by
  induction l with
  | nil => intro n; rfl
  | cons b tl ih => intro n; simp [BandManager.reindexFrom, ih]

/-- Re-indexing keeps the length. -/
theorem reindexFrom_length (l : List Band) :
    ∀ n, (BandManager.reindexFrom n l).length = l.length := by
  induction l with
  | nil => intro n; rfl
  | cons b tl ih => intro n; simp [BandManager.reindexFrom, ih]

/-- Re-indexing keeps any relation that only reads the ticks. -/
theorem reindexFrom_chain (R : Band → Band → Prop)
    (hR : ∀ (a b : Band) (n m : Nat),
      (R { a with index := n } { b with index := m } ↔ R a b)) (l : List Band) :
    ∀ n, List.Chain' R (BandManager.reindexFrom n l) ↔ List.Chain' R l := by
  induction l with
  | nil => intro n; simp [BandManager.reindexFrom]
  | cons b tl ih =>
    intro n
    cases tl with
    | nil => simp [BandManager.reindexFrom]
    | cons b2 tl2 =>
      rw [BandManager.reindexFrom, BandManager.reindexFrom, List.chain'_cons, List.chain'_cons]
      exact and_congr (hR b b2 n (n + 1)) (ih (n + 1))

/-- Re-indexing is invisible to the uniform-width predicate. -/
theorem reindexFrom_uniformWidth (w : Int) (l : List Band) :
    ∀ n, uniformWidth w (BandManager.reindexFrom n l) ↔ uniformWidth w l := by
  induction l with
  | nil => intro n; simp [BandManager.reindexFrom, uniformWidth]
  | cons b tl ih =>
    intro n
    rw [BandManager.reindexFrom]
    unfold uniformWidth
    simp only [List.mem_cons, forall_eq_or_imp]
    exact and_congr Iff.rfl (ih (n + 1))

/-- Re-indexing is invisible to the whole rest invariant. -/
theorem ledgerInv_reindexFrom (w : Int) (n : Nat) (l : List Band) :
    ledgerInv w (BandManager.reindexFrom n l) ↔ ledgerInv w l := by
  unfold ledgerInv sortedBands contiguousBands nodupTokenIds
  rw [reindexFrom_length, reindexFrom_map_tokenId,
    reindexFrom_chain (fun a b => a.tickLower ≤ b.tickLower) (fun _ _ _ _ => Iff.rfl),
    reindexFrom_chain (fun a b => a.tickUpper = b.tickLower) (fun _ _ _ _ => Iff.rfl),
    reindexFrom_uniformWidth]

/-- Removing the last band of a distinct-id ledger keeps exactly the
prefix (re-indexed). -/
theorem removeBand_last (ys : List Band) (bd : Band)
    (hnodup : nodupTokenIds (ys ++ [bd])) :
    BandManager.removeBand (ys ++ [bd]) bd.tokenId = BandManager.reindexFrom 0 ys := by
  have hnin : bd.tokenId ∉ ys.map Band.tokenId := by
    have h := hnodup
    unfold nodupTokenIds at h
    rw [List.map_append, List.nodup_append] at h
    intro hmem
    exact h.2.2 hmem (by simp)
  unfold BandManager.removeBand
  congr 1
  rw [List.filter_append]
  have h1 : ys.filter (fun b => b.tokenId ≠ bd.tokenId) = ys := by
    refine List.filter_eq_self.mpr ?_
    intro a ha
    simp only [ne_eq, decide_eq_true_eq]
    intro he
    exact hnin (he ▸ List.mem_map_of_mem Band.tokenId ha)
  have h2 : List.filter (fun b => b.tokenId ≠ bd.tokenId) [bd] = [] := by simp
  rw [h1, h2, List.append_nil]

/-- Removing the first band of a distinct-id ledger keeps exactly the
tail (re-indexed). -/
theorem removeBand_head (b : Band) (tl : List Band)
    (hnodup : nodupTokenIds (b :: tl)) :
    BandManager.removeBand (b :: tl) b.tokenId = BandManager.reindexFrom 0 tl := by
  have hnin : b.tokenId ∉ tl.map Band.tokenId := by
    have h := hnodup
    unfold nodupTokenIds at h
    rw [List.map_cons, List.nodup_cons] at h
    exact h.1
  unfold BandManager.removeBand
  congr 1
  rw [List.filter_cons_of_neg (by simp)]
  refine List.filter_eq_self.mpr ?_
  intro a ha
  simp only [ne_eq, decide_eq_true_eq]
  intro he
  exact hnin (he ▸ List.mem_map_of_mem Band.tokenId ha)

/-- The insertion edge used by the rebalance for each trigger direction. -/
def insertPosFor : TriggerDirection → BandManager.InsertPos
  | .lower => .atStart
  | .upper => .atEnd

/-- One error-free band-rebalance ledger update preserves the 7-band rest
invariant: the dissolved edge band is removed and the freshly minted band
(width `w`, flush against the surviving edge, fresh token id) is inserted
on the opposite edge. -/
theorem ledgerInv_rebalance_step (w : Int) (bs : List Band) (d : TriggerDirection)
    (bd : Band) (nt : Int × Int) (tid : Nat)
    (hinv : ledgerInv w bs)
    (hbd : BandManager.getBandToDissolve bs d = some bd)
    (hnt : BandManager.getNewBandTicks (BandManager.removeBand bs bd.tokenId) w d = some nt)
    (hfresh : tid ∉ bs.map Band.tokenId) :
    ledgerInv w (BandManager.addBand (BandManager.removeBand bs bd.tokenId) tid nt.1 nt.2
      (insertPosFor d)) := by
  obtain ⟨hlen, hsort, hcont, hwid, hnod, hwpos⟩ := hinv
  cases d with
  | lower =>
    simp only [insertPosFor]
    have hlast : bs.getLast? = some bd := hbd
    obtain ⟨ys, rfl⟩ := List.getLast?_eq_some_iff.mp hlast
    have hrm : BandManager.removeBand (ys ++ [bd]) bd.tokenId = BandManager.reindexFrom 0 ys :=
      removeBand_last ys bd hnod
    have hys_len : ys.length = 6 := by
      simp [List.length_append] at hlen
      omega
    cases ys with
    | nil => simp at hys_len
    | cons y0 ys' =>
      rw [hrm] at hnt
      have hnt' : nt = (y0.tickLower - w, y0.tickLower) := by
        simp [BandManager.getNewBandTicks, BandManager.reindexFrom] at hnt
        exact hnt.symm
      subst hnt'
      rw [hrm]
      unfold BandManager.addBand
      rw [ledgerInv_reindexFrom]
      refine ⟨?_, ?_, ?_, ?_, ?_, hwpos⟩
      · simp [reindexFrom_length]
        simpa using hys_len
      · unfold sortedBands
        rw [show BandManager.reindexFrom 0 (y0 :: ys')
              = { y0 with index := 0 } :: BandManager.reindexFrom 1 ys' from rfl,
            List.chain'_cons]
        constructor
        · show (y0.tickLower - w, y0.tickLower).1 ≤ y0.tickLower
          simp
          omega
        · exact (reindexFrom_chain (fun a b => a.tickLower ≤ b.tickLower)
            (fun _ _ _ _ => Iff.rfl) (y0 :: ys') 0).mpr (List.chain'_append.mp hsort).1
      · unfold contiguousBands
        rw [show BandManager.reindexFrom 0 (y0 :: ys')
              = { y0 with index := 0 } :: BandManager.reindexFrom 1 ys' from rfl,
            List.chain'_cons]
        constructor
        · rfl
        · exact (reindexFrom_chain (fun a b => a.tickUpper = b.tickLower)
            (fun _ _ _ _ => Iff.rfl) (y0 :: ys') 0).mpr (List.chain'_append.mp hcont).1
      · intro b hb
        rcases List.mem_cons.mp hb with rfl | hb
        · simp
        · exact (reindexFrom_uniformWidth w (y0 :: ys') 0).mpr
            (fun c hc => hwid c (List.mem_append_left _ hc)) b hb
      · unfold nodupTokenIds
        rw [List.map_cons, reindexFrom_map_tokenId, List.nodup_cons]
        constructor
        · intro hmem
          exact hfresh (by rw [List.map_append]; exact List.mem_append_left _ hmem)
        · have h := hnod
          unfold nodupTokenIds at h
          rw [List.map_append, List.nodup_append] at h
          exact h.1
  | upper =>
    simp only [insertPosFor]
    have hhead : bs.head? = some bd := hbd
    cases bs with
    | nil => simp at hhead
    | cons b0 tl =>
      have hb0 : b0 = bd := by simpa using hhead
      subst hb0
      have hrm : BandManager.removeBand (b0 :: tl) b0.tokenId = BandManager.reindexFrom 0 tl :=
        removeBand_head b0 tl hnod
      rw [hrm] at hnt
      obtain ⟨bx, hbx, hbxt⟩ := Option.map_eq_some'.mp hnt
      have hmemx : bx ∈ BandManager.reindexFrom 0 tl := List.mem_of_mem_getLast? hbx
      have hwidth_tl : uniformWidth w (BandManager.reindexFrom 0 tl) :=
        (reindexFrom_uniformWidth w tl 0).mpr
          (fun c hc => hwid c (List.mem_cons_of_mem _ hc))
      have hnt' : nt = (bx.tickUpper, bx.tickUpper + w) := hbxt.symm
      subst hnt'
      rw [hrm]
      unfold BandManager.addBand
      rw [ledgerInv_reindexFrom]
      refine ⟨?_, ?_, ?_, ?_, ?_, hwpos⟩
      · simp [reindexFrom_length]
        simpa using hlen
      · unfold sortedBands
        refine List.chain'_append.mpr ⟨?_, by simp, ?_⟩
        · exact (reindexFrom_chain (fun a b => a.tickLower ≤ b.tickLower)
            (fun _ _ _ _ => Iff.rfl) tl 0).mpr hsort.tail
        · intro x hx y hy
          rw [hbx] at hx
          simp at hx hy
          subst hx
          subst hy
          show bx.tickLower ≤ bx.tickUpper
          have := hwidth_tl bx hmemx
          omega
      · unfold contiguousBands
        refine List.chain'_append.mpr ⟨?_, by simp, ?_⟩
        · exact (reindexFrom_chain (fun a b => a.tickUpper = b.tickLower)
            (fun _ _ _ _ => Iff.rfl) tl 0).mpr hcont.tail
        · intro x hx y hy
          rw [hbx] at hx
          simp at hx hy
          subst hx
          subst hy
          rfl
      · intro b hb
        rcases List.mem_append.mp hb with hb | hb
        · exact hwidth_tl b hb
        · simp at hb
          subst hb
          simp
      · unfold nodupTokenIds
        rw [List.map_append, reindexFrom_map_tokenId, List.nodup_append]
        refine ⟨?_, by simp, ?_⟩
        · have h := hnod
          unfold nodupTokenIds at h
          rw [List.map_cons, List.nodup_cons] at h
          exact h.2
        · intro a ha hbmem
          simp at hbmem
          subst hbmem
          exact hfresh (by rw [List.map_cons]; exact List.mem_cons_of_mem _ ha)

/-- `emergencyWithdraw` either clears the ledger or leaves ledger and
width untouched. -/
theorem emergencyWithdraw_bands_cases (cfg : Config) (s : EngineState) (env : Env) :
    (emergencyWithdraw cfg s env).1.bands = [] ∨
    ((emergencyWithdraw cfg s env).1.bands = s.bands ∧
     (emergencyWithdraw cfg s env).1.bandTickWidth = s.bandTickWidth) := by
  unfold emergencyWithdraw
  split
  · exact .inr ⟨rfl, rfl⟩
  · dsimp only
    split
    · left
      simp [persistState]
    · exact .inr ⟨rfl, rfl⟩

/-- Over an invariant ledger both rebalance targets exist: a band to
dissolve and well-defined replacement ticks. -/
theorem rebalance_targets_exist (w : Int) (bs : List Band) (d : TriggerDirection)
    (hinv : ledgerInv w bs) :
    ∃ bd nt, BandManager.getBandToDissolve bs d = some bd ∧
      BandManager.getNewBandTicks (BandManager.removeBand bs bd.tokenId) w d = some nt := by
  obtain ⟨hlen, -, -, -, hnod, -⟩ := hinv
  have hne : bs ≠ [] := by
    intro h
    rw [h] at hlen
    simp at hlen
  cases d with
  | lower =>
    obtain ⟨bd, hbd⟩ := Option.isSome_iff_exists.mp (List.getLast?_isSome.mpr hne)
    obtain ⟨ys, hys⟩ := List.getLast?_eq_some_iff.mp hbd
    have hrm : BandManager.removeBand bs bd.tokenId = BandManager.reindexFrom 0 ys := by
      rw [hys]
      exact removeBand_last ys bd (hys ▸ hnod)
    have hys_len : ys.length = 6 := by
      rw [hys] at hlen
      simp at hlen
      omega
    cases ys with
    | nil => simp at hys_len
    | cons y0 ys' =>
      exact ⟨bd, (y0.tickLower - w, y0.tickLower), hbd, by rw [hrm]; rfl⟩
  | upper =>
    cases bs with
    | nil => exact absurd rfl hne
    | cons b0 tl =>
      have hrm : BandManager.removeBand (b0 :: tl) b0.tokenId = BandManager.reindexFrom 0 tl :=
        removeBand_head b0 tl hnod
      have htl_ne : BandManager.reindexFrom 0 tl ≠ [] := by
        rw [Ne, reindexFrom_eq_nil]
        intro h
        rw [h] at hlen
        simp at hlen
      obtain ⟨bx, hbx⟩ := Option.isSome_iff_exists.mp (List.getLast?_isSome.mpr htl_ne)
      refine ⟨b0, (bx.tickUpper, bx.tickUpper + w), rfl, ?_⟩
      rw [hrm]
      show (BandManager.reindexFrom 0 tl).getLast?.map _ = _
      rw [hbx]
      rfl

/-- C1, amended.  Provided the ledger satisfied the 7-band rest invariant
before the tick, the rebalance-path chain calls succeed, the freshly
minted token id is new, and neither loss guard fires, a completed
`onPriceUpdate` leaves the ledger either empty (emergency withdraw) or
again holding exactly 7 bands, ordered by `tickLower`, contiguous, and
each of width `bandTickWidth`.  (As stated the claim is false: the
position-adoption boot path reaches states whose ledger stays non-empty
with fewer than 7 bands, see the counterexample.) -/
theorem ledger_seven_amended
    (cfg : Config) (ttp : Int → ℚ) (tick : Int) (s : EngineState) (env : Env)
    (r : EngineState × List Event)
    (liq : Nat) (tx3 : String × String × String) (sh : String) (mr : Nat × String)
    (hinv : ledgerInv s.bandTickWidth s.bands)
    (hliq : env.dissolveLiquidity = .ok liq)
    (hrem : env.removeRes = .ok tx3)
    (hck1 : env.ckpt1Ok = true)
    (hswap : env.swapRes = .ok sh)
    (hck2 : env.ckpt2Ok = true)
    (hmint : env.mintRes = .ok mr)
    (hfresh : mr.1 ∉ s.bands.map Band.tokenId)
    (hL1 : ¬(estimatePortfolioValue env.preBal0 env.preBal1 cfg.decimals0 cfg.decimals1 (ttp tick) > 0 ∧
             estimatePortfolioValue env.newBal0 env.newBal1 cfg.decimals0 cfg.decimals1 (ttp tick) > 0 ∧
             checkRebalanceLoss
               (estimatePortfolioValue env.preBal0 env.preBal1 cfg.decimals0 cfg.decimals1 (ttp tick))
               (estimatePortfolioValue env.newBal0 env.newBal1 cfg.decimals0 cfg.decimals1 (ttp tick)) = true))
    (hL2 : portfolioLossFires s.initialValue
        (estimatePortfolioValue env.newBal0 env.newBal1 cfg.decimals0 cfg.decimals1 (ttp tick))
        cfg.maxTotalLossPercent = false)
    (hok : onPriceUpdate cfg ttp tick s env = .ok r) :
    ledgerInv r.1.bandTickWidth r.1.bands ∨ r.1.bands = [] := by
  have hne : s.bands ≠ [] := by
    intro h
    have := hinv.1
    rw [h] at this
    simp at this
  by_cases hact : s.state = .MONITORING ∨ s.state = .IDLE
  · by_cases hdep : (checkDepeg cfg ttp tick s).1 = true
    · rw [onPriceUpdate_active_depeg cfg ttp tick s env hact hdep] at hok
      injection hok with hok
      subst hok
      rcases emergencyWithdraw_bands_cases cfg
          { s with esStopped := true, esReason := some .depeg } env with h | ⟨h1, h2⟩
      · exact .inr h
      · left
        rw [h1, h2]
        exact hinv
    · have hnf : (checkDepeg cfg ttp tick s).1 = false := by
        simpa using hdep
      by_cases hsafe : BandManager.isInSafeZone s.bands tick = true
      · rw [onPriceUpdate_active_safe cfg ttp tick s env hact hnf hne hsafe] at hok
        injection hok with hok
        subst hok
        exact .inl hinv
      · have hsafe' : BandManager.isInSafeZone s.bands tick = false := by
          simpa using hsafe
        rcases htd : BandManager.getTriggerDirection s.bands tick with _ | od
        · exact absurd htd (getTriggerDirection_ne_none s.bands hne tick)
        · cases od with
          | none =>
            rw [onPriceUpdate_active_noTrigger cfg ttp tick s env hact hnf hne hsafe' htd] at hok
            injection hok with hok
            subst hok
            exact .inl hinv
          | some d =>
            rw [onPriceUpdate_active_trigger cfg ttp tick s env d hact hnf hne hsafe' htd] at hok
            injection hok with hok
            subst hok
            by_cases hmin : env.now - s.lastRebalanceTime < cfg.minRebalanceIntervalMinutes * 60 * 1000
            · rw [rebalance_skip_interval cfg ttp tick d s env hmin]
              exact .inl hinv
            · by_cases hstop : s.esStopped = true
              · rw [rebalance_skip_stopped cfg ttp tick d s env hstop]
                exact .inl hinv
              · have hstop' : s.esStopped = false := by
                  simpa using hstop
                obtain ⟨bd, nt, hbd, hnt⟩ :=
                  rebalance_targets_exist s.bandTickWidth s.bands d hinv
                have spec := rebalance_success_spec cfg ttp tick d s env bd liq tx3 sh nt mr
                  hmin hstop' hbd hliq hrem hck1 hswap hck2 hnt hmint hL1 hL2
                have hstep := ledgerInv_rebalance_step s.bandTickWidth s.bands d bd nt mr.1
                  hinv hbd hnt hfresh
                left
                rw [spec.2.2.2.2.2.2.2, spec.2.1]
                cases d
                · exact hstep
                · exact hstep
  · have hm : s.state ≠ .MONITORING := fun h => hact (.inl h)
    have hi : s.state ≠ .IDLE := fun h => hact (.inr h)
    rw [onPriceUpdate_skip_state cfg ttp tick s env hm hi] at hok
    injection hok with hok
    subst hok
    exact .inl hinv

/-- Counterexample to C1 as stated: the position-adoption boot path yields
a reachable state with a single-band ledger, and the next tick (inside the
adopted band, hence in the safe zone) completes without touching it — the
ledger stays non-empty with 1 band, not 7. -/
theorem ledger_seven_counterexample :
    (onPriceUpdate {} (fun _ => 1) 10
        (initializeEngine {} {} { findExisting := [⟨77, 9, 0, 42⟩] }).1 {}).map
      (fun p => p.1.bands) =
      .ok [{ index := 0, tokenId := 77, tickLower := 0, tickUpper := 42 }] := by
  decide

theorem ledger_seven_amended_witness :
    ∃ r, onPriceUpdate {} (fun _ => 1) 5
        { state := RState.MONITORING,
          bands := [{ index := 0, tokenId := 1, tickLower := 0, tickUpper := 10 },
                    { index := 1, tokenId := 2, tickLower := 10, tickUpper := 20 },
                    { index := 2, tokenId := 3, tickLower := 20, tickUpper := 30 },
                    { index := 3, tokenId := 4, tickLower := 30, tickUpper := 40 },
                    { index := 4, tokenId := 5, tickLower := 40, tickUpper := 50 },
                    { index := 5, tokenId := 6, tickLower := 50, tickUpper := 60 },
                    { index := 6, tokenId := 7, tickLower := 60, tickUpper := 70 }],
          bandTickWidth := 10 } { mintRes := .ok (100, "") } = .ok r ∧
      (ledgerInv r.1.bandTickWidth r.1.bands ∨ r.1.bands = []) := by
  refine ⟨_, rfl, ?_⟩
  exact ledger_seven_amended {} (fun _ => 1) 5
    { state := RState.MONITORING,
      bands := [{ index := 0, tokenId := 1, tickLower := 0, tickUpper := 10 },
                { index := 1, tokenId := 2, tickLower := 10, tickUpper := 20 },
                { index := 2, tokenId := 3, tickLower := 20, tickUpper := 30 },
                { index := 3, tokenId := 4, tickLower := 30, tickUpper := 40 },
                { index := 4, tokenId := 5, tickLower := 40, tickUpper := 50 },
                { index := 5, tokenId := 6, tickLower := 50, tickUpper := 60 },
                { index := 6, tokenId := 7, tickLower := 60, tickUpper := 70 }],
      bandTickWidth := 10 } { mintRes := .ok (100, "") } _
    0 ("", "", "") "" (100, "")
    (by
      refine ⟨rfl, ?_, ?_, ?_, ?_, by decide⟩
      · simp +decide [sortedBands, List.chain'_cons]
      · simp +decide [contiguousBands, List.chain'_cons]
      · simp +decide [uniformWidth]
      · simp +decide [nodupTokenIds])
    rfl rfl rfl rfl rfl rfl (by decide)
    (by
      intro hc
      have h0 : estimatePortfolioValue 0 0 6 18 1 = 0 := by
        norm_num [estimatePortfolioValue]
      rw [h0] at hc
      exact absurd hc.1 (by norm_num))
    rfl rfl
